import Mathlib

/-! # Solar system viewer: kinematics, trails, camera and sphere mesh

A shallow embedding of `src/src/main.cpp`.

* `float`/`double` values are embedded as elements of an arbitrary linearly
  ordered field `K` (exact arithmetic); `ℚ` is used for concrete evaluation and
  `ℝ` where trigonometric values are needed. The conversions from `double` to
  `float` at the head of `mouseCallback` are made explicit in
  `mouseCallbackFloat`, with `toFloat32` as the IEEE rounding.
* The C math library and the constant `M_PI` are passed in as a `Libm K` record.
* `unsigned int` is a natural number reduced modulo `2 ^ 32`; `size_t` values
  (vector sizes and the indices running over them) are plain natural numbers.
* `std::vector` is a `List`, of any length.
* Calls into OpenGL, GLFW window management and the text renderer that do not
  write any of the program's own variables are left out.
-/

set_option linter.unusedVariables false
set_option linter.unusedSectionVars false

namespace SolarSystem

/-! ## Vectors and matrices (the parts of GLM that `main.cpp` uses) -/

/-- The C math functions used by the program and by GLM, and the constant `M_PI`. -/
structure Libm (K : Type) where
  cos : K → K
  sin : K → K
  inversesqrt : K → K
  pi : K

/-- Mirror of `glm::vec3`. -/
structure Vec3 (K : Type) where
  x : K
  y : K
  z : K
deriving DecidableEq, Repr

/-- Mirror of `glm::vec4`. -/
structure Vec4 (K : Type) where
  x : K
  y : K
  z : K
  w : K
deriving DecidableEq, Repr

/-- Mirror of `glm::mat4`: four columns, `c3` being `m[3]`. -/
structure Mat4 (K : Type) where
  c0 : Vec4 K
  c1 : Vec4 K
  c2 : Vec4 K
  c3 : Vec4 K
deriving DecidableEq, Repr

section Algebra

variable {K : Type} [LinearOrderedField K]

namespace Vec3

/-- Componentwise sum, `a + b`. -/
def add (a b : Vec3 K) : Vec3 K := ⟨a.x + b.x, a.y + b.y, a.z + b.z⟩

/-- Componentwise difference, `a - b`. -/
def sub (a b : Vec3 K) : Vec3 K := ⟨a.x - b.x, a.y - b.y, a.z - b.z⟩

/-- Negation, `-a`. -/
def neg (a : Vec3 K) : Vec3 K := ⟨-a.x, -a.y, -a.z⟩

/-- Product with a scalar, `a * k`. -/
def smul (a : Vec3 K) (k : K) : Vec3 K := ⟨a.x * k, a.y * k, a.z * k⟩

/-- Quotient by a scalar, `a / k`. -/
def sdiv (a : Vec3 K) (k : K) : Vec3 K := ⟨a.x / k, a.y / k, a.z / k⟩

/-- Mirror of `glm::dot`. -/
def dot (a b : Vec3 K) : K := a.x * b.x + a.y * b.y + a.z * b.z

/-- Mirror of `glm::cross`. -/
def cross (a b : Vec3 K) : Vec3 K :=
  ⟨a.y * b.z - b.y * a.z, a.z * b.x - b.z * a.x, a.x * b.y - b.x * a.y⟩

/-- Mirror of `glm::normalize`: `v * inversesqrt(dot(v, v))`. -/
def normalize (L : Libm K) (v : Vec3 K) : Vec3 K := smul v (L.inversesqrt (dot v v))

end Vec3

namespace Vec4

/-- Componentwise sum. -/
def add (a b : Vec4 K) : Vec4 K := ⟨a.x + b.x, a.y + b.y, a.z + b.z, a.w + b.w⟩

/-- Product with a scalar. -/
def smul (a : Vec4 K) (k : K) : Vec4 K := ⟨a.x * k, a.y * k, a.z * k, a.w * k⟩

/-- The constructor `glm::vec4(v, w)`. -/
def ofVec3 (v : Vec3 K) (w : K) : Vec4 K := ⟨v.x, v.y, v.z, w⟩

/-- The conversion `glm::vec3(v)`, dropping `w`. -/
def toVec3 (v : Vec4 K) : Vec3 K := ⟨v.x, v.y, v.z⟩

end Vec4

namespace Mat4

/-- The matrix `glm::mat4(1.0f)`. -/
def identity : Mat4 K :=
  ⟨⟨1, 0, 0, 0⟩, ⟨0, 1, 0, 0⟩, ⟨0, 0, 1, 0⟩, ⟨0, 0, 0, 1⟩⟩

/-- Matrix times column vector, `m * v`. -/
def mulVec (m : Mat4 K) (v : Vec4 K) : Vec4 K :=
  Vec4.add (Vec4.add (Vec4.add (Vec4.smul m.c0 v.x) (Vec4.smul m.c1 v.y))
    (Vec4.smul m.c2 v.z)) (Vec4.smul m.c3 v.w)

end Mat4

/-- Mirror of `glm::translate(m, v)`: only `m[3]` changes, to
`m[0] * v[0] + m[1] * v[1] + m[2] * v[2] + m[3]`. -/
def translate (m : Mat4 K) (v : Vec3 K) : Mat4 K :=
  { m with
    c3 := Vec4.add (Vec4.add (Vec4.add (Vec4.smul m.c0 v.x) (Vec4.smul m.c1 v.y))
            (Vec4.smul m.c2 v.z)) m.c3 }

/-- Mirror of `glm::rotate(m, angle, v)` (GLM `ext/matrix_transform.inl`): the
rotation about the normalised axis is built and `m` is multiplied by it on the
right; `m[3]` is kept. -/
def rotate (L : Libm K) (m : Mat4 K) (angle : K) (v : Vec3 K) : Mat4 K :=
  let c := L.cos angle
  let s := L.sin angle
  let axis := Vec3.normalize L v
  let temp := Vec3.smul axis (1 - c)
  let r00 := c + temp.x * axis.x
  let r01 := temp.x * axis.y + s * axis.z
  let r02 := temp.x * axis.z - s * axis.y
  let r10 := temp.y * axis.x - s * axis.z
  let r11 := c + temp.y * axis.y
  let r12 := temp.y * axis.z + s * axis.x
  let r20 := temp.z * axis.x + s * axis.y
  let r21 := temp.z * axis.y - s * axis.x
  let r22 := c + temp.z * axis.z
  { c0 := Vec4.add (Vec4.add (Vec4.smul m.c0 r00) (Vec4.smul m.c1 r01)) (Vec4.smul m.c2 r02)
    c1 := Vec4.add (Vec4.add (Vec4.smul m.c0 r10) (Vec4.smul m.c1 r11)) (Vec4.smul m.c2 r12)
    c2 := Vec4.add (Vec4.add (Vec4.smul m.c0 r20) (Vec4.smul m.c1 r21)) (Vec4.smul m.c2 r22)
    c3 := m.c3 }

end Algebra

/-! ## Program data -/

/-- Mirror of `const int MAX_TRAIL_POINTS = 200`. -/
def MAX_TRAIL_POINTS : Nat := 200

/-- Mirror of `struct Planet`. -/
structure Planet (K : Type) where
  name : String
  radius : K
  distance : K
  orbitSpeed : K
  rotationSpeed : K
  tilt : K
  currentOrbitAngle : K
  currentRotationAngle : K
  textureID : Nat
  trailPoints : List (Vec3 K)
  baseOrbitSpeed : K
  baseRotationSpeed : K

section Trail

variable {K : Type} [LinearOrderedField K]

/-- Mirror of `addTrailPoint`: when the trail already holds `MAX_TRAIL_POINTS`
points (or more) its first element is erased, then the position is pushed at
the back. -/
def addTrailPoint (planet : Planet K) (position : Vec3 K) : Planet K :=
  let trail :=
    if planet.trailPoints.length ≥ MAX_TRAIL_POINTS then planet.trailPoints.tail
    else planet.trailPoints
  { planet with trailPoints := trail ++ [position] }

/-- The trail after `addTrailPoint` has been called once for each point of `pts`,
in order, on a planet whose trail starts empty. -/
def trailAfter (planet : Planet K) (pts : List (Vec3 K)) : List (Vec3 K) :=
  (pts.foldl addTrailPoint { planet with trailPoints := [] }).trailPoints

/-- Mirror of the loop of `drawTrail` over `i = 0 .. size - 1`, where the list is
`trailPoints[i ..]`: it pushes the position of point `i` and the colour
`(1, 1, 1, alpha)`, with `alpha = float(i) / size`, overwritten by `0` when
`i < size / 2` (division of `size_t` values). -/
def drawTrailLoop (size : Nat) : List (Vec3 K) → Nat → List K → List K → List K × List K
  | [], _, trailVertices, trailColors => (trailVertices, trailColors)
  | p :: rest, i, trailVertices, trailColors =>
    let alpha : K := (i : K) / (size : K)
    let alpha : K := if i < size / 2 then 0 else alpha
    drawTrailLoop size rest (i + 1) (trailVertices ++ [p.x, p.y, p.z])
      (trailColors ++ [1, 1, 1, alpha])

/-- Mirror of `drawTrail`: `none` when the trail has fewer than two points
(nothing is drawn), else the vertex and colour arrays that are uploaded and
drawn as a line strip. -/
def drawTrail (planet : Planet K) : Option (List K × List K) :=
  if planet.trailPoints.length < 2 then none
  else some (drawTrailLoop planet.trailPoints.length planet.trailPoints 0 [] [])

/-- The alpha of point `i` in a colour array laid out as four floats per point
(attribute 1 of `drawTrail`: size 4, stride `4 * sizeof(float)`). -/
def alphaAt (trailColors : List K) (i : Nat) : Option K := trailColors[4 * i + 3]?

end Trail

/-! ## Global state and input callbacks -/

/-- The GLFW action code `GLFW_RELEASE`. -/
def GLFW_RELEASE : Int := 0
/-- The GLFW action code `GLFW_PRESS`. -/
def GLFW_PRESS : Int := 1
/-- The GLFW action code `GLFW_REPEAT`. -/
def GLFW_REPEAT : Int := 2
/-- The GLFW button code `GLFW_MOUSE_BUTTON_LEFT`. -/
def GLFW_MOUSE_BUTTON_LEFT : Int := 0
/-- The GLFW button code `GLFW_MOUSE_BUTTON_RIGHT`. -/
def GLFW_MOUSE_BUTTON_RIGHT : Int := 1
/-- The GLFW key code `GLFW_KEY_ESCAPE`. -/
def GLFW_KEY_ESCAPE : Int := 256
/-- The GLFW key code `GLFW_KEY_RIGHT`. -/
def GLFW_KEY_RIGHT : Int := 262
/-- The GLFW key code `GLFW_KEY_LEFT`. -/
def GLFW_KEY_LEFT : Int := 263
/-- The GLFW key code `GLFW_KEY_DOWN`. -/
def GLFW_KEY_DOWN : Int := 264
/-- The GLFW key code `GLFW_KEY_UP`. -/
def GLFW_KEY_UP : Int := 265
/-- The GLFW key code `GLFW_KEY_LEFT_CONTROL`. -/
def GLFW_KEY_LEFT_CONTROL : Int := 341
/-- The GLFW key code `GLFW_KEY_RIGHT_CONTROL`. -/
def GLFW_KEY_RIGHT_CONTROL : Int := 345
/-- The GLFW key code `GLFW_KEY_F`. -/
def GLFW_KEY_F : Int := 70
/-- The GLFW key code `GLFW_KEY_R`. -/
def GLFW_KEY_R : Int := 82

/-- The variables of `main.cpp` that the callbacks and the render loop read and
write: the file-scope globals, the two locals of `main` that live across
frames (`planetPositions`, `moonPosition`) and the window's close flag. -/
structure Scene (K : Type) where
  rotationSpeed : K
  orbitSpeed : K
  cameraPos : Vec3 K
  cameraTarget : Vec3 K
  cameraUp : Vec3 K
  cameraZoom : K
  firstMouse : Bool
  lastX : K
  lastY : K
  leftMousePressed : Bool
  rightMousePressed : Bool
  showPlanetNames : Bool
  currentFont : Int
  planets : List (Planet K)
  moon : Planet K
  planetPositions : List (Vec3 K)
  moonPosition : Vec3 K
  windowShouldClose : Bool

section Callbacks

variable {K : Type} [LinearOrderedField K]

/-- Mirror of `const unsigned int SCR_WIDTH = 1280`. -/
def SCR_WIDTH : Nat := 1280
/-- Mirror of `const unsigned int SCR_HEIGHT = 720`. -/
def SCR_HEIGHT : Nat := 720
/-- Mirror of `float mouseSpeed = 0.5f` (never assigned afterwards). -/
def mouseSpeed : K := 0.5
/-- Mirror of `float scrollSpeed = 2.0f` (never assigned afterwards). -/
def scrollSpeed : K := 2.0
/-- Mirror of `DEFAULT_CAMERA_POS`. -/
def DEFAULT_CAMERA_POS : Vec3 K := ⟨0.0, 100.0, 230.0⟩
/-- Mirror of `DEFAULT_CAMERA_TARGET`. -/
def DEFAULT_CAMERA_TARGET : Vec3 K := ⟨0.0, 0.0, 0.0⟩
/-- Mirror of `DEFAULT_CAMERA_UP`. -/
def DEFAULT_CAMERA_UP : Vec3 K := ⟨0.0, 1.0, 0.0⟩
/-- Mirror of `DEFAULT_CAMERA_ZOOM`. -/
def DEFAULT_CAMERA_ZOOM : K := 15.0

/-- Mirror of `mouseCallback`. -/
def mouseCallback (L : Libm K) (s : Scene K) (xpos ypos : K) : Scene K :=
  let s : Scene K := if s.firstMouse then { s with lastX := xpos, lastY := ypos, firstMouse := false } else s
  let xoffset := xpos - s.lastX
  let yoffset := ypos - s.lastY
  let s : Scene K := { s with lastX := xpos, lastY := ypos }
  let s : Scene K :=
    if s.leftMousePressed then
      let rotX := -yoffset * mouseSpeed * 0.01
      let rotY := -xoffset * mouseSpeed * 0.01
      let direction := Vec3.normalize L (Vec3.sub s.cameraPos s.cameraTarget)
      let right := Vec3.normalize L (Vec3.cross s.cameraUp direction)
      let rotMatrix := rotate L Mat4.identity rotY s.cameraUp
      let rotMatrix := rotate L rotMatrix rotX right
      let newPos := Mat4.mulVec rotMatrix (Vec4.ofVec3 (Vec3.sub s.cameraPos s.cameraTarget) 1.0)
      { s with cameraPos := Vec3.add s.cameraTarget (Vec4.toVec3 newPos) }
    else s
  let s : Scene K :=
    if s.rightMousePressed then
      let direction := Vec3.normalize L (Vec3.sub s.cameraPos s.cameraTarget)
      let right := Vec3.normalize L (Vec3.cross s.cameraUp direction)
      let up := Vec3.cross direction right
      let pan := Vec3.sdiv (Vec3.smul (Vec3.smul
        (Vec3.add (Vec3.smul (Vec3.smul (Vec3.neg right) xoffset) mouseSpeed)
          (Vec3.smul (Vec3.smul up yoffset) mouseSpeed)) 0.25) s.cameraZoom) 45.0
      { s with cameraPos := Vec3.add s.cameraPos pan, cameraTarget := Vec3.add s.cameraTarget pan }
    else s
  s

/-- Mirror of `mouseButtonCallback`. -/
def mouseButtonCallback (s : Scene K) (button action mods : Int) : Scene K :=
  let s : Scene K :=
    if button = GLFW_MOUSE_BUTTON_LEFT then
      if action = GLFW_PRESS then { s with leftMousePressed := true }
      else if action = GLFW_RELEASE then { s with leftMousePressed := false }
      else s
    else s
  let s : Scene K :=
    if button = GLFW_MOUSE_BUTTON_RIGHT then
      if action = GLFW_PRESS then { s with rightMousePressed := true }
      else if action = GLFW_RELEASE then { s with rightMousePressed := false }
      else s
    else s
  s

/-- Mirror of `scrollCallback`. -/
def scrollCallback (s : Scene K) (xoffset yoffset : K) : Scene K :=
  let s : Scene K := { s with cameraZoom := s.cameraZoom - yoffset * scrollSpeed }
  let s : Scene K := if s.cameraZoom < (1.0 : K) then { s with cameraZoom := 1.0 } else s
  let s : Scene K := if s.cameraZoom > (25.0 : K) then { s with cameraZoom := 25.0 } else s
  s

/-- Mirror of `updatePlanetSpeeds`: every planet of the list, then the Moon, gets
its speeds recomputed from its base speeds and the two global multipliers. -/
def updatePlanetSpeeds (s : Scene K) : Scene K :=
  let s : Scene K := { s with planets := s.planets.map (fun (p : Planet K) =>
    { p with orbitSpeed := p.baseOrbitSpeed * s.orbitSpeed,
             rotationSpeed := p.baseRotationSpeed * s.rotationSpeed }) }
  { s with moon :=
    { s.moon with orbitSpeed := s.moon.baseOrbitSpeed * s.orbitSpeed,
                  rotationSpeed := s.moon.baseRotationSpeed * s.rotationSpeed } }

/-- Mirror of `keyCallback`. -/
def keyCallback (s : Scene K) (key scancode action mods : Int) : Scene K :=
  let s : Scene K :=
    if key = GLFW_KEY_ESCAPE ∧ action = GLFW_PRESS then { s with windowShouldClose := true }
    else s
  let s : Scene K :=
    if key = GLFW_KEY_UP ∧ (action = GLFW_PRESS ∨ action = GLFW_REPEAT) then
      let s : Scene K := { s with rotationSpeed := s.rotationSpeed + 0.1 }
      let s : Scene K := { s with orbitSpeed := s.orbitSpeed + 0.05 }
      updatePlanetSpeeds s
    else s
  let s : Scene K :=
    if key = GLFW_KEY_DOWN ∧ (action = GLFW_PRESS ∨ action = GLFW_REPEAT) then
      let s : Scene K := { s with rotationSpeed := s.rotationSpeed - 0.1 }
      let s : Scene K := { s with orbitSpeed := s.orbitSpeed - 0.05 }
      let s : Scene K := if s.rotationSpeed < (0.1 : K) then { s with rotationSpeed := 0.1 } else s
      let s : Scene K := if s.orbitSpeed < (0.05 : K) then { s with orbitSpeed := 0.05 } else s
      updatePlanetSpeeds s
    else s
  let s : Scene K :=
    if key = GLFW_KEY_RIGHT ∧ (action = GLFW_PRESS ∨ action = GLFW_REPEAT) then
      let s : Scene K := { s with rotationSpeed := s.rotationSpeed * 1.2 }
      let s : Scene K := { s with orbitSpeed := s.orbitSpeed * 1.2 }
      updatePlanetSpeeds s
    else s
  let s : Scene K :=
    if key = GLFW_KEY_LEFT ∧ (action = GLFW_PRESS ∨ action = GLFW_REPEAT) then
      let s : Scene K := { s with rotationSpeed := s.rotationSpeed * 0.8 }
      let s : Scene K := { s with orbitSpeed := s.orbitSpeed * 0.8 }
      let s : Scene K := if s.rotationSpeed < (0.05 : K) then { s with rotationSpeed := 0.05 } else s
      let s : Scene K := if s.orbitSpeed < (0.025 : K) then { s with orbitSpeed := 0.025 } else s
      updatePlanetSpeeds s
    else s
  let s : Scene K :=
    if (key = GLFW_KEY_LEFT_CONTROL ∨ key = GLFW_KEY_RIGHT_CONTROL) ∧ action = GLFW_PRESS then
      { s with showPlanetNames := !s.showPlanetNames }
    else s
  let s : Scene K :=
    if key = GLFW_KEY_F ∧ action = GLFW_PRESS then
      { s with currentFont := (s.currentFont + 1) % 2 }
    else s
  let s : Scene K :=
    if key = GLFW_KEY_R ∧ action = GLFW_PRESS then
      { s with cameraPos := DEFAULT_CAMERA_POS, cameraTarget := DEFAULT_CAMERA_TARGET,
               cameraUp := DEFAULT_CAMERA_UP, cameraZoom := DEFAULT_CAMERA_ZOOM,
               firstMouse := true }
    else s
  s

/-- A press (`rep = false`) or an auto-repeat (`rep = true`) of `key`, with any
scancode and modifier bits, delivered to `keyCallback`. -/
def pressKey (key : Int) (s : Scene K) (ev : Bool × Int × Int) : Scene K :=
  keyCallback s key ev.2.1 (if ev.1 then GLFW_REPEAT else GLFW_PRESS) ev.2.2

end Callbacks

/-! ## The scene built by `main` and the render loop -/

section Frame

variable {K : Type} [LinearOrderedField K]

/-- The body set-up that `main` repeats for the Sun, each planet and the Moon:
the fields are assigned from literals, the two effective speeds from the base
speeds and the global multipliers as they are at start-up (`orbitSpeed = 0.5`,
`rotationSpeed = 1.0`); the trail starts empty. -/
def mkBody (name : String) (radius distance baseOrbitSpeed baseRotationSpeed tilt : K)
    (textureID : Nat) : Planet K :=
  { name := name, radius := radius, distance := distance,
    orbitSpeed := baseOrbitSpeed * 0.5, rotationSpeed := baseRotationSpeed * 1.0,
    tilt := tilt, currentOrbitAngle := 0.0, currentRotationAngle := 0.0,
    textureID := textureID, trailPoints := [],
    baseOrbitSpeed := baseOrbitSpeed, baseRotationSpeed := baseRotationSpeed }

/-- The state when the render loop is entered. `loadTexture` stands for the
texture handles returned by OpenGL, `font` for the index of the font that was
loaded at start-up. `moonPosition` is not initialised by `main`; it is written
in the first frame before it is read. -/
def initScene (loadTexture : String → Nat) (font : Int) : Scene K :=
  { rotationSpeed := 1.0, orbitSpeed := 0.5,
    cameraPos := ⟨0.0, 100.0, 230.0⟩, cameraTarget := ⟨0.0, 0.0, 0.0⟩,
    cameraUp := ⟨0.0, 1.0, 0.0⟩, cameraZoom := 15.0,
    firstMouse := true, lastX := (SCR_WIDTH : K) / 2.0, lastY := (SCR_HEIGHT : K) / 2.0,
    leftMousePressed := false, rightMousePressed := false,
    showPlanetNames := true, currentFont := font,
    planets :=
      [ mkBody "Sun" 3.0 0.0 0.0 0.1 0.0 (loadTexture "texture/sun.jpg"),
        mkBody "Mercury" 0.6 4.5 4.7 0.017 0.03 (loadTexture "texture/mercury.jpg"),
        mkBody "Venus" 1.2 6.0 3.5 0.004 177.3 (loadTexture "texture/venus.jpg"),
        mkBody "Earth" 1.3 9.0 3.0 1.0 23.4 (loadTexture "texture/earth.jpg"),
        mkBody "Mars" 0.7 12.0 2.4 0.97 25.2 (loadTexture "texture/mars.jpg"),
        mkBody "Jupiter" 2.5 15.0 1.3 2.4 3.1 (loadTexture "texture/jupiter.jpg"),
        mkBody "Saturn" 2.3 25.0 0.97 2.2 26.7 (loadTexture "texture/saturn.jpg"),
        mkBody "Uranus" 1.8 35.0 0.68 1.4 97.8 (loadTexture "texture/uranus.jpg"),
        mkBody "Neptune" 1.8 45.0 0.54 1.5 28.3 (loadTexture "texture/neptune.jpg") ],
    moon := mkBody "Moon" 0.4 2.5 13.0 0.1 6.7 (loadTexture "texture/moon.jpg"),
    planetPositions := List.replicate 9 ⟨0, 0, 0⟩,
    moonPosition := ⟨0, 0, 0⟩,
    windowShouldClose := false }

/-- A body like the Earth of `initScene` over `ℚ`, holding the given trail. -/
def bodyWithTrail (trail : List (Vec3 ℚ)) : Planet ℚ :=
  { (mkBody "Earth" 1.3 9.0 3.0 1.0 23.4 0 : Planet ℚ) with trailPoints := trail }

/-- The orbit part of a planet's model matrix in the render loop:
`rotate(mat4(1), currentOrbitAngle, (0, 1, 0))` then
`translate(., (distance, 0, 0))`. -/
def orbitModel (L : Libm K) (p : Planet K) : Mat4 K :=
  translate (rotate L Mat4.identity p.currentOrbitAngle ⟨0.0, 1.0, 0.0⟩) ⟨p.distance, 0.0, 0.0⟩

/-- The orbit part of the Moon's model matrix (the block `if (i == 3)`): the
parent's rotate and translate, then the Moon's own rotate and translate. -/
def moonOrbitModel (L : Libm K) (parent moon : Planet K) : Mat4 K :=
  let moonModel := rotate L Mat4.identity parent.currentOrbitAngle ⟨0.0, 1.0, 0.0⟩
  let moonModel := translate moonModel ⟨parent.distance, 0.0, 0.0⟩
  let moonModel := rotate L moonModel moon.currentOrbitAngle ⟨0.0, 1.0, 0.0⟩
  translate moonModel ⟨moon.distance, 0.0, 0.0⟩

/-- The two statements that advance a body's angles in the render loop:
`currentOrbitAngle += orbitSpeed * 0.01f` and
`currentRotationAngle += rotationSpeed * 0.01f`. -/
def advance (p : Planet K) : Planet K :=
  let p : Planet K := { p with currentOrbitAngle := p.currentOrbitAngle + p.orbitSpeed * 0.01 }
  { p with currentRotationAngle := p.currentRotationAngle + p.rotationSpeed * 0.01 }

/-- Mirror of the block `if (i == 3)` of the render loop, where `parent` is
`planets[3]` as it is at that point: the Moon's position is recorded from its
orbit matrix and pushed on its trail, then the Moon's angles are advanced.
It returns the Moon and `moonPosition`. -/
def moonBlock (L : Libm K) (parent moon : Planet K) : Planet K × Vec3 K :=
  let moonModel := moonOrbitModel L parent moon
  let moonPosition := Vec4.toVec3 moonModel.c3
  let moon := addTrailPoint moon moonPosition
  (advance moon, moonPosition)

/-- Mirror of the planet loop of the render loop, `for (i = 0; i < planets.size(); i++)`,
where the list is `planets[i ..]`. It returns the updated planets, their
recorded positions (`planetPositions[i ..]`), the Moon and `moonPosition`.
The draw calls and the rest of the model matrix (tilt, spin, scale), which
only feed OpenGL, are left out. -/
def planetLoop (L : Libm K) :
    Nat → List (Planet K) → Planet K → Vec3 K →
      List (Planet K) × List (Vec3 K) × Planet K × Vec3 K
  | _, [], moon, moonPosition => ([], [], moon, moonPosition)
  | i, p :: rest, moon, moonPosition =>
    let p : Planet K := advance p
    let model := orbitModel L p
    let position := Vec4.toVec3 model.c3
    let p : Planet K := if i > 0 then addTrailPoint p position else p
    let moonState : Planet K × Vec3 K :=
      if i = 3 then moonBlock L p moon else (moon, moonPosition)
    let r := planetLoop L (i + 1) rest moonState.1 moonState.2
    (p :: r.1, position :: r.2.1, r.2.2.1, r.2.2.2)

/-- One iteration of the render loop (one frame), as far as it changes the state. -/
def frameTick (L : Libm K) (s : Scene K) : Scene K :=
  let r := planetLoop L 0 s.planets s.moon s.moonPosition
  { s with planets := r.1, planetPositions := r.2.1, moon := r.2.2.1, moonPosition := r.2.2.2 }

/-- The vector `v` turned by `angle` about the world up-axis `(0, 1, 0)`, in the
sense of `glm::rotate` about that axis: `(x, y, z)` goes to
`(cos * x + sin * z, y, -sin * x + cos * z)`. -/
def rotateAboutUp (L : Libm K) (angle : K) (v : Vec3 K) : Vec3 K :=
  ⟨L.cos angle * v.x + L.sin angle * v.z, v.y, -(L.sin angle) * v.x + L.cos angle * v.z⟩

/-- The math library over the reals: the real cosine and sine, the reciprocal
of the real square root, and the number `π`. -/
def IsRealLibm (L : Libm ℝ) : Prop :=
  L.cos = Real.cos ∧ L.sin = Real.sin ∧ (∀ x, L.inversesqrt x = 1 / Real.sqrt x) ∧ L.pi = Real.pi

/-- A math library over `ℚ` for evaluating examples whose outcome does not
depend on trigonometric values: `cos` and `sin` are cut down to the first term
of their power series. -/
def seriesLibm : Libm ℚ :=
  { cos := fun _ => 1, sin := fun x => x, inversesqrt := fun _ => 1, pi := 22 / 7 }

/-- The initial scene over `ℚ` after the orbit multiplier has been brought to
`1.0` and all speeds recomputed, so that the Earth (base orbit speed `3.0`)
has orbit speed `3.0 * 1.0`. -/
def unitOrbitScene : Scene ℚ :=
  updatePlanetSpeeds { (initScene (fun _ => 0) 0 : Scene ℚ) with orbitSpeed := 1.0 }

/-- The effective speeds of body `p` are its base speeds times the multipliers
`rot` (rotation) and `orb` (orbit). -/
def bodyInSync (rot orb : K) (p : Planet K) : Prop :=
  p.orbitSpeed = p.baseOrbitSpeed * orb ∧ p.rotationSpeed = p.baseRotationSpeed * rot

instance (rot orb : K) (p : Planet K) : Decidable (bodyInSync rot orb p) := by
  unfold bodyInSync; infer_instance

/-- Every planet of the list and the Moon have effective speeds equal to base
speed times the current global multiplier. -/
def speedsInSync (s : Scene K) : Prop :=
  (∀ p ∈ s.planets, bodyInSync s.rotationSpeed s.orbitSpeed p) ∧
    bodyInSync s.rotationSpeed s.orbitSpeed s.moon

instance (s : Scene K) : Decidable (speedsInSync s) := by
  unfold speedsInSync; infer_instance

end Frame

/-- What the platform delivers between frames (the four GLFW callbacks that
`main` registers), and the frame itself. -/
inductive Input (K : Type) where
  | cursorPos (xpos ypos : K)
  | mouseButton (button action mods : Int)
  | scroll (xoffset yoffset : K)
  | key (key scancode action mods : Int)
  | frame

section Run

variable {K : Type} [LinearOrderedField K]

/-- Dispatch of one input to its callback, or one frame of the render loop. -/
def step (L : Libm K) (s : Scene K) : Input K → Scene K
  | .cursorPos xpos ypos => mouseCallback L s xpos ypos
  | .mouseButton button action mods => mouseButtonCallback s button action mods
  | .scroll xoffset yoffset => scrollCallback s xoffset yoffset
  | .key key scancode action mods => keyCallback s key scancode action mods
  | .frame => frameTick L s

/-- The state after a sequence of inputs. -/
def run (L : Libm K) (s : Scene K) (inputs : List (Input K)) : Scene K :=
  inputs.foldl (step L) s

end Run

/-! ## Sphere mesh -/

/-- Reduction of a natural number to the range of `unsigned int` (32 bits). -/
def wrap32 (n : Nat) : Nat := n % 2 ^ 32

/-- The four output vectors of `generateSphere`. -/
structure SphereMesh (K : Type) where
  vertices : List K
  normals : List K
  texCoords : List K
  indices : List Nat

section Sphere

variable {K : Type} [LinearOrderedField K]

/-- Mirror of the inner vertex loop `for (unsigned int j = 0; j <= sectors; ++j)`,
entered at `j`. `fuel` bounds the number of iterations; `none` stands for a
loop that has not ended when the fuel is used up. -/
def sectorLoop (L : Libm K) (radius lengthInv xy z sectorStep : K) (sectors stackCount i : Nat) :
    Nat → Nat → SphereMesh K → Option (SphereMesh K)
  | 0, _, _ => none
  | fuel + 1, j, m =>
    if j ≤ sectors then
      let sectorAngle : K := (j : K) * sectorStep
      let x : K := xy * L.cos sectorAngle
      let y : K := xy * L.sin sectorAngle
      let nx : K := x * lengthInv
      let ny : K := y * lengthInv
      let nz : K := z * lengthInv
      let s : K := (j : K) / (sectors : K)
      let t : K := (i : K) / (stackCount : K)
      sectorLoop L radius lengthInv xy z sectorStep sectors stackCount i fuel (wrap32 (j + 1))
        { m with vertices := m.vertices ++ [x, y, z],
                 normals := m.normals ++ [nx, ny, nz],
                 texCoords := m.texCoords ++ [s, t] }
    else some m

/-- Mirror of the outer vertex loop `for (unsigned int i = 0; i <= stacks; ++i)`,
entered at `i`. -/
def stackLoop (L : Libm K) (radius lengthInv sectorStep stackStep : K) (sectors stackCount : Nat) :
    Nat → Nat → SphereMesh K → Option (SphereMesh K)
  | 0, _, _ => none
  | fuel + 1, i, m =>
    if i ≤ stackCount then
      let stackAngle : K := L.pi / 2 - (i : K) * stackStep
      let xy : K := radius * L.cos stackAngle
      let z : K := radius * L.sin stackAngle
      match sectorLoop L radius lengthInv xy z sectorStep sectors stackCount i fuel 0 m with
      | none => none
      | some m => stackLoop L radius lengthInv sectorStep stackStep sectors stackCount fuel (wrap32 (i + 1)) m
    else some m

/-- Mirror of the inner index loop
`for (unsigned int j = 0; j < sectors; ++j, ++k1, ++k2)`, entered at `j`. -/
def indexSectorLoop (sectors stackCount i : Nat) :
    Nat → Nat → Nat → Nat → List Nat → Option (List Nat)
  | 0, _, _, _, _ => none
  | fuel + 1, j, k1, k2, indices =>
    if j < sectors then
      let indices : List Nat :=
        if i ≠ 0 then indices ++ [k1, k2, wrap32 (k1 + 1)] else indices
      let indices : List Nat :=
        if i ≠ wrap32 (stackCount + (2 ^ 32 - 1)) then indices ++ [wrap32 (k1 + 1), k2, wrap32 (k2 + 1)]
        else indices
      indexSectorLoop sectors stackCount i fuel (wrap32 (j + 1)) (wrap32 (k1 + 1)) (wrap32 (k2 + 1))
        indices
    else some indices

/-- Mirror of the outer index loop `for (unsigned int i = 0; i < stacks; ++i)`,
entered at `i`. -/
def indexStackLoop (sectors stackCount : Nat) : Nat → Nat → List Nat → Option (List Nat)
  | 0, _, _ => none
  | fuel + 1, i, indices =>
    if i < stackCount then
      let k1 : Nat := wrap32 (i * wrap32 (sectors + 1))
      let k2 : Nat := wrap32 (wrap32 (k1 + sectors) + 1)
      match indexSectorLoop sectors stackCount i fuel 0 k1 k2 indices with
      | none => none
      | some indices => indexStackLoop sectors stackCount fuel (wrap32 (i + 1)) indices
    else some indices

/-- Mirror of `generateSphere`. The argument `old` is what the four output
vectors hold on entry; `sectors` and `stackCount` (the parameter `stacks` of the
source, renamed because that word is reserved here) are `unsigned int` values.
The result is `none` when a loop does not end within `fuel` iterations. The
four vectors are lists of any length: the size limit of `std::vector` is not
part of the model, which describes the code for meshes that fit in memory. -/
def generateSphere (L : Libm K) (fuel : Nat) (old : SphereMesh K) (radius : K)
    (sectors stackCount : Nat) : Option (SphereMesh K) :=
  let m : SphereMesh K := { old with vertices := [], normals := [], texCoords := [], indices := [] }
  let lengthInv : K := 1.0 / radius
  let sectorStep : K := 2 * L.pi / (sectors : K)
  let stackStep : K := L.pi / (stackCount : K)
  match stackLoop L radius lengthInv sectorStep stackStep sectors stackCount fuel 0 m with
  | none => none
  | some m =>
    match indexStackLoop sectors stackCount fuel 0 m.indices with
    | none => none
    | some indices => some { m with indices := indices }

end Sphere

/-! ## Screen projection and labels -/

/-- Mirror of `glm::vec2`. -/
structure Vec2 (K : Type) where
  x : K
  y : K
deriving DecidableEq, Repr

/-- One call `textRenderer.RenderText(text, x, y, scale, color)`. The position
is `none` when the two coordinates handed over are not finite numbers. -/
structure TextDraw (K : Type) where
  text : String
  position : Option (Vec2 K)
  scale : K
  color : Vec3 K
deriving DecidableEq, Repr

section Projection

variable {K : Type} [LinearOrderedField K]

/-- Matrix product `a * b` of GLM: column `i` of the result is `a * b[i]`. -/
def Mat4.mul (a b : Mat4 K) : Mat4 K :=
  ⟨Mat4.mulVec a b.c0, Mat4.mulVec a b.c1, Mat4.mulVec a b.c2, Mat4.mulVec a b.c3⟩

/-- Mirror of `glm::scale(m, v)`: the first three columns are multiplied by the
components of `v`, `m[3]` is kept. -/
def scale (m : Mat4 K) (v : Vec3 K) : Mat4 K :=
  ⟨Vec4.smul m.c0 v.x, Vec4.smul m.c1 v.y, Vec4.smul m.c2 v.z, m.c3⟩

/-- Mirror of `glm::radians`: degrees times `π / 180`. -/
def radians (L : Libm K) (degrees : K) : K := degrees * (L.pi / 180)

/-- The `float` division `a / b`. A division by zero leaves an infinity or a
NaN in the `float`; that value has no counterpart in `K` and is `none`. -/
def fdiv (a b : K) : Option K := if b = 0 then none else some (a / b)

/-- Mirror of `world3DToScreen2D`. The three components of the clip-space
position are divided by `w` without any test; the result is `none` when that
division is by zero (both screen coordinates are then not finite). -/
def world3DToScreen2D (worldPos : Vec3 K) (view projection : Mat4 K) (viewport : Vec4 K) :
    Option (Vec2 K) :=
  let clipSpacePos := Mat4.mulVec (Mat4.mul projection view) (Vec4.ofVec3 worldPos 1.0)
  match fdiv clipSpacePos.x clipSpacePos.w, fdiv clipSpacePos.y clipSpacePos.w,
      fdiv clipSpacePos.z clipSpacePos.w with
  | some x, some y, some _ =>
    some ⟨(x + 1.0) * 0.5 * viewport.z + viewport.x, (y + 1.0) * 0.5 * viewport.w + viewport.y⟩
  | _, _, _ => none

/-- Mirror of `calculateNamePosition`. -/
def calculateNamePosition (planet : Planet K) (planetPos : Vec3 K) : Vec3 K :=
  ⟨planetPos.x, planetPos.y, planetPos.z - planet.radius * 1.0⟩

/-- Mirror of `glm::vec4 viewport(0, 0, SCR_WIDTH, SCR_HEIGHT)` in `main`. -/
def viewport : Vec4 K := ⟨0, 0, (SCR_WIDTH : K), (SCR_HEIGHT : K)⟩

/-- The label of one body in the render loop: the name position is projected
and `RenderText` is called with the name, shifted left by the estimated text
width `name.length() * 12.0f * 0.5f`. There is no test between the two. -/
def bodyLabel (view projection : Mat4 K) (planet : Planet K) (planetPos : Vec3 K) :
    TextDraw K :=
  let namePos := calculateNamePosition planet planetPos
  let screenPos := world3DToScreen2D namePos view projection viewport
  let textWidth : K := (planet.name.utf8ByteSize : K) * 12.0 * 0.5
  { text := planet.name,
    position := screenPos.map (fun q => ⟨q.x - textWidth, q.y⟩),
    scale := 0.5, color := ⟨1.0, 1.0, 1.0⟩ }

/-- Mirror of the loop `for (i = 0; i < planets.size(); i++)` of the label block,
where the lists are `planets[i ..]` and `planetPositions[i ..]` (two vectors of
the same size). -/
def labelLoop (view projection : Mat4 K) : List (Planet K) → List (Vec3 K) → List (TextDraw K)
  | planet :: planets, planetPos :: planetPositions =>
    bodyLabel view projection planet planetPos :: labelLoop view projection planets planetPositions
  | _, _ => []

/-- Mirror of the block `if (showPlanetNames) { ... }` of the render loop: the
text draws it issues, in order. `view` and `projection` are the two locals that
the frame computes with `glm::lookAt` and `glm::perspective`. -/
def labelDraws (s : Scene K) (view projection : Mat4 K) : List (TextDraw K) :=
  if s.showPlanetNames then
    labelLoop view projection s.planets s.planetPositions ++
      [bodyLabel view projection s.moon s.moonPosition]
  else []

end Projection

/-! ## Pointer deltas -/

section Pointer

variable {K : Type} [LinearOrderedField K]

/-- Mirror of the first statements of `mouseCallback`: the delta
`(xoffset, yoffset)` of a pointer-move to `(xpos, ypos)`, which is the new
position minus the stored one, the stored one being replaced by the new one
beforehand when `firstMouse` is set. -/
def mouseOffsets (s : Scene K) (xpos ypos : K) : K × K :=
  let s : Scene K :=
    if s.firstMouse then { s with lastX := xpos, lastY := ypos, firstMouse := false } else s
  (xpos - s.lastX, ypos - s.lastY)

end Pointer

/-- Whether an input is a frame of the render loop. -/
def Input.isFrame {K : Type} : Input K → Bool
  | .frame => true
  | _ => false

/-- Number of frames in a sequence of inputs. -/
def frameCount {K : Type} (inputs : List (Input K)) : Nat := inputs.countP Input.isFrame

/-! ## Model matrices -/

section Models

variable {K : Type} [LinearOrderedField K]

/-- Mirror of the model matrix of `planets[i]` in the render loop, where `p` is
`planets[i]` at that point (its angles already advanced): orbit rotation and
translation (`orbitModel`, whose fourth column is recorded as the position),
then `rotate` by `radians(tilt)` about `(0, 0, 1)`, `rotate` by
`currentRotationAngle` about `(0, 1, 0)`, and `scale` by `vec3(radius)`. -/
def planetModel (L : Libm K) (p : Planet K) : Mat4 K :=
  let model := orbitModel L p
  let model := rotate L model (radians L p.tilt) ⟨0.0, 0.0, 1.0⟩
  let model := rotate L model p.currentRotationAngle ⟨0.0, 1.0, 0.0⟩
  scale model ⟨p.radius, p.radius, p.radius⟩

/-- Mirror of `moonModel` in the block `if (i == 3)`: the chained orbit part
(`moonOrbitModel`, whose fourth column is recorded as `moonPosition`), then the
Moon's tilt, spin and scale. -/
def moonModel (L : Libm K) (parent moon : Planet K) : Mat4 K :=
  let moonModel := moonOrbitModel L parent moon
  let moonModel := rotate L moonModel (radians L moon.tilt) ⟨0.0, 0.0, 1.0⟩
  let moonModel := rotate L moonModel moon.currentRotationAngle ⟨0.0, 1.0, 0.0⟩
  scale moonModel ⟨moon.radius, moon.radius, moon.radius⟩

/-- The model matrices that one frame hands to the shader for the planets of the
list, in order: each is built from `planets[i]` after its angles have been
advanced (the trail does not enter the matrix). -/
def frameModels (L : Libm K) (s : Scene K) : List (Mat4 K) :=
  s.planets.map (fun p => planetModel L (advance p))

/-- The Moon's model matrix of one frame: built inside the iteration of planet 3,
from that planet after its advance and from the Moon before its own advance;
`none` when the list has no planet 3. -/
def frameMoonModel (L : Libm K) (s : Scene K) : Option (Mat4 K) :=
  s.planets[3]?.map (fun parent => moonModel L (advance parent) s.moon)

/-- The rotation matrix `R_y(angle)` about the up-axis. -/
def rotationY (L : Libm K) (angle : K) : Mat4 K :=
  ⟨⟨L.cos angle, 0, -L.sin angle, 0⟩, ⟨0, 1, 0, 0⟩, ⟨L.sin angle, 0, L.cos angle, 0⟩,
    ⟨0, 0, 0, 1⟩⟩

/-- The rotation matrix `R_z(angle)` about the z-axis. -/
def rotationZ (L : Libm K) (angle : K) : Mat4 K :=
  ⟨⟨L.cos angle, L.sin angle, 0, 0⟩, ⟨-L.sin angle, L.cos angle, 0, 0⟩, ⟨0, 0, 1, 0⟩,
    ⟨0, 0, 0, 1⟩⟩

/-- The translation matrix `T(v)`. -/
def translation (v : Vec3 K) : Mat4 K :=
  ⟨⟨1, 0, 0, 0⟩, ⟨0, 1, 0, 0⟩, ⟨0, 0, 1, 0⟩, ⟨v.x, v.y, v.z, 1⟩⟩

/-- The uniform scaling matrix `S(r)`. -/
def scaling (r : K) : Mat4 K :=
  ⟨⟨r, 0, 0, 0⟩, ⟨0, r, 0, 0⟩, ⟨0, 0, r, 0⟩, ⟨0, 0, 0, 1⟩⟩

/-- A projection matrix of the form that `glm::perspective` builds (here with
`1 / (aspect * tan(fovy / 2)) = 1 / tan(fovy / 2) = 1`, near plane `0.1` and far
plane `1000`): its clip-space `w` is minus the eye-space `z`. -/
def examplePerspective : Mat4 ℚ :=
  ⟨⟨1, 0, 0, 0⟩, ⟨0, 1, 0, 0⟩, ⟨0, 0, -10001 / 9999, -1⟩, ⟨0, 0, -2000 / 9999, 0⟩⟩

/-- The view matrix that `glm::lookAt` builds for a camera at `(0, 0, -3)` that
looks along the negative z-axis with up-vector `(0, 1, 0)`: the translation by
`(0, 0, 3)`. The point `(0, 0, -3)` lies in the camera's own plane. -/
def exampleView : Mat4 ℚ := translation ⟨0, 0, 3⟩

/-- The state after the first frame of the program, over `ℚ`. -/
def firstFrameScene : Scene ℚ := frameTick seriesLibm (initScene (fun _ => 0) 0)

end Models

/-! ## Triangles of the sphere, as stated -/

/-- The triangles of one quad cell of stack row `i` with corners `k1` (top left)
and `k2` (bottom left), `T` being the number of stacks: `(k1, k2, k1 + 1)`
unless the row is the first, then `(k1 + 1, k2, k2 + 1)` unless it is the last. -/
def cellAt (T i k1 k2 : Nat) : List Nat :=
  (if i ≠ 0 then [k1, k2, k1 + 1] else []) ++ (if i ≠ T - 1 then [k1 + 1, k2, k2 + 1] else [])

/-- The triangles of the quad cell `(i, j)` of a sphere of `S` sectors and `T`
stacks: `cellAt` with `k1 = i * (S + 1) + j` and `k2 = k1 + S + 1`. -/
def cellTriangles (S T i j : Nat) : List Nat :=
  cellAt T i (i * (S + 1) + j) (i * (S + 1) + j + S + 1)

/-- The index list of a sphere of `S` sectors and `T` stacks: the triangles of
all cells `(i, j)` with `i < T` and `j < S`, in row-major order. -/
def expectedIndices (S T : Nat) : List Nat :=
  (List.range T).flatMap (fun i => (List.range S).flatMap (fun j => cellTriangles S T i j))

/-! ## Example runs of the speed keys, the drag blocks and the pointer conversions -/

section Drag

variable {K : Type} [LinearOrderedField K]

/-- The state that the start-up scene reaches by fourteen presses of the Left
key (slow-down events) and nothing else. -/
def slowedScene (L : Libm K) (loadTexture : String → Nat) (font : Int) : Scene K :=
  run L (initScene loadTexture font)
    (List.replicate 14 (Input.key GLFW_KEY_LEFT 0 GLFW_PRESS 0))

/-- Mirror of the rotating branch of `mouseCallback` (`if (leftMousePressed)`),
up to `glm::vec3(newPos)`: the offset `position - target` turned by
`rotY = -dx * mouseSpeed * 0.01` about `up`, after a turn by
`rotX = -dy * mouseSpeed * 0.01` about `right`. -/
def rotatedOffset (L : Libm K) (position target up : Vec3 K) (dx dy : K) : Vec3 K :=
  let rotX := -dy * mouseSpeed * 0.01
  let rotY := -dx * mouseSpeed * 0.01
  let direction := Vec3.normalize L (Vec3.sub position target)
  let right := Vec3.normalize L (Vec3.cross up direction)
  let rotMatrix := rotate L Mat4.identity rotY up
  let rotMatrix := rotate L rotMatrix rotX right
  let newPos := Mat4.mulVec rotMatrix (Vec4.ofVec3 (Vec3.sub position target) 1.0)
  Vec4.toVec3 newPos

/-- The start-up scene after a press of the primary button: the controller is
rotating. -/
def rotatingScene (L : Libm K) : Scene K :=
  mouseButtonCallback (mouseCallback L (initScene (fun _ => 0) 0) 640 360)
    GLFW_MOUSE_BUTTON_LEFT GLFW_PRESS 0

/-- Mirror of the two drag blocks of `mouseCallback` (`if (leftMousePressed)`
and `if (rightMousePressed)`, lines 248-284), as a function of the locals
`xoffset` and `yoffset` that the statements before them have computed. -/
def dragCamera (L : Libm K) (s : Scene K) (xoffset yoffset : K) : Scene K :=
  let s : Scene K :=
    if s.leftMousePressed then
      let rotX := -yoffset * mouseSpeed * 0.01
      let rotY := -xoffset * mouseSpeed * 0.01
      let direction := Vec3.normalize L (Vec3.sub s.cameraPos s.cameraTarget)
      let right := Vec3.normalize L (Vec3.cross s.cameraUp direction)
      let rotMatrix := rotate L Mat4.identity rotY s.cameraUp
      let rotMatrix := rotate L rotMatrix rotX right
      let newPos := Mat4.mulVec rotMatrix (Vec4.ofVec3 (Vec3.sub s.cameraPos s.cameraTarget) 1.0)
      { s with cameraPos := Vec3.add s.cameraTarget (Vec4.toVec3 newPos) }
    else s
  let s : Scene K :=
    if s.rightMousePressed then
      let direction := Vec3.normalize L (Vec3.sub s.cameraPos s.cameraTarget)
      let right := Vec3.normalize L (Vec3.cross s.cameraUp direction)
      let up := Vec3.cross direction right
      let pan := Vec3.sdiv (Vec3.smul (Vec3.smul
        (Vec3.add (Vec3.smul (Vec3.smul (Vec3.neg right) xoffset) mouseSpeed)
          (Vec3.smul (Vec3.smul up yoffset) mouseSpeed)) 0.25) s.cameraZoom) 45.0
      { s with cameraPos := Vec3.add s.cameraPos pan, cameraTarget := Vec3.add s.cameraTarget pan }
    else s
  s

/-- Mirror of `mouseCallback` with the conversions from `double` to `float` that
its first statements make: `xpos` and `ypos` are `double`, while `lastX`,
`lastY`, `xoffset` and `yoffset` are `float`, so `lastX = xpos` stores
`toFloat xpos` and `float xoffset = xpos - lastX` stores
`toFloat (xpos - lastX)` (the subtraction is done in `double`; its own
rounding is not modelled). With `toFloat` the identity this is
`mouseCallback`. -/
def mouseCallbackFloat (toFloat : K → K) (L : Libm K) (s : Scene K) (xpos ypos : K) : Scene K :=
  let s : Scene K :=
    if s.firstMouse then
      { s with lastX := toFloat xpos, lastY := toFloat ypos, firstMouse := false }
    else s
  let xoffset := toFloat (xpos - s.lastX)
  let yoffset := toFloat (ypos - s.lastY)
  let s : Scene K := { s with lastX := toFloat xpos, lastY := toFloat ypos }
  let s : Scene K :=
    if s.leftMousePressed then
      let rotX := -yoffset * mouseSpeed * 0.01
      let rotY := -xoffset * mouseSpeed * 0.01
      let direction := Vec3.normalize L (Vec3.sub s.cameraPos s.cameraTarget)
      let right := Vec3.normalize L (Vec3.cross s.cameraUp direction)
      let rotMatrix := rotate L Mat4.identity rotY s.cameraUp
      let rotMatrix := rotate L rotMatrix rotX right
      let newPos := Mat4.mulVec rotMatrix (Vec4.ofVec3 (Vec3.sub s.cameraPos s.cameraTarget) 1.0)
      { s with cameraPos := Vec3.add s.cameraTarget (Vec4.toVec3 newPos) }
    else s
  let s : Scene K :=
    if s.rightMousePressed then
      let direction := Vec3.normalize L (Vec3.sub s.cameraPos s.cameraTarget)
      let right := Vec3.normalize L (Vec3.cross s.cameraUp direction)
      let up := Vec3.cross direction right
      let pan := Vec3.sdiv (Vec3.smul (Vec3.smul
        (Vec3.add (Vec3.smul (Vec3.smul (Vec3.neg right) xoffset) mouseSpeed)
          (Vec3.smul (Vec3.smul up yoffset) mouseSpeed)) 0.25) s.cameraZoom) 45.0
      { s with cameraPos := Vec3.add s.cameraPos pan, cameraTarget := Vec3.add s.cameraTarget pan }
    else s
  s

/-- The conversion of a value to `float` (IEEE 754 binary32), rounding to
nearest with ties to even: the value is rounded to a multiple of
`2 ^ (e - 23)`, where `2 ^ e ≤ |x| < 2 ^ (e + 1)` and `e` is at least `-126`
(below that the spacing is that of the subnormal numbers). Overflow to
infinity, for `|x| ≥ 2 ^ 128`, is left out. -/
def toFloat32 [FloorRing K] (x : K) : K :=
  if x = 0 then 0
  else
    let e : Int := max (Int.log 2 |x|) (-126)
    let q : K := 2 ^ (e - 23)
    let f : Int := ⌊x / q⌋
    let d : K := x / q - f
    let n : Int :=
      if d < 1 / 2 then f else if 1 / 2 < d then f + 1 else if f % 2 = 0 then f else f + 1
    n * q

/-- The start-up scene after a first pointer sample at `(640, 360)`, a press of
the secondary button and a press of the reset key: a panning controller right
after a reset. -/
def resetPanningScene (L : Libm K) : Scene K :=
  keyCallback
    (mouseButtonCallback (mouseCallback L (initScene (fun _ => 0) 0) 640 360)
      GLFW_MOUSE_BUTTON_RIGHT GLFW_PRESS 0)
    GLFW_KEY_R 0 GLFW_PRESS 0

end Drag

/-! ## Trail buffer -/

section TrailProofs

variable {K : Type} [LinearOrderedField K]

theorem addTrailPoint_trailPoints (planet : Planet K) (position : Vec3 K) :
    (addTrailPoint planet position).trailPoints =
      (if planet.trailPoints.length ≥ MAX_TRAIL_POINTS then planet.trailPoints.tail
        else planet.trailPoints) ++ [position] := rfl

theorem trailAfter_eq_drop (planet : Planet K) (pts : List (Vec3 K)) :
    trailAfter planet pts = pts.drop (pts.length - 200) := by
  unfold trailAfter
  induction pts using List.reverseRecOn with
  | nil => simp
  | append_singleton pts x ih =>
    rw [List.foldl_append, List.foldl_cons, List.foldl_nil, addTrailPoint_trailPoints, ih]
    simp only [List.length_drop, List.length_append, List.length_singleton, MAX_TRAIL_POINTS]
    by_cases h : 200 ≤ pts.length
    · have h1 : pts.length - (pts.length - 200) ≥ 200 := by omega
      rw [if_pos h1, List.tail_drop]
      have h2 : pts.length + 1 - 200 = pts.length - 200 + 1 := by omega
      rw [h2, List.drop_append_of_le_length (by omega)]
    · have h1 : ¬ pts.length - (pts.length - 200) ≥ 200 := by omega
      rw [if_neg h1]
      have h2 : pts.length + 1 - 200 = 0 := by omega
      have h3 : pts.length - 200 = 0 := by omega
      rw [h2, h3, List.drop_zero, List.drop_zero]

/-- C1: starting from an empty trail, after `addTrailPoint` has appended the
points `pts` one by one (`N = pts.length`), the trail is the last `min N 200`
of them in their original order, i.e. `pts` without its first `N - 200`
points; its length is `min N 200`, never exceeds 200, and is exactly 200
unless `N ≤ 200`. -/
theorem addTrailPoint_last_200 (planet : Planet K) (pts : List (Vec3 K)) :
    trailAfter planet pts = pts.drop (pts.length - 200) ∧
      trailAfter planet pts = (pts.reverse.take (min pts.length 200)).reverse ∧
      (trailAfter planet pts).length = min pts.length 200 ∧
      (trailAfter planet pts).length ≤ 200 ∧
      (pts.length ≤ 200 ∨ (trailAfter planet pts).length = 200) := by
  rw [trailAfter_eq_drop]
  refine ⟨rfl, ?_, ?_, ?_, ?_⟩
  · rw [List.take_reverse, List.reverse_reverse]
    have h : pts.length - min pts.length 200 = pts.length - 200 := by omega
    rw [h]
  · simp only [List.length_drop]; omega
  · simp only [List.length_drop]; omega
  · simp only [List.length_drop]; omega

theorem drawTrailLoop_colors_prefix (size : Nat) (pts : List (Vec3 K)) :
    ∀ (i : Nat) (vs cs : List K), ∃ t, (drawTrailLoop size pts i vs cs).2 = cs ++ t := by
  induction pts with
  | nil => intro i vs cs; exact ⟨[], by simp [drawTrailLoop]⟩
  | cons p rest ih =>
    intro i vs cs
    obtain ⟨t, ht⟩ := ih (i + 1) (vs ++ [p.x, p.y, p.z])
      (cs ++ [1, 1, 1, if i < size / 2 then 0 else (i : K) / (size : K)])
    refine ⟨[1, 1, 1, if i < size / 2 then 0 else (i : K) / (size : K)] ++ t, ?_⟩
    simp only [drawTrailLoop]
    rw [ht, List.append_assoc]

theorem drawTrailLoop_alpha (size : Nat) (pts : List (Vec3 K)) :
    ∀ (i : Nat) (vs cs : List K) (k : Nat), k < pts.length →
      (drawTrailLoop size pts i vs cs).2[cs.length + 4 * k + 3]? =
        some (if i + k < size / 2 then 0 else ((i + k : Nat) : K) / (size : K)) := by
  induction pts with
  | nil => intro i vs cs k hk; simp at hk
  | cons p rest ih =>
    intro i vs cs k hk
    cases k with
    | zero =>
      obtain ⟨t, ht⟩ := drawTrailLoop_colors_prefix size rest (i + 1) (vs ++ [p.x, p.y, p.z])
        (cs ++ [1, 1, 1, if i < size / 2 then 0 else (i : K) / (size : K)])
      simp only [drawTrailLoop]
      rw [ht, List.append_assoc, Nat.mul_zero, Nat.add_zero, Nat.add_zero,
        List.getElem?_append_right (by omega)]
      simp
    | succ k =>
      have hk2 : k < rest.length := by simpa using hk
      have h := ih (i + 1) (vs ++ [p.x, p.y, p.z])
        (cs ++ [1, 1, 1, if i < size / 2 then 0 else (i : K) / (size : K)]) k hk2
      simp only [drawTrailLoop]
      have e1 : (cs ++ [1, 1, 1, if i < size / 2 then 0 else (i : K) / (size : K)]).length
          + 4 * k + 3 = cs.length + 4 * (k + 1) + 3 := by
        simp only [List.length_append, List.length_cons, List.length_nil]; omega
      have e2 : i + 1 + k = i + (k + 1) := by omega
      rw [e1, e2] at h
      exact h

theorem drawTrail_alphaAt (planet : Planet K) (i : Nat)
    (h2 : 2 ≤ planet.trailPoints.length) (hi : i < planet.trailPoints.length) :
    (drawTrail planet).map (fun r => alphaAt r.2 i) =
      some (some (if i < planet.trailPoints.length / 2 then 0
        else (i : K) / (planet.trailPoints.length : K))) := by
  unfold drawTrail alphaAt
  rw [if_neg (by omega)]
  have h := drawTrailLoop_alpha planet.trailPoints.length planet.trailPoints 0 [] [] i hi
  simp only [List.length_nil, Nat.zero_add] at h
  simp only [Option.map_some']
  rw [h]

theorem trail_alpha_mono (N i j : Nat) (hij : i ≤ j) :
    (if i < N / 2 then (0 : K) else (i : K) / (N : K)) ≤
      (if j < N / 2 then (0 : K) else (j : K) / (N : K)) := by
  by_cases hi : i < N / 2
  · rw [if_pos hi]
    by_cases hj : j < N / 2
    · rw [if_pos hj]
    · rw [if_neg hj]; positivity
  · have hj : ¬ j < N / 2 := by omega
    rw [if_neg hi, if_neg hj]
    have : (i : K) ≤ (j : K) := by exact_mod_cast hij
    exact div_le_div_of_nonneg_right this (by positivity)

/-- C2 (as the code has it): for a trail of length `N ≥ 2`, `drawTrail` draws, and
the alpha it assigns to point `i < N` is `0` when `i < N / 2` and `i / N`
otherwise, where `N / 2` is the integer quotient (rounded down); the alpha of
point `i` is at most that of point `j` whenever `i ≤ j < N`. -/
theorem drawTrail_alpha_floor_half (planet : Planet K) (i j : Nat)
    (h2 : 2 ≤ planet.trailPoints.length) (hij : i ≤ j) (hj : j < planet.trailPoints.length) :
    (drawTrail planet).map (fun r => alphaAt r.2 i) =
        some (some (if i < planet.trailPoints.length / 2 then 0
          else (i : K) / (planet.trailPoints.length : K))) ∧
      (drawTrail planet).map (fun r => alphaAt r.2 j) =
        some (some (if j < planet.trailPoints.length / 2 then 0
          else (j : K) / (planet.trailPoints.length : K))) ∧
      (if i < planet.trailPoints.length / 2 then (0 : K)
          else (i : K) / (planet.trailPoints.length : K)) ≤
        (if j < planet.trailPoints.length / 2 then (0 : K)
          else (j : K) / (planet.trailPoints.length : K)) :=
  ⟨drawTrail_alphaAt planet i h2 (by omega), drawTrail_alphaAt planet j h2 hj,
    trail_alpha_mono _ i j hij⟩

/-- Witness for C2: a trail of three points, indices 1 and 2. -/
theorem drawTrail_alpha_floor_half_witness :
    (drawTrail (bodyWithTrail [⟨9, 0, 0⟩, ⟨8, 0, -1⟩, ⟨7, 0, -2⟩])).map (fun r => alphaAt r.2 1) =
        some (some (1 / 3)) ∧
      (drawTrail (bodyWithTrail [⟨9, 0, 0⟩, ⟨8, 0, -1⟩, ⟨7, 0, -2⟩])).map (fun r => alphaAt r.2 2) =
        some (some (2 / 3)) := by
  have h := drawTrail_alpha_floor_half (bodyWithTrail [⟨9, 0, 0⟩, ⟨8, 0, -1⟩, ⟨7, 0, -2⟩]) 1 2
    (by simp [bodyWithTrail]) (by decide) (by simp [bodyWithTrail])
  simpa [bodyWithTrail] using And.intro h.1 h.2.1

/-- C2, counterexample: in a trail of three points, point 1 lies in the older
half when the half is exact (`2 * 1 < 3`), yet `drawTrail` gives it alpha
`1 / 3`, not `0`. -/
theorem drawTrail_alpha_exact_half_fails :
    2 * 1 < 3 ∧
      (drawTrail (bodyWithTrail [⟨9, 0, 0⟩, ⟨8, 0, -1⟩, ⟨7, 0, -2⟩])).map (fun r => alphaAt r.2 1) =
        some (some (1 / 3)) ∧
      (drawTrail (bodyWithTrail [⟨9, 0, 0⟩, ⟨8, 0, -1⟩, ⟨7, 0, -2⟩])).map (fun r => alphaAt r.2 1) ≠
        some (some (if 2 * 1 < 3 then 0 else 1 / 3)) := by
  refine ⟨by decide, ?_, ?_⟩
  · simp [drawTrail, drawTrailLoop, alphaAt, bodyWithTrail]
  · simp [drawTrail, drawTrailLoop, alphaAt, bodyWithTrail]

end TrailProofs

/-! ## Input callbacks -/

section CallbackProofs

variable {K : Type} [LinearOrderedField K]

theorem ite_lt_eq_max (a b : K) : (if a < b then b else a) = max a b := by
  rw [max_def]
  split_ifs with h1 h2 h2
  · rfl
  · exact absurd (le_of_lt h1) h2
  · exact le_antisymm h2 (not_lt.mp h1)
  · rfl

theorem keyCallback_multipliers (s : Scene K) (key scancode action mods : Int) :
    ((keyCallback s key scancode action mods).rotationSpeed,
        (keyCallback s key scancode action mods).orbitSpeed) =
      if action = GLFW_PRESS ∨ action = GLFW_REPEAT then
        if key = GLFW_KEY_UP then (s.rotationSpeed + 0.1, s.orbitSpeed + 0.05)
        else if key = GLFW_KEY_DOWN then
          (max (s.rotationSpeed - 0.1) 0.1, max (s.orbitSpeed - 0.05) 0.05)
        else if key = GLFW_KEY_RIGHT then (1.2 * s.rotationSpeed, 1.2 * s.orbitSpeed)
        else if key = GLFW_KEY_LEFT then
          (max (0.8 * s.rotationSpeed) 0.05, max (0.8 * s.orbitSpeed) 0.025)
        else (s.rotationSpeed, s.orbitSpeed)
      else (s.rotationSpeed, s.orbitSpeed) := by
  unfold keyCallback
  simp only [GLFW_PRESS, GLFW_REPEAT, GLFW_KEY_UP, GLFW_KEY_DOWN, GLFW_KEY_LEFT, GLFW_KEY_RIGHT,
    GLFW_KEY_ESCAPE, GLFW_KEY_LEFT_CONTROL, GLFW_KEY_RIGHT_CONTROL, GLFW_KEY_F, GLFW_KEY_R]
  by_cases hA : action = 1 ∨ action = 2
  · by_cases h1 : key = 265
    · subst h1
      simp [hA, updatePlanetSpeeds, apply_ite Scene.rotationSpeed, apply_ite Scene.orbitSpeed]
    · by_cases h2 : key = 264
      · subst h2
        simp [hA, updatePlanetSpeeds, apply_ite Scene.rotationSpeed, apply_ite Scene.orbitSpeed,
          ite_lt_eq_max]
      · by_cases h3 : key = 262
        · subst h3
          simp [hA, updatePlanetSpeeds, apply_ite Scene.rotationSpeed, apply_ite Scene.orbitSpeed,
            mul_comm]
        · by_cases h4 : key = 263
          · subst h4
            simp [hA, updatePlanetSpeeds, apply_ite Scene.rotationSpeed,
              apply_ite Scene.orbitSpeed, ite_lt_eq_max, mul_comm]
          · simp [hA, h1, h2, h3, h4, apply_ite Scene.rotationSpeed, apply_ite Scene.orbitSpeed]
  · have hA1 : ¬ action = 1 := fun h => hA (Or.inl h)
    have hA2 : ¬ action = 2 := fun h => hA (Or.inr h)
    simp [hA1, hA2, apply_ite Scene.rotationSpeed, apply_ite Scene.orbitSpeed]

theorem keyCallback_cameraZoom (s : Scene K) (key scancode action mods : Int) :
    (keyCallback s key scancode action mods).cameraZoom =
      if key = GLFW_KEY_R ∧ action = GLFW_PRESS then 15 else s.cameraZoom := by
  unfold keyCallback
  simp only [apply_ite Scene.cameraZoom, updatePlanetSpeeds, ite_self, DEFAULT_CAMERA_ZOOM]
  norm_num

theorem mouseCallback_cameraZoom (L : Libm K) (s : Scene K) (xpos ypos : K) :
    (mouseCallback L s xpos ypos).cameraZoom = s.cameraZoom := by
  unfold mouseCallback
  simp only [apply_ite Scene.cameraZoom, ite_self]

theorem mouseButtonCallback_cameraZoom (s : Scene K) (button action mods : Int) :
    (mouseButtonCallback s button action mods).cameraZoom = s.cameraZoom := by
  unfold mouseButtonCallback
  simp only [apply_ite Scene.cameraZoom, ite_self]

theorem scrollCallback_cameraZoom (s : Scene K) (xoffset yoffset : K) :
    (scrollCallback s xoffset yoffset).cameraZoom =
      max 1 (min (s.cameraZoom - yoffset * 2) 25) := by
  unfold scrollCallback scrollSpeed
  simp only [apply_ite Scene.cameraZoom]
  have e1 : (1.0 : K) = 1 := by norm_num
  have e2 : (25.0 : K) = 25 := by norm_num
  have e3 : (2.0 : K) = 2 := by norm_num
  rw [e1, e2, e3]
  generalize s.cameraZoom - yoffset * 2 = x
  simp only [max_def, min_def, gt_iff_lt]
  split_ifs <;> linarith

theorem frameTick_cameraZoom (L : Libm K) (s : Scene K) :
    (frameTick L s).cameraZoom = s.cameraZoom := rfl

theorem step_cameraZoom (L : Libm K) (s : Scene K) (e : Input K) :
    (step L s e).cameraZoom =
      match e with
      | .scroll _ yoffset => max 1 (min (s.cameraZoom - yoffset * 2) 25)
      | .key key _ action _ => if key = GLFW_KEY_R ∧ action = GLFW_PRESS then 15 else s.cameraZoom
      | _ => s.cameraZoom := by
  cases e with
  | cursorPos xpos ypos => exact mouseCallback_cameraZoom L s xpos ypos
  | mouseButton button action mods => exact mouseButtonCallback_cameraZoom s button action mods
  | scroll xoffset yoffset => exact scrollCallback_cameraZoom s xoffset yoffset
  | key key scancode action mods => exact keyCallback_cameraZoom s key scancode action mods
  | frame => rfl

theorem run_append_singleton (L : Libm K) (s : Scene K) (inputs : List (Input K)) (e : Input K) :
    run L s (inputs ++ [e]) = step L (run L s inputs) e := by
  simp [run, List.foldl_append]

theorem step_cameraZoom_bounds (L : Libm K) (s : Scene K) (e : Input K)
    (h : 1 ≤ s.cameraZoom ∧ s.cameraZoom ≤ 25) :
    1 ≤ (step L s e).cameraZoom ∧ (step L s e).cameraZoom ≤ 25 := by
  rw [step_cameraZoom]
  cases e with
  | scroll xoffset yoffset =>
    exact ⟨le_max_left _ _, max_le (by norm_num) (min_le_right _ _)⟩
  | key key scancode action mods =>
    by_cases hk : key = GLFW_KEY_R ∧ action = GLFW_PRESS
    · simp only [if_pos hk]; constructor <;> norm_num
    · simp only [if_neg hk]; exact h
  | cursorPos xpos ypos => exact h
  | mouseButton button action mods => exact h
  | frame => exact h

theorem run_cameraZoom_bounds (L : Libm K) (loadTexture : String → Nat) (font : Int)
    (inputs : List (Input K)) :
    1 ≤ (run L (initScene loadTexture font) inputs).cameraZoom ∧
      (run L (initScene loadTexture font) inputs).cameraZoom ≤ 25 := by
  induction inputs using List.reverseRecOn with
  | nil => simp only [run, List.foldl_nil, initScene]; constructor <;> norm_num
  | append_singleton inputs e ih =>
    rw [run_append_singleton]
    exact step_cameraZoom_bounds L _ e ih

/-- C3: in every state reached from the initial scene by any sequence of inputs
(pointer moves, button, scroll and key events, and frames) the zoom lies in
`[1, 25]`; the initial zoom is 15; a scroll with vertical offset `dy` sets the
zoom to `clamp (zoom - dy * 2) 1 25`, whatever `dy`; the reset key sets it to
15; every other input leaves it as it is. -/
theorem cameraZoom_clamped (L : Libm K) (loadTexture : String → Nat) (font : Int)
    (inputs : List (Input K)) :
    (1 ≤ (run L (initScene loadTexture font) inputs).cameraZoom ∧
        (run L (initScene loadTexture font) inputs).cameraZoom ≤ 25) ∧
      (initScene loadTexture font : Scene K).cameraZoom = 15 ∧
      (∀ (s : Scene K) (xoffset yoffset : K),
        (step L s (.scroll xoffset yoffset)).cameraZoom =
          max 1 (min (s.cameraZoom - yoffset * 2) 25)) ∧
      (∀ (s : Scene K) (scancode mods : Int),
        (step L s (.key GLFW_KEY_R scancode GLFW_PRESS mods)).cameraZoom = 15) ∧
      (∀ (s : Scene K) (e : Input K),
        (step L s e).cameraZoom =
          match e with
          | .scroll _ yoffset => max 1 (min (s.cameraZoom - yoffset * 2) 25)
          | .key key _ action _ =>
            if key = GLFW_KEY_R ∧ action = GLFW_PRESS then 15 else s.cameraZoom
          | _ => s.cameraZoom) := by
  refine ⟨run_cameraZoom_bounds L loadTexture font inputs, ?_, ?_, ?_, step_cameraZoom L⟩
  · simp only [initScene]; norm_num
  · intro s xoffset yoffset
    exact scrollCallback_cameraZoom s xoffset yoffset
  · intro s scancode mods
    have h := keyCallback_cameraZoom s GLFW_KEY_R scancode GLFW_PRESS mods
    rw [if_pos ⟨rfl, rfl⟩] at h
    exact h

theorem pressKey_multipliers (key : Int) (s : Scene K) (ev : Bool × Int × Int) :
    ((pressKey key s ev).rotationSpeed, (pressKey key s ev).orbitSpeed) =
      if key = GLFW_KEY_UP then (s.rotationSpeed + 0.1, s.orbitSpeed + 0.05)
      else if key = GLFW_KEY_DOWN then
        (max (s.rotationSpeed - 0.1) 0.1, max (s.orbitSpeed - 0.05) 0.05)
      else if key = GLFW_KEY_RIGHT then (1.2 * s.rotationSpeed, 1.2 * s.orbitSpeed)
      else if key = GLFW_KEY_LEFT then
        (max (0.8 * s.rotationSpeed) 0.05, max (0.8 * s.orbitSpeed) 0.025)
      else (s.rotationSpeed, s.orbitSpeed) := by
  unfold pressKey
  rw [keyCallback_multipliers]
  have h : (if ev.1 then GLFW_REPEAT else GLFW_PRESS) = GLFW_PRESS ∨
      (if ev.1 then GLFW_REPEAT else GLFW_PRESS) = GLFW_REPEAT := by
    cases ev.1
    · exact Or.inl rfl
    · exact Or.inr rfl
  rw [if_pos h]

theorem pressKey_down_floor (s : Scene K) (ev : Bool × Int × Int) :
    0.1 ≤ (pressKey GLFW_KEY_DOWN s ev).rotationSpeed ∧
      0.05 ≤ (pressKey GLFW_KEY_DOWN s ev).orbitSpeed := by
  have h := pressKey_multipliers GLFW_KEY_DOWN s ev
  rw [if_neg (by decide), if_pos rfl] at h
  have h1 := congrArg Prod.fst h
  have h2 := congrArg Prod.snd h
  simp only at h1 h2
  rw [h1, h2]
  exact ⟨le_max_right _ _, le_max_right _ _⟩

theorem pressKey_left_floor (s : Scene K) (ev : Bool × Int × Int) :
    0.05 ≤ (pressKey GLFW_KEY_LEFT s ev).rotationSpeed ∧
      0.025 ≤ (pressKey GLFW_KEY_LEFT s ev).orbitSpeed := by
  have h := pressKey_multipliers GLFW_KEY_LEFT s ev
  rw [if_neg (by decide), if_neg (by decide), if_neg (by decide), if_pos rfl] at h
  have h1 := congrArg Prod.fst h
  have h2 := congrArg Prod.snd h
  simp only at h1 h2
  rw [h1, h2]
  exact ⟨le_max_right _ _, le_max_right _ _⟩

/-- C4: whatever the two multipliers are, right after a "decrease" event (Down
key, pressed or repeated) `rotationSpeed ≥ 0.1` and `orbitSpeed ≥ 0.05`, and
right after a "slow-down" event (Left key) `rotationSpeed ≥ 0.05` and
`orbitSpeed ≥ 0.025`; the same holds after any non-empty run `evs ++ [ev]` of
such events. -/
theorem multiplier_floors (s : Scene K) (ev : Bool × Int × Int) (evs : List (Bool × Int × Int)) :
    (0.1 ≤ (pressKey GLFW_KEY_DOWN s ev).rotationSpeed ∧
        0.05 ≤ (pressKey GLFW_KEY_DOWN s ev).orbitSpeed) ∧
      (0.05 ≤ (pressKey GLFW_KEY_LEFT s ev).rotationSpeed ∧
        0.025 ≤ (pressKey GLFW_KEY_LEFT s ev).orbitSpeed) ∧
      (0.1 ≤ ((evs ++ [ev]).foldl (pressKey GLFW_KEY_DOWN) s).rotationSpeed ∧
        0.05 ≤ ((evs ++ [ev]).foldl (pressKey GLFW_KEY_DOWN) s).orbitSpeed) ∧
      (0.05 ≤ ((evs ++ [ev]).foldl (pressKey GLFW_KEY_LEFT) s).rotationSpeed ∧
        0.025 ≤ ((evs ++ [ev]).foldl (pressKey GLFW_KEY_LEFT) s).orbitSpeed) := by
  refine ⟨pressKey_down_floor s ev, pressKey_left_floor s ev, ?_, ?_⟩
  · rw [List.foldl_append, List.foldl_cons, List.foldl_nil]
    exact pressKey_down_floor _ ev
  · rw [List.foldl_append, List.foldl_cons, List.foldl_nil]
    exact pressKey_left_floor _ ev

/-- C5: the effect of a key event on the pair (rotation multiplier, orbit
multiplier) `(r, o)`. A key that is pressed or repeated gives
`(r + 0.1, o + 0.05)` for Up (increase),
`(max (r - 0.1) 0.1, max (o - 0.05) 0.05)` for Down (decrease),
`(1.2 * r, 1.2 * o)` for Right (speed-up),
`(max (0.8 * r) 0.05, max (0.8 * o) 0.025)` for Left (slow-down);
any other key event, and any release, leaves `(r, o)` unchanged. -/
theorem speed_adjustment_policy (s : Scene K) (key scancode action mods : Int) :
    ((keyCallback s key scancode action mods).rotationSpeed,
        (keyCallback s key scancode action mods).orbitSpeed) =
      if action = GLFW_PRESS ∨ action = GLFW_REPEAT then
        if key = GLFW_KEY_UP then (s.rotationSpeed + 0.1, s.orbitSpeed + 0.05)
        else if key = GLFW_KEY_DOWN then
          (max (s.rotationSpeed - 0.1) 0.1, max (s.orbitSpeed - 0.05) 0.05)
        else if key = GLFW_KEY_RIGHT then (1.2 * s.rotationSpeed, 1.2 * s.orbitSpeed)
        else if key = GLFW_KEY_LEFT then
          (max (0.8 * s.rotationSpeed) 0.05, max (0.8 * s.orbitSpeed) 0.025)
        else (s.rotationSpeed, s.orbitSpeed)
      else (s.rotationSpeed, s.orbitSpeed) :=
  keyCallback_multipliers s key scancode action mods

end CallbackProofs

/-! ## Render loop -/

section FrameProofs

variable {K : Type} [LinearOrderedField K]

theorem updatePlanetSpeeds_speedsInSync (s : Scene K) : speedsInSync (updatePlanetSpeeds s) := by
  unfold speedsInSync updatePlanetSpeeds bodyInSync
  simp

theorem keyCallback_speedsInSync (s : Scene K) (key scancode action mods : Int)
    (h : speedsInSync s) : speedsInSync (keyCallback s key scancode action mods) := by
  unfold keyCallback
  simp only [GLFW_PRESS, GLFW_REPEAT, GLFW_KEY_UP, GLFW_KEY_DOWN, GLFW_KEY_LEFT, GLFW_KEY_RIGHT,
    GLFW_KEY_ESCAPE, GLFW_KEY_LEFT_CONTROL, GLFW_KEY_RIGHT_CONTROL, GLFW_KEY_F, GLFW_KEY_R]
  by_cases hA : action = 1 ∨ action = 2
  · by_cases h1 : key = 265
    · subst h1
      simp [hA, updatePlanetSpeeds, speedsInSync, bodyInSync, apply_ite Scene.rotationSpeed,
        apply_ite Scene.orbitSpeed, apply_ite Scene.planets, apply_ite Scene.moon]
    · by_cases h2 : key = 264
      · subst h2
        simp [hA, updatePlanetSpeeds, speedsInSync, bodyInSync, apply_ite Scene.rotationSpeed,
          apply_ite Scene.orbitSpeed, apply_ite Scene.planets, apply_ite Scene.moon]
      · by_cases h3 : key = 262
        · subst h3
          simp [hA, updatePlanetSpeeds, speedsInSync, bodyInSync, apply_ite Scene.rotationSpeed,
            apply_ite Scene.orbitSpeed, apply_ite Scene.planets, apply_ite Scene.moon]
        · by_cases h4 : key = 263
          · subst h4
            simp [hA, updatePlanetSpeeds, speedsInSync, bodyInSync, apply_ite Scene.rotationSpeed,
              apply_ite Scene.orbitSpeed, apply_ite Scene.planets, apply_ite Scene.moon]
          · unfold speedsInSync
            simp only [hA, h1, h2, h3, h4, apply_ite Scene.rotationSpeed,
              apply_ite Scene.orbitSpeed, apply_ite Scene.planets, apply_ite Scene.moon,
              false_and, if_false, ite_self]
            exact h
  · have hA1 : ¬ action = 1 := fun h => hA (Or.inl h)
    have hA2 : ¬ action = 2 := fun h => hA (Or.inr h)
    unfold speedsInSync
    simp only [hA1, hA2, apply_ite Scene.rotationSpeed, or_self, and_false,
      apply_ite Scene.orbitSpeed, apply_ite Scene.planets, apply_ite Scene.moon,
      false_and, if_false, ite_self]
    exact h

theorem speedKey_speedsInSync (s : Scene K) (key scancode action mods : Int)
    (hk : key = GLFW_KEY_UP ∨ key = GLFW_KEY_DOWN ∨ key = GLFW_KEY_RIGHT ∨ key = GLFW_KEY_LEFT)
    (hA : action = GLFW_PRESS ∨ action = GLFW_REPEAT) :
    speedsInSync (keyCallback s key scancode action mods) := by
  unfold keyCallback
  simp only [GLFW_PRESS, GLFW_REPEAT, GLFW_KEY_UP, GLFW_KEY_DOWN, GLFW_KEY_LEFT, GLFW_KEY_RIGHT,
    GLFW_KEY_ESCAPE, GLFW_KEY_LEFT_CONTROL, GLFW_KEY_RIGHT_CONTROL, GLFW_KEY_F, GLFW_KEY_R] at hk hA ⊢
  rcases hk with h | h | h | h <;> subst h <;>
    simp [hA, updatePlanetSpeeds, speedsInSync, bodyInSync, apply_ite Scene.rotationSpeed,
      apply_ite Scene.orbitSpeed, apply_ite Scene.planets, apply_ite Scene.moon]

theorem pressKey_speedsInSync (s : Scene K) (key : Int) (ev : Bool × Int × Int)
    (hk : key = GLFW_KEY_UP ∨ key = GLFW_KEY_DOWN ∨ key = GLFW_KEY_RIGHT ∨ key = GLFW_KEY_LEFT) :
    speedsInSync (pressKey key s ev) := by
  unfold pressKey
  apply speedKey_speedsInSync s key _ _ _ hk
  cases ev.1
  · exact Or.inl rfl
  · exact Or.inr rfl

theorem mouseCallback_speedsInSync (L : Libm K) (s : Scene K) (xpos ypos : K)
    (h : speedsInSync s) : speedsInSync (mouseCallback L s xpos ypos) := by
  unfold speedsInSync mouseCallback
  simp only [apply_ite Scene.rotationSpeed, apply_ite Scene.orbitSpeed, apply_ite Scene.planets,
    apply_ite Scene.moon, ite_self]
  exact h

theorem mouseButtonCallback_speedsInSync (s : Scene K) (button action mods : Int)
    (h : speedsInSync s) : speedsInSync (mouseButtonCallback s button action mods) := by
  unfold speedsInSync mouseButtonCallback
  simp only [apply_ite Scene.rotationSpeed, apply_ite Scene.orbitSpeed, apply_ite Scene.planets,
    apply_ite Scene.moon, ite_self]
  exact h

theorem scrollCallback_speedsInSync (s : Scene K) (xoffset yoffset : K)
    (h : speedsInSync s) : speedsInSync (scrollCallback s xoffset yoffset) := by
  unfold speedsInSync scrollCallback
  simp only [apply_ite Scene.rotationSpeed, apply_ite Scene.orbitSpeed, apply_ite Scene.planets,
    apply_ite Scene.moon, ite_self]
  exact h

theorem advance_addTrailPoint (p : Planet K) (x : Vec3 K) :
    advance (addTrailPoint p x) = addTrailPoint (advance p) x := rfl

/-- What the planet loop does to a field `f` that `addTrailPoint` does not touch. -/
theorem planetLoop_map {α : Type} (L : Libm K) (f : Planet K → α)
    (htr : ∀ p x, f (addTrailPoint p x) = f p) (ps : List (Planet K)) :
    ∀ (i : Nat) (moon : Planet K) (mp : Vec3 K),
      (planetLoop L i ps moon mp).1.map f = ps.map (fun p => f (advance p)) := by
  induction ps with
  | nil => intro i moon mp; rfl
  | cons p rest ih =>
    intro i moon mp
    simp only [planetLoop, List.map_cons, ih]
    congr 1
    by_cases hi : i > 0
    · rw [if_pos hi, htr]
    · rw [if_neg hi]

theorem planetLoop_positions (L : Libm K) (ps : List (Planet K)) :
    ∀ (i : Nat) (moon : Planet K) (mp : Vec3 K),
      (planetLoop L i ps moon mp).2.1 =
        ps.map (fun p => Vec4.toVec3 (orbitModel L (advance p)).c3) := by
  induction ps with
  | nil => intro i moon mp; rfl
  | cons p rest ih =>
    intro i moon mp
    simp only [planetLoop, List.map_cons, ih]

theorem planetLoop_moon_after (L : Libm K) (ps : List (Planet K)) :
    ∀ (i : Nat) (moon : Planet K) (mp : Vec3 K), 3 < i →
      (planetLoop L i ps moon mp).2.2 = (moon, mp) := by
  induction ps with
  | nil => intro i moon mp _; rfl
  | cons p rest ih =>
    intro i moon mp hi
    simp only [planetLoop]
    rw [if_neg (by omega)]
    exact ih (i + 1) moon mp (by omega)

/-- A field of the Moon that neither `advance` nor `addTrailPoint` touches is
the same after the planet loop. -/
theorem planetLoop_moon_field {α : Type} (L : Libm K) (f : Planet K → α)
    (hadv : ∀ p, f (advance p) = f p) (htr : ∀ p x, f (addTrailPoint p x) = f p)
    (ps : List (Planet K)) :
    ∀ (i : Nat) (moon : Planet K) (mp : Vec3 K),
      f (planetLoop L i ps moon mp).2.2.1 = f moon := by
  induction ps with
  | nil => intro i moon mp; rfl
  | cons p rest ih =>
    intro i moon mp
    simp only [planetLoop]
    rw [ih]
    by_cases hi : i = 3
    · rw [if_pos hi]
      simp only [moonBlock, hadv, htr]
    · rw [if_neg hi]

/-- In a scene with at least four planets, the frame runs the Moon block once,
with the parent being planet 3 after its own update. -/
theorem frameTick_moon (L : Libm K) (s : Scene K) (p0 p1 p2 p3 : Planet K)
    (rest : List (Planet K)) (h : s.planets = p0 :: p1 :: p2 :: p3 :: rest) :
    ((frameTick L s).moon, (frameTick L s).moonPosition) =
      moonBlock L (addTrailPoint (advance p3) (Vec4.toVec3 (orbitModel L (advance p3)).c3))
        s.moon := by
  simp only [frameTick, h, planetLoop]
  rw [planetLoop_moon_after L rest 4 _ _ (by omega)]
  simp

theorem frameTick_speedsInSync (L : Libm K) (s : Scene K) (h : speedsInSync s) :
    speedsInSync (frameTick L s) := by
  obtain ⟨hp, hm⟩ := h
  constructor
  · intro q hq
    have hmap := planetLoop_map L
      (fun p : Planet K => (p.orbitSpeed, p.baseOrbitSpeed, p.rotationSpeed, p.baseRotationSpeed))
      (fun _ _ => rfl) s.planets 0 s.moon s.moonPosition
    have hq2 : (q.orbitSpeed, q.baseOrbitSpeed, q.rotationSpeed, q.baseRotationSpeed) ∈
        (frameTick L s).planets.map (fun p : Planet K =>
          (p.orbitSpeed, p.baseOrbitSpeed, p.rotationSpeed, p.baseRotationSpeed)) :=
      List.mem_map_of_mem _ hq
    simp only [frameTick] at hq2
    rw [hmap, List.mem_map] at hq2
    obtain ⟨p, hpmem, hpe⟩ := hq2
    have h1 := hp p hpmem
    simp only [advance, Prod.mk.injEq] at hpe
    obtain ⟨e1, e2, e3, e4⟩ := hpe
    unfold bodyInSync at h1 ⊢
    simp only [frameTick]
    rw [← e1, ← e2, ← e3, ← e4]
    exact h1
  · have hmoon := planetLoop_moon_field L
      (fun p : Planet K => (p.orbitSpeed, p.baseOrbitSpeed, p.rotationSpeed, p.baseRotationSpeed))
      (fun _ => rfl) (fun _ _ => rfl) s.planets 0 s.moon s.moonPosition
    simp only [Prod.mk.injEq] at hmoon
    obtain ⟨e1, e2, e3, e4⟩ := hmoon
    unfold bodyInSync at hm ⊢
    simp only [frameTick]
    rw [e1, e2, e3, e4]
    exact hm

theorem step_speedsInSync (L : Libm K) (s : Scene K) (e : Input K) (h : speedsInSync s) :
    speedsInSync (step L s e) := by
  cases e with
  | cursorPos xpos ypos => exact mouseCallback_speedsInSync L s xpos ypos h
  | mouseButton button action mods => exact mouseButtonCallback_speedsInSync s button action mods h
  | scroll xoffset yoffset => exact scrollCallback_speedsInSync s xoffset yoffset h
  | key key scancode action mods => exact keyCallback_speedsInSync s key scancode action mods h
  | frame => exact frameTick_speedsInSync L s h

theorem initScene_speedsInSync (loadTexture : String → Nat) (font : Int) :
    speedsInSync (initScene loadTexture font : Scene K) := by
  unfold speedsInSync bodyInSync initScene mkBody
  simp

theorem run_speedsInSync (L : Libm K) (loadTexture : String → Nat) (font : Int)
    (inputs : List (Input K)) : speedsInSync (run L (initScene loadTexture font) inputs) := by
  induction inputs using List.reverseRecOn with
  | nil => exact initScene_speedsInSync loadTexture font
  | append_singleton inputs e ih =>
    rw [run_append_singleton]
    exact step_speedsInSync L _ e ih

/-- C6: in every state reached from the initial scene by any sequence of inputs
(speed-adjustment keys, frames, and any other event), every body of the planet
list and the Moon have `orbitSpeed = baseOrbitSpeed * orbitSpeed multiplier`
and `rotationSpeed = baseRotationSpeed * rotationSpeed multiplier`; and each
of the four speed adjustments, from any state at all, ends with all bodies
recomputed from the new multipliers. -/
theorem effective_speeds_in_sync (L : Libm K) (loadTexture : String → Nat) (font : Int)
    (inputs : List (Input K)) :
    speedsInSync (run L (initScene loadTexture font) inputs) ∧
      (∀ (s : Scene K) (ev : Bool × Int × Int),
        speedsInSync (pressKey GLFW_KEY_UP s ev) ∧ speedsInSync (pressKey GLFW_KEY_DOWN s ev) ∧
          speedsInSync (pressKey GLFW_KEY_RIGHT s ev) ∧
          speedsInSync (pressKey GLFW_KEY_LEFT s ev)) :=
  ⟨run_speedsInSync L loadTexture font inputs, fun s ev =>
    ⟨pressKey_speedsInSync s _ ev (Or.inl rfl),
      pressKey_speedsInSync s _ ev (Or.inr (Or.inl rfl)),
      pressKey_speedsInSync s _ ev (Or.inr (Or.inr (Or.inl rfl))),
      pressKey_speedsInSync s _ ev (Or.inr (Or.inr (Or.inr rfl)))⟩⟩

/-- C9: one frame adds `orbitSpeed * 0.01` to the orbit angle and
`rotationSpeed * 0.01` to the rotation angle of every planet of the list and
(the list having a planet 3, the Moon's parent) of the Moon, and leaves the
radius, distance, tilt, base speeds and effective speeds of all of them
unchanged. -/
theorem frame_advances_angles (L : Libm K) (s : Scene K) (h : 3 < s.planets.length) :
    ((frameTick L s).planets.map Planet.currentOrbitAngle =
        s.planets.map (fun p => p.currentOrbitAngle + p.orbitSpeed * 0.01) ∧
      (frameTick L s).planets.map Planet.currentRotationAngle =
        s.planets.map (fun p => p.currentRotationAngle + p.rotationSpeed * 0.01) ∧
      (frameTick L s).planets.map
          (fun p => (p.radius, p.distance, p.tilt, p.baseOrbitSpeed, p.baseRotationSpeed,
            p.orbitSpeed, p.rotationSpeed)) =
        s.planets.map
          (fun p => (p.radius, p.distance, p.tilt, p.baseOrbitSpeed, p.baseRotationSpeed,
            p.orbitSpeed, p.rotationSpeed))) ∧
      ((frameTick L s).moon.currentOrbitAngle =
          s.moon.currentOrbitAngle + s.moon.orbitSpeed * 0.01 ∧
        (frameTick L s).moon.currentRotationAngle =
          s.moon.currentRotationAngle + s.moon.rotationSpeed * 0.01 ∧
        ((frameTick L s).moon.radius, (frameTick L s).moon.distance, (frameTick L s).moon.tilt,
            (frameTick L s).moon.baseOrbitSpeed, (frameTick L s).moon.baseRotationSpeed,
            (frameTick L s).moon.orbitSpeed, (frameTick L s).moon.rotationSpeed) =
          (s.moon.radius, s.moon.distance, s.moon.tilt, s.moon.baseOrbitSpeed,
            s.moon.baseRotationSpeed, s.moon.orbitSpeed, s.moon.rotationSpeed)) := by
  refine ⟨⟨?_, ?_, ?_⟩, ?_⟩
  · exact planetLoop_map L Planet.currentOrbitAngle (fun _ _ => rfl) s.planets 0 _ _
  · exact planetLoop_map L Planet.currentRotationAngle (fun _ _ => rfl) s.planets 0 _ _
  · exact planetLoop_map L
      (fun p : Planet K => (p.radius, p.distance, p.tilt, p.baseOrbitSpeed, p.baseRotationSpeed,
        p.orbitSpeed, p.rotationSpeed)) (fun _ _ => rfl) s.planets 0 _ _
  · match hp : s.planets, h with
    | p0 :: p1 :: p2 :: p3 :: rest, _ =>
      have hm := frameTick_moon L s p0 p1 p2 p3 rest hp
      have h1 := congrArg Prod.fst hm
      simp only [moonBlock] at h1
      rw [h1]
      exact ⟨rfl, rfl, rfl⟩

/-- Witness for C9: in the scene with orbit multiplier `1.0` the Earth (planet 3,
base orbit speed `3.0`) moves from orbit angle `0` to `3.0 * 0.01` in one
frame, and the Moon (base orbit speed `13.0`) to `13.0 * 0.01`. -/
theorem frame_advances_angles_witness :
    3 < unitOrbitScene.planets.length ∧
      ((frameTick seriesLibm unitOrbitScene).planets.map Planet.currentOrbitAngle)[3]? =
        some ((3.0 : ℚ) * 0.01) ∧
      (frameTick seriesLibm unitOrbitScene).moon.currentOrbitAngle = 13.0 * 0.01 := by
  have hlen : 3 < unitOrbitScene.planets.length := by
    simp [unitOrbitScene, updatePlanetSpeeds, initScene]
  have h := frame_advances_angles seriesLibm unitOrbitScene hlen
  refine ⟨hlen, ?_, ?_⟩
  · rw [h.1.1]
    simp [unitOrbitScene, updatePlanetSpeeds, initScene, mkBody]
    norm_num
  · rw [h.2.1]
    simp [unitOrbitScene, updatePlanetSpeeds, initScene, mkBody]
    norm_num

theorem upAxis_normalize (L : Libm K) (hs : L.inversesqrt 1 = 1) :
    Vec3.normalize L (⟨0.0, 1.0, 0.0⟩ : Vec3 K) = ⟨0, 1, 0⟩ := by
  have e : Vec3.dot (⟨0.0, 1.0, 0.0⟩ : Vec3 K) ⟨0.0, 1.0, 0.0⟩ = 1 := by
    simp only [Vec3.dot]; norm_num
  simp only [Vec3.normalize, e, hs, Vec3.smul]
  norm_num

/-- The anchor recorded for a planet: `(distance, 0, 0)` turned about the up-axis
by the planet's orbit angle. -/
theorem orbitModel_anchor (L : Libm K) (hs : L.inversesqrt 1 = 1) (p : Planet K) :
    Vec4.toVec3 (orbitModel L p).c3 =
      rotateAboutUp L p.currentOrbitAngle ⟨p.distance, 0, 0⟩ := by
  simp only [orbitModel, translate, rotate, upAxis_normalize L hs, Mat4.identity, Vec4.add,
    Vec4.smul, Vec3.smul, Vec4.toVec3, rotateAboutUp]
  norm_num

/-- The anchor recorded for the Moon, for a math library with the addition
formulas of cosine and sine. -/
theorem moonOrbitModel_anchor (L : Libm K) (hs : L.inversesqrt 1 = 1)
    (hcos : ∀ a b, L.cos (a + b) = L.cos a * L.cos b - L.sin a * L.sin b)
    (hsin : ∀ a b, L.sin (a + b) = L.sin a * L.cos b + L.cos a * L.sin b)
    (parent moon : Planet K) :
    Vec4.toVec3 (moonOrbitModel L parent moon).c3 =
      Vec3.add (rotateAboutUp L parent.currentOrbitAngle ⟨parent.distance, 0, 0⟩)
        (rotateAboutUp L (parent.currentOrbitAngle + moon.currentOrbitAngle)
          ⟨moon.distance, 0, 0⟩) := by
  simp only [moonOrbitModel, translate, rotate, upAxis_normalize L hs, Mat4.identity, Vec4.add,
    Vec4.smul, Vec3.smul, Vec4.toVec3, rotateAboutUp, Vec3.add, hcos, hsin]
  norm_num
  refine ⟨?_, ?_⟩ <;> ring

theorem IsRealLibm.inversesqrt_one {L : Libm ℝ} (hL : IsRealLibm L) : L.inversesqrt 1 = 1 := by
  rw [hL.2.2.1, Real.sqrt_one, div_one]

theorem frameTick_planetPositions (L : Libm K) (s : Scene K) :
    (frameTick L s).planetPositions =
      s.planets.map (fun p => Vec4.toVec3 (orbitModel L (advance p)).c3) :=
  planetLoop_positions L s.planets 0 s.moon s.moonPosition

/-- The two anchors of a frame over the reals: planet 3 and the Moon. -/
theorem frameTick_anchors_real (L : Libm ℝ) (hL : IsRealLibm L) (s : Scene ℝ) (earth : Planet ℝ)
    (h : s.planets[3]? = some earth) :
    (frameTick L s).planetPositions[3]? =
        some (rotateAboutUp L (earth.currentOrbitAngle + earth.orbitSpeed * 0.01)
          ⟨earth.distance, 0, 0⟩) ∧
      (frameTick L s).moonPosition =
        Vec3.add
          (rotateAboutUp L (earth.currentOrbitAngle + earth.orbitSpeed * 0.01)
            ⟨earth.distance, 0, 0⟩)
          (rotateAboutUp L
            (earth.currentOrbitAngle + earth.orbitSpeed * 0.01 + s.moon.currentOrbitAngle)
            ⟨s.moon.distance, 0, 0⟩) := by
  have hs := hL.inversesqrt_one
  constructor
  · rw [frameTick_planetPositions, List.getElem?_map, h, Option.map_some',
      orbitModel_anchor L hs]
    rfl
  · match hp : s.planets, h with
    | p0 :: p1 :: p2 :: p3 :: rest, h3 =>
      have he : p3 = earth := by simpa using h3
      subst he
      have hm := congrArg Prod.snd (frameTick_moon L s p0 p1 p2 p3 rest hp)
      simp only [moonBlock] at hm
      rw [hm, moonOrbitModel_anchor L hs]
      · rfl
      · intro a b; rw [hL.1, hL.2.1]; exact Real.cos_add a b
      · intro a b; rw [hL.1, hL.2.1]; exact Real.sin_add a b

theorem initScene_moon_after_frame (L : Libm ℝ) :
    (frameTick L (initScene (fun _ => 0) 0)).moon.currentOrbitAngle = 0.065 := by
  have hm := congrArg Prod.fst
    (frameTick_moon L (initScene (fun _ => 0) 0) _ _ _ _ _ rfl)
  simp only [moonBlock] at hm
  rw [hm]
  simp only [advance, addTrailPoint, initScene, mkBody]
  norm_num

/-- C10 (as the code has it): in a frame, the Moon's recorded anchor is the anchor
recorded for its parent (planet 3, the Earth) in that frame plus the vector
`(moon.distance, 0, 0)` turned about the world up-axis by the sum of the
parent's orbit angle (the one its anchor was recorded with) and the Moon's
orbit angle (the one it has when the frame starts), over the reals. -/
theorem moon_anchor_chained (L : Libm ℝ) (hL : IsRealLibm L) (s : Scene ℝ) (earth : Planet ℝ)
    (h : s.planets[3]? = some earth) :
    (frameTick L s).planetPositions[3]? =
        some (rotateAboutUp L (earth.currentOrbitAngle + earth.orbitSpeed * 0.01)
          ⟨earth.distance, 0, 0⟩) ∧
      (frameTick L s).moonPosition =
        Vec3.add
          (rotateAboutUp L (earth.currentOrbitAngle + earth.orbitSpeed * 0.01)
            ⟨earth.distance, 0, 0⟩)
          (rotateAboutUp L
            (earth.currentOrbitAngle + earth.orbitSpeed * 0.01 + s.moon.currentOrbitAngle)
            ⟨s.moon.distance, 0, 0⟩) :=
  frameTick_anchors_real L hL s earth h

/-- Witness for C10: the first frame of the program over the reals. -/
theorem moon_anchor_chained_witness :
    IsRealLibm ⟨Real.cos, Real.sin, fun x => 1 / Real.sqrt x, Real.pi⟩ ∧
      (initScene (fun _ => 0) 0 : Scene ℝ).planets[3]? =
        some (mkBody "Earth" 1.3 9.0 3.0 1.0 23.4 0 : Planet ℝ) ∧
      (frameTick ⟨Real.cos, Real.sin, fun x => 1 / Real.sqrt x, Real.pi⟩
          (initScene (fun _ => 0) 0)).moonPosition =
        Vec3.add
          (rotateAboutUp ⟨Real.cos, Real.sin, fun x => 1 / Real.sqrt x, Real.pi⟩
            (0.0 + 3.0 * 0.5 * 0.01) ⟨9.0, 0, 0⟩)
          (rotateAboutUp ⟨Real.cos, Real.sin, fun x => 1 / Real.sqrt x, Real.pi⟩
            (0.0 + 3.0 * 0.5 * 0.01 + 0.0) ⟨2.5, 0, 0⟩) :=
  ⟨⟨rfl, rfl, fun _ => rfl, rfl⟩, rfl,
    (moon_anchor_chained ⟨Real.cos, Real.sin, fun x => 1 / Real.sqrt x, Real.pi⟩
      ⟨rfl, rfl, fun _ => rfl, rfl⟩ (initScene (fun _ => 0) 0)
      (mkBody "Earth" 1.3 9.0 3.0 1.0 23.4 0) rfl).2⟩

/-- C10, counterexample: in the first frame of the program (Earth's orbit angle
`0.015` when its anchor is recorded, Moon's orbit angle `0` before and `0.065`
after the frame) the Moon's anchor is not the Earth's anchor plus
`(moon.distance, 0, 0)` turned by the Moon's own orbit angle, whether that
angle is read before or after the frame. -/
theorem moon_anchor_own_angle_fails :
    ∃ E : Vec3 ℝ,
      (frameTick ⟨Real.cos, Real.sin, fun x => 1 / Real.sqrt x, Real.pi⟩
          (initScene (fun _ => 0) 0)).planetPositions[3]? = some E ∧
        (frameTick ⟨Real.cos, Real.sin, fun x => 1 / Real.sqrt x, Real.pi⟩
            (initScene (fun _ => 0) 0)).moonPosition ≠
          Vec3.add E
            (rotateAboutUp ⟨Real.cos, Real.sin, fun x => 1 / Real.sqrt x, Real.pi⟩
              (initScene (fun _ => 0) 0 : Scene ℝ).moon.currentOrbitAngle
              ⟨(initScene (fun _ => 0) 0 : Scene ℝ).moon.distance, 0, 0⟩) ∧
        (frameTick ⟨Real.cos, Real.sin, fun x => 1 / Real.sqrt x, Real.pi⟩
            (initScene (fun _ => 0) 0)).moonPosition ≠
          Vec3.add E
            (rotateAboutUp ⟨Real.cos, Real.sin, fun x => 1 / Real.sqrt x, Real.pi⟩
              (frameTick ⟨Real.cos, Real.sin, fun x => 1 / Real.sqrt x, Real.pi⟩
                (initScene (fun _ => 0) 0)).moon.currentOrbitAngle
              ⟨(initScene (fun _ => 0) 0 : Scene ℝ).moon.distance, 0, 0⟩) := by
  have hL : IsRealLibm ⟨Real.cos, Real.sin, fun x => 1 / Real.sqrt x, Real.pi⟩ :=
    ⟨rfl, rfl, fun _ => rfl, rfl⟩
  obtain ⟨h1, h2⟩ := frameTick_anchors_real _ hL (initScene (fun _ => 0) 0)
    (mkBody "Earth" 1.3 9.0 3.0 1.0 23.4 0) rfl
  refine ⟨_, h1, ?_, ?_⟩
  · rw [h2]
    intro heq
    have hz := congrArg Vec3.z heq
    simp only [Vec3.add, rotateAboutUp, initScene, mkBody] at hz
    norm_num at hz
    have hpos : 0 < Real.sin (3 / 200) :=
      Real.sin_pos_of_pos_of_lt_pi (by norm_num) (by linarith [Real.pi_gt_three])
    linarith
  · rw [h2, initScene_moon_after_frame]
    intro heq
    have hz := congrArg Vec3.z heq
    simp only [Vec3.add, rotateAboutUp, initScene, mkBody] at hz
    norm_num at hz
    have hlt : Real.sin (3 / 200) < Real.sin (13 / 200) :=
      Real.sin_lt_sin_of_lt_of_le_pi_div_two (by linarith [Real.pi_gt_three])
        (by linarith [Real.pi_gt_three]) (by norm_num)
    linarith

end FrameProofs

/-! ## Sphere mesh -/

section SphereProofs

variable {K : Type} [LinearOrderedField K]

theorem wrap32_of_lt {n : Nat} (h : n < 2 ^ 32) : wrap32 n = n := Nat.mod_eq_of_lt h

theorem wrap32_lt (n : Nat) : wrap32 n < 2 ^ 32 := Nat.mod_lt _ (by norm_num)

/-- The inner vertex loop ends when `sectors + 1` is representable, and pushes
one vertex for each `j` up to `sectors`. -/
theorem sectorLoop_spec (L : Libm K) (radius lengthInv xy z sectorStep : K)
    (sectors stackCount i : Nat) (hS : sectors + 1 < 2 ^ 32) :
    ∀ (fuel j : Nat) (m : SphereMesh K), j ≤ sectors + 1 → sectors + 2 ≤ fuel + j →
      ∃ r, sectorLoop L radius lengthInv xy z sectorStep sectors stackCount i fuel j m = some r ∧
        r.vertices.length = m.vertices.length + 3 * (sectors + 1 - j) ∧
        r.normals.length = m.normals.length + 3 * (sectors + 1 - j) ∧
        r.texCoords.length = m.texCoords.length + 2 * (sectors + 1 - j) ∧
        r.indices = m.indices := by
  intro fuel
  induction fuel with
  | zero => intro j m hj hf; omega
  | succ fuel ih =>
    intro j m hj hf
    by_cases hle : j ≤ sectors
    · simp only [sectorLoop, if_pos hle]
      rw [wrap32_of_lt (by omega)]
      obtain ⟨r, hr, h1, h2, h3, h4⟩ := ih (j + 1)
        { m with vertices := m.vertices ++ [xy * L.cos ((j : K) * sectorStep),
                   xy * L.sin ((j : K) * sectorStep), z],
                 normals := m.normals ++ [xy * L.cos ((j : K) * sectorStep) * lengthInv,
                   xy * L.sin ((j : K) * sectorStep) * lengthInv, z * lengthInv],
                 texCoords := m.texCoords ++ [(j : K) / (sectors : K),
                   (i : K) / (stackCount : K)] }
        (by omega) (by omega)
      refine ⟨r, hr, ?_, ?_, ?_, h4⟩
      · rw [h1]; simp only [List.length_append, List.length_cons, List.length_nil]; omega
      · rw [h2]; simp only [List.length_append, List.length_cons, List.length_nil]; omega
      · rw [h3]; simp only [List.length_append, List.length_cons, List.length_nil]; omega
    · simp only [sectorLoop, if_neg hle]
      exact ⟨m, rfl, by omega, by omega, by omega, rfl⟩

/-- The outer vertex loop ends when `sectors + 1` and `stackCount + 1` are
representable, and pushes `sectors + 1` vertices for each `i` up to
`stackCount`. -/
theorem stackLoop_spec (L : Libm K) (radius lengthInv sectorStep stackStep : K)
    (sectors stackCount : Nat) (hS : sectors + 1 < 2 ^ 32) (hT : stackCount + 1 < 2 ^ 32) :
    ∀ (fuel i : Nat) (m : SphereMesh K), i ≤ stackCount + 1 →
      stackCount + 2 + (sectors + 2) ≤ fuel + i →
      ∃ r, stackLoop L radius lengthInv sectorStep stackStep sectors stackCount fuel i m = some r ∧
        r.vertices.length = m.vertices.length + 3 * ((stackCount + 1 - i) * (sectors + 1)) ∧
        r.normals.length = m.normals.length + 3 * ((stackCount + 1 - i) * (sectors + 1)) ∧
        r.texCoords.length = m.texCoords.length + 2 * ((stackCount + 1 - i) * (sectors + 1)) ∧
        r.indices = m.indices := by
  intro fuel
  induction fuel with
  | zero => intro i m hi hf; omega
  | succ fuel ih =>
    intro i m hi hf
    by_cases hle : i ≤ stackCount
    · simp only [stackLoop, if_pos hle]
      obtain ⟨r1, hr1, a1, a2, a3, a4⟩ := sectorLoop_spec L radius lengthInv
        (radius * L.cos (L.pi / 2 - (i : K) * stackStep))
        (radius * L.sin (L.pi / 2 - (i : K) * stackStep)) sectorStep sectors stackCount i hS
        fuel 0 m (by omega) (by omega)
      rw [hr1]
      simp only
      rw [wrap32_of_lt (by omega)]
      obtain ⟨r, hr, h1, h2, h3, h4⟩ := ih (i + 1) r1 (by omega) (by omega)
      have e : (stackCount + 1 - i) * (sectors + 1) =
          (sectors + 1) + (stackCount + 1 - (i + 1)) * (sectors + 1) := by
        have : stackCount + 1 - i = (stackCount + 1 - (i + 1)) + 1 := by omega
        rw [this, Nat.add_mul, Nat.one_mul, Nat.add_comm]
      refine ⟨r, hr, ?_, ?_, ?_, ?_⟩
      · rw [h1, a1, e]; simp only [Nat.sub_zero]; omega
      · rw [h2, a2, e]; simp only [Nat.sub_zero]; omega
      · rw [h3, a3, e]; simp only [Nat.sub_zero]; omega
      · rw [h4, a4]
    · simp only [stackLoop, if_neg hle]
      have e : stackCount + 1 - i = 0 := by omega
      exact ⟨m, rfl, by rw [e]; simp, by rw [e]; simp, by rw [e]; simp, rfl⟩

/-- Number of index triples that cell row `i` gets per sector, times three. -/
theorem indexSectorLoop_spec (sectors stackCount i : Nat) (hS : sectors < 2 ^ 32) :
    ∀ (fuel j k1 k2 : Nat) (indices : List Nat), j ≤ sectors → sectors + 1 ≤ fuel + j →
      ∃ r, indexSectorLoop sectors stackCount i fuel j k1 k2 indices = some r ∧
        r.length = indices.length + (sectors - j) *
          ((if i ≠ 0 then 3 else 0) +
            (if i ≠ wrap32 (stackCount + (2 ^ 32 - 1)) then 3 else 0)) := by
  intro fuel
  induction fuel with
  | zero => intro j k1 k2 indices hj hf; omega
  | succ fuel ih =>
    intro j k1 k2 indices hj hf
    by_cases hlt : j < sectors
    · simp only [indexSectorLoop, if_pos hlt]
      rw [wrap32_of_lt (show j + 1 < 2 ^ 32 by omega)]
      obtain ⟨r, hr, h1⟩ := ih (j + 1) (wrap32 (k1 + 1)) (wrap32 (k2 + 1))
        (if i ≠ wrap32 (stackCount + (2 ^ 32 - 1)) then
          (if i ≠ 0 then indices ++ [k1, k2, wrap32 (k1 + 1)] else indices) ++
            [wrap32 (k1 + 1), k2, wrap32 (k2 + 1)]
          else (if i ≠ 0 then indices ++ [k1, k2, wrap32 (k1 + 1)] else indices))
        (by omega) (by omega)
      refine ⟨r, hr, ?_⟩
      rw [h1]
      have e : sectors - j = (sectors - (j + 1)) + 1 := by omega
      rw [e, Nat.add_mul, Nat.one_mul]
      generalize (sectors - (j + 1)) *
        ((if i ≠ 0 then 3 else 0) +
          (if i ≠ wrap32 (stackCount + (2 ^ 32 - 1)) then 3 else 0)) = rest
      by_cases c1 : i ≠ 0 <;> by_cases c2 : i ≠ wrap32 (stackCount + (2 ^ 32 - 1))
      · simp only [if_pos c1, if_pos c2, List.length_append, List.length_cons, List.length_nil]
        omega
      · simp only [if_pos c1, if_neg c2, List.length_append, List.length_cons, List.length_nil]
        omega
      · simp only [if_neg c1, if_pos c2, List.length_append, List.length_cons, List.length_nil]
        omega
      · simp only [if_neg c1, if_neg c2]
        omega
    · simp only [indexSectorLoop, if_neg hlt]
      have e : sectors - j = 0 := by omega
      exact ⟨indices, rfl, by rw [e]; simp⟩

theorem row_count_step (T i : Nat) (hlt : i < T) :
    ((if i ≠ 0 then 3 else 0) + (if i ≠ T - 1 then 3 else 0)) +
        (if i + 1 = 0 then 6 * (T - 1)
          else if i + 1 < T then 6 * (T - 1 - (i + 1)) + 3 else 0) =
      (if i = 0 then 6 * (T - 1)
        else if i < T then 6 * (T - 1 - i) + 3 else 0) := by
  rw [if_neg (Nat.succ_ne_zero i)]
  by_cases c0 : i = 0
  · subst c0
    by_cases c1 : 0 + 1 < T
    · have c2 : 0 ≠ T - 1 := by omega
      simp only [ne_eq, not_true_eq_false, if_false, if_pos c1, if_true, c2, not_false_eq_true]
      omega
    · have c2 : 0 = T - 1 := by omega
      simp only [ne_eq, not_true_eq_false, if_false, if_neg c1, if_true, ← c2]
  · have h0 : i ≠ 0 := c0
    rw [if_pos h0, if_neg c0, if_pos hlt]
    by_cases c1 : i + 1 < T
    · have c2 : i ≠ T - 1 := by omega
      rw [if_pos c1, if_pos c2]
      omega
    · have c2 : ¬ i ≠ T - 1 := by omega
      rw [if_neg c1, if_neg c2]
      omega

theorem wrap32_pred {n : Nat} (h1 : 1 ≤ n) (h2 : n < 2 ^ 32) :
    wrap32 (n + (2 ^ 32 - 1)) = n - 1 := by
  unfold wrap32; omega

/-- The outer index loop always ends; started at row `i` it pushes
`sectors * (6 * (stackCount - 1 - i) + 3)` indices for `0 < i < stackCount`
and `sectors * 6 * (stackCount - 1)` for `i = 0`. -/
theorem indexStackLoop_spec (sectors stackCount : Nat) (hS : sectors < 2 ^ 32)
    (hT1 : 1 ≤ stackCount) (hT : stackCount < 2 ^ 32) :
    ∀ (fuel i : Nat) (indices : List Nat), i ≤ stackCount →
      stackCount + 1 + (sectors + 1) ≤ fuel + i →
      ∃ r, indexStackLoop sectors stackCount fuel i indices = some r ∧
        r.length = indices.length + sectors *
          (if i = 0 then 6 * (stackCount - 1)
            else if i < stackCount then 6 * (stackCount - 1 - i) + 3 else 0) := by
  intro fuel
  induction fuel with
  | zero => intro i indices hi hf; omega
  | succ fuel ih =>
    intro i indices hi hf
    by_cases hlt : i < stackCount
    · simp only [indexStackLoop, if_pos hlt]
      obtain ⟨r1, hr1, a1⟩ := indexSectorLoop_spec sectors stackCount i hS fuel 0
        (wrap32 (i * wrap32 (sectors + 1)))
        (wrap32 (wrap32 (wrap32 (i * wrap32 (sectors + 1)) + sectors) + 1)) indices
        (by omega) (by omega)
      rw [hr1]
      simp only
      rw [wrap32_of_lt (show i + 1 < 2 ^ 32 by omega)]
      obtain ⟨r, hr, h1⟩ := ih (i + 1) r1 (by omega) (by omega)
      refine ⟨r, hr, ?_⟩
      have key := row_count_step stackCount i hlt
      rw [if_pos hlt] at key
      rw [wrap32_pred hT1 hT, Nat.sub_zero] at a1
      rw [h1, a1, ← key]
      generalize ((if i ≠ 0 then 3 else 0) + (if i ≠ stackCount - 1 then 3 else 0)) = c
      generalize (if i + 1 = 0 then 6 * (stackCount - 1)
        else if i + 1 < stackCount then 6 * (stackCount - 1 - (i + 1)) + 3 else 0) = d
      rw [Nat.mul_add, Nat.add_assoc]
    · simp only [indexStackLoop, if_neg hlt]
      have c0 : i ≠ 0 := by omega
      exact ⟨indices, rfl, by simp [c0, hlt]⟩

/-- The result of `generateSphere` when `sectors` and `stackCount` are at most
`2 ^ 32 - 2` and there is fuel for every loop. -/
theorem generateSphere_lengths (L : Libm K) (old : SphereMesh K) (radius : K)
    (sectors stackCount fuel : Nat) (hS : sectors ≤ 4294967294)
    (hT1 : 1 ≤ stackCount) (hT : stackCount ≤ 4294967294)
    (hf : sectors + stackCount + 4 ≤ fuel) :
    ∃ m, generateSphere L fuel old radius sectors stackCount = some m ∧
      m.vertices.length = 3 * ((stackCount + 1) * (sectors + 1)) ∧
      m.normals.length = 3 * ((stackCount + 1) * (sectors + 1)) ∧
      m.texCoords.length = 2 * ((stackCount + 1) * (sectors + 1)) ∧
      m.indices.length = sectors * (6 * (stackCount - 1)) := by
  unfold generateSphere
  obtain ⟨r1, hr1, a1, a2, a3, a4⟩ := stackLoop_spec L radius (1.0 / radius)
    (2 * L.pi / (sectors : K)) (L.pi / (stackCount : K)) sectors stackCount
    (by omega) (by omega) fuel 0
    { old with vertices := [], normals := [], texCoords := [], indices := [] }
    (by omega) (by omega)
  obtain ⟨r2, hr2, b1⟩ := indexStackLoop_spec sectors stackCount (by omega) hT1 (by omega)
    fuel 0 r1.indices (by omega) (by omega)
  simp only [hr1, hr2]
  refine ⟨_, rfl, ?_, ?_, ?_, ?_⟩
  · simpa using a1
  · simpa using a2
  · simpa using a3
  · rw [a4] at b1
    simpa using b1

/-- With `sectors = 2 ^ 32 - 1` the test `j <= sectors` never fails: the inner
vertex loop uses up any fuel. -/
theorem sectorLoop_max_sectors (L : Libm K) (radius lengthInv xy z sectorStep : K)
    (stackCount i : Nat) :
    ∀ (fuel j : Nat) (m : SphereMesh K), j < 2 ^ 32 →
      sectorLoop L radius lengthInv xy z sectorStep 4294967295 stackCount i fuel j m = none := by
  intro fuel
  induction fuel with
  | zero => intro j m _; rfl
  | succ fuel ih =>
    intro j m hj
    simp only [sectorLoop, if_pos (show j ≤ 4294967295 by omega)]
    exact ih _ _ (wrap32_lt _)

/-- With `stackCount = 2 ^ 32 - 1` the test `i <= stacks` never fails: the outer
vertex loop uses up any fuel. -/
theorem stackLoop_max_stacks (L : Libm K) (radius lengthInv sectorStep stackStep : K)
    (sectors : Nat) :
    ∀ (fuel i : Nat) (m : SphereMesh K), i < 2 ^ 32 →
      stackLoop L radius lengthInv sectorStep stackStep sectors 4294967295 fuel i m = none := by
  intro fuel
  induction fuel with
  | zero => intro i m _; rfl
  | succ fuel ih =>
    intro i m hi
    simp only [stackLoop, if_pos (show i ≤ 4294967295 by omega)]
    split
    · rfl
    · exact ih _ _ (wrap32_lt _)

/-- C7 (as the code has it): for `S ≥ 1` sectors and `T ≥ 1` stacks with at most
`2 ^ 32` vertices, `(S + 1) * (T + 1) ≤ 2 ^ 32` (every vertex number is an
`unsigned int` value and every output vector has fewer than `6 * 2 ^ 32`
elements), `generateSphere` returns (any fuel of at least `S + T + 4` is
enough) and leaves exactly `6 * S * (T - 1)` indices in the index vector,
whatever the four output vectors held before. -/
theorem generateSphere_index_count (L : Libm K) (old : SphereMesh K) (radius : K)
    (sectors stackCount fuel : Nat) (hS1 : 1 ≤ sectors) (hT1 : 1 ≤ stackCount)
    (hb : (sectors + 1) * (stackCount + 1) ≤ 4294967296)
    (hf : sectors + stackCount + 4 ≤ fuel) :
    ∃ m, generateSphere L fuel old radius sectors stackCount = some m ∧
      m.indices.length = 6 * sectors * (stackCount - 1) ∧
      m.indices.length < 6 * 4294967296 := by
  have hS2 : (sectors + 1) * 2 ≤ (sectors + 1) * (stackCount + 1) :=
    Nat.mul_le_mul_left _ (by omega)
  have hT2 : 2 * (stackCount + 1) ≤ (sectors + 1) * (stackCount + 1) :=
    Nat.mul_le_mul_right _ (by omega)
  obtain ⟨m, hm, _, _, _, h4⟩ :=
    generateSphere_lengths L old radius sectors stackCount fuel (by omega) hT1 (by omega) hf
  have h5 : sectors * (stackCount - 1) ≤ sectors * (stackCount + 1) :=
    Nat.mul_le_mul_left _ (by omega)
  have h8 : (sectors + 1) * (stackCount + 1) = sectors * (stackCount + 1) + (stackCount + 1) := by
    ring
  have h6 : sectors * (6 * (stackCount - 1)) = 6 * (sectors * (stackCount - 1)) := by ring
  have h7 : 6 * sectors * (stackCount - 1) = 6 * (sectors * (stackCount - 1)) := by ring
  refine ⟨m, hm, by rw [h4, h6, h7], ?_⟩
  rw [h4, h6]
  omega

/-- Witness for C7: the call of `main`, 36 sectors and 18 stacks, on output
vectors that are not empty. -/
theorem generateSphere_index_count_witness :
    (1 ≤ 36 ∧ 1 ≤ 18 ∧ (36 + 1) * (18 + 1) ≤ 4294967296 ∧ 36 + 18 + 4 ≤ 58) ∧
      ∃ m, generateSphere seriesLibm 58 ⟨[1], [2], [3], [7, 8, 9]⟩ 1 36 18 = some m ∧
        m.indices.length = 3672 ∧ m.indices.length < 6 * 4294967296 :=
  ⟨by decide,
    generateSphere_index_count seriesLibm ⟨[1], [2], [3], [7, 8, 9]⟩ 1 36 18 58
      (by decide) (by decide) (by decide) (by decide)⟩

/-- C7, counterexample: with 1 sector and `2 ^ 32 - 1` stacks the loop
`for (unsigned int i = 0; i <= stacks; ++i)` never ends: no amount of fuel
makes `generateSphere` return, so the `6 * 1 * (2 ^ 32 - 2)` indices of the
claim are never emitted. -/
theorem generateSphere_max_stacks_no_indices :
    ¬ ∃ (fuel : Nat) (m : SphereMesh ℚ),
      generateSphere seriesLibm fuel ⟨[], [], [], []⟩ 1 1 4294967295 = some m := by
  rintro ⟨fuel, m, h⟩
  unfold generateSphere at h
  simp only [stackLoop_max_stacks seriesLibm _ _ _ _ 1 fuel 0 _ (by norm_num)] at h
  exact Option.noConfusion h

/-- C8 (as the code has it): for `S ≥ 1` sectors and `T ≥ 1` stacks with at most
`2 ^ 32` vertices, `(S + 1) * (T + 1) ≤ 2 ^ 32` (every vertex number is an
`unsigned int` value and every output vector has at most `3 * 2 ^ 32`
elements), `generateSphere` returns (any fuel of at least `S + T + 4` is
enough) with `(S + 1) * (T + 1)` vertices: `3 * (S + 1) * (T + 1)` floats in
each of the position and normal arrays and `2 * (S + 1) * (T + 1)` in the
texture coordinate array, whatever the output vectors held before. -/
theorem generateSphere_vertex_count (L : Libm K) (old : SphereMesh K) (radius : K)
    (sectors stackCount fuel : Nat) (hS1 : 1 ≤ sectors) (hT1 : 1 ≤ stackCount)
    (hb : (sectors + 1) * (stackCount + 1) ≤ 4294967296)
    (hf : sectors + stackCount + 4 ≤ fuel) :
    ∃ m, generateSphere L fuel old radius sectors stackCount = some m ∧
      m.vertices.length = 3 * (sectors + 1) * (stackCount + 1) ∧
      m.normals.length = 3 * (sectors + 1) * (stackCount + 1) ∧
      m.texCoords.length = 2 * (sectors + 1) * (stackCount + 1) ∧
      m.vertices.length ≤ 3 * 4294967296 := by
  have hS2 : (sectors + 1) * 2 ≤ (sectors + 1) * (stackCount + 1) :=
    Nat.mul_le_mul_left _ (by omega)
  have hT2 : 2 * (stackCount + 1) ≤ (sectors + 1) * (stackCount + 1) :=
    Nat.mul_le_mul_right _ (by omega)
  obtain ⟨m, hm, h1, h2, h3, _⟩ :=
    generateSphere_lengths L old radius sectors stackCount fuel (by omega) hT1 (by omega) hf
  have hc : (stackCount + 1) * (sectors + 1) = (sectors + 1) * (stackCount + 1) :=
    Nat.mul_comm _ _
  refine ⟨m, hm, by rw [h1]; ring, by rw [h2]; ring, by rw [h3]; ring, ?_⟩
  rw [h1, hc]
  omega

/-- Witness for C8: the call of `main`, 36 sectors and 18 stacks (703 vertices),
on output vectors that are not empty. -/
theorem generateSphere_vertex_count_witness :
    (1 ≤ 36 ∧ 1 ≤ 18 ∧ (36 + 1) * (18 + 1) ≤ 4294967296 ∧ 36 + 18 + 4 ≤ 58) ∧
      ∃ m, generateSphere seriesLibm 58 ⟨[1], [2], [3], [7, 8, 9]⟩ 1 36 18 = some m ∧
        m.vertices.length = 2109 ∧ m.normals.length = 2109 ∧ m.texCoords.length = 1406 ∧
        m.vertices.length ≤ 3 * 4294967296 :=
  ⟨by decide,
    generateSphere_vertex_count seriesLibm ⟨[1], [2], [3], [7, 8, 9]⟩ 1 36 18 58
      (by decide) (by decide) (by decide) (by decide)⟩

/-- C8, counterexample: with `2 ^ 32 - 1` sectors and 1 stack the loop
`for (unsigned int j = 0; j <= sectors; ++j)` never ends: no amount of fuel
makes `generateSphere` return, so it yields no arrays of `2 ^ 32 * 2`
vertices. -/
theorem generateSphere_max_sectors_no_vertices :
    ¬ ∃ (fuel : Nat) (m : SphereMesh ℚ),
      generateSphere seriesLibm fuel ⟨[], [], [], []⟩ 1 4294967295 1 = some m := by
  rintro ⟨fuel, m, h⟩
  unfold generateSphere at h
  cases fuel with
  | zero => exact Option.noConfusion h
  | succ fuel =>
    simp only [stackLoop, if_pos (show 0 ≤ 1 by norm_num),
      sectorLoop_max_sectors seriesLibm _ _ _ _ _ 1 0 fuel 0 _ (by norm_num)] at h
    exact Option.noConfusion h

end SphereProofs

/-! ## Screen projection and labels -/

section ProjectionProofs

variable {K : Type} [LinearOrderedField K]

theorem Mat4.mulVec_mul (a b : Mat4 K) (v : Vec4 K) :
    Mat4.mulVec (Mat4.mul a b) v = Mat4.mulVec a (Mat4.mulVec b v) := by
  simp only [Mat4.mul, Mat4.mulVec, Vec4.add, Vec4.smul, Vec4.mk.injEq]
  refine ⟨?_, ?_, ?_, ?_⟩ <;> ring

theorem world3DToScreen2D_of_ne_zero (worldPos : Vec3 K) (view projection : Mat4 K)
    (viewport : Vec4 K)
    (hw : (Mat4.mulVec (Mat4.mul projection view) (Vec4.ofVec3 worldPos 1)).w ≠ 0) :
    world3DToScreen2D worldPos view projection viewport =
      some ⟨((Mat4.mulVec (Mat4.mul projection view) (Vec4.ofVec3 worldPos 1)).x /
              (Mat4.mulVec (Mat4.mul projection view) (Vec4.ofVec3 worldPos 1)).w + 1) / 2 *
            viewport.z + viewport.x,
          ((Mat4.mulVec (Mat4.mul projection view) (Vec4.ofVec3 worldPos 1)).y /
              (Mat4.mulVec (Mat4.mul projection view) (Vec4.ofVec3 worldPos 1)).w + 1) / 2 *
            viewport.w + viewport.y⟩ := by
  have e1 : (1.0 : K) = 1 := by norm_num
  simp only [world3DToScreen2D, fdiv, e1, if_neg hw]
  congr 2 <;> ring

theorem world3DToScreen2D_of_eq_zero (worldPos : Vec3 K) (view projection : Mat4 K)
    (viewport : Vec4 K)
    (hw : (Mat4.mulVec (Mat4.mul projection view) (Vec4.ofVec3 worldPos 1)).w = 0) :
    world3DToScreen2D worldPos view projection viewport = none := by
  have e1 : (1.0 : K) = 1 := by norm_num
  simp only [world3DToScreen2D, fdiv, e1, if_pos hw]

/-- C11: with `(x, y, z, w) = projection * view * (p, 1)` (the product taken
either way round) and `w ≠ 0`, `world3DToScreen2D` returns
`((x / w + 1) / 2 * vw + vx, (y / w + 1) / 2 * vh + vy)`; the origin under
identity view and projection and viewport `(0, 0, 800, 600)` goes to
`(400, 300)`. -/
theorem world3DToScreen2D_formula (p : Vec3 K) (view projection : Mat4 K) (viewport : Vec4 K)
    (hw : (Mat4.mulVec projection (Mat4.mulVec view (Vec4.ofVec3 p 1))).w ≠ 0) :
    Mat4.mulVec (Mat4.mul projection view) (Vec4.ofVec3 p 1) =
        Mat4.mulVec projection (Mat4.mulVec view (Vec4.ofVec3 p 1)) ∧
      world3DToScreen2D p view projection viewport =
        some ⟨((Mat4.mulVec projection (Mat4.mulVec view (Vec4.ofVec3 p 1))).x /
                (Mat4.mulVec projection (Mat4.mulVec view (Vec4.ofVec3 p 1))).w + 1) / 2 *
              viewport.z + viewport.x,
            ((Mat4.mulVec projection (Mat4.mulVec view (Vec4.ofVec3 p 1))).y /
                (Mat4.mulVec projection (Mat4.mulVec view (Vec4.ofVec3 p 1))).w + 1) / 2 *
              viewport.w + viewport.y⟩ ∧
      world3DToScreen2D (⟨0, 0, 0⟩ : Vec3 K) Mat4.identity Mat4.identity ⟨0, 0, 800, 600⟩ =
        some ⟨400, 300⟩ := by
  refine ⟨Mat4.mulVec_mul projection view _, ?_, ?_⟩
  · rw [← Mat4.mulVec_mul] at hw ⊢
    exact world3DToScreen2D_of_ne_zero p view projection viewport hw
  · rw [world3DToScreen2D_of_ne_zero]
    · simp only [Mat4.mul, Mat4.mulVec, Mat4.identity, Vec4.add, Vec4.smul, Vec4.ofVec3]
      norm_num
    · simp only [Mat4.mul, Mat4.mulVec, Mat4.identity, Vec4.add, Vec4.smul, Vec4.ofVec3]
      norm_num

/-- Witness for C11: the origin under identity view and projection (`w = 1`) and
viewport `(0, 0, 800, 600)`. -/
theorem world3DToScreen2D_formula_witness :
    (Mat4.mulVec Mat4.identity
        (Mat4.mulVec Mat4.identity (Vec4.ofVec3 (⟨0, 0, 0⟩ : Vec3 ℚ) 1))).w ≠ 0 ∧
      world3DToScreen2D (⟨0, 0, 0⟩ : Vec3 ℚ) Mat4.identity Mat4.identity ⟨0, 0, 800, 600⟩ =
        some ⟨400, 300⟩ :=
  ⟨by simp [Mat4.mulVec, Mat4.identity, Vec4.add, Vec4.smul, Vec4.ofVec3],
    (world3DToScreen2D_formula (⟨0, 0, 0⟩ : Vec3 ℚ) Mat4.identity Mat4.identity
      ⟨0, 0, 800, 600⟩
      (by simp [Mat4.mulVec, Mat4.identity, Vec4.add, Vec4.smul, Vec4.ofVec3])).2.2⟩

theorem labelLoop_eq_zipWith (view projection : Mat4 K) (planets : List (Planet K)) :
    ∀ planetPositions : List (Vec3 K),
      labelLoop view projection planets planetPositions =
        List.zipWith (bodyLabel view projection) planets planetPositions := by
  induction planets with
  | nil => intro qs; cases qs <;> rfl
  | cons p ps ih =>
    intro qs
    cases qs with
    | nil => rfl
    | cons q qs => simp only [labelLoop, List.zipWith_cons_cons, ih]

theorem labelLoop_text (view projection : Mat4 K) (planets : List (Planet K)) :
    ∀ planetPositions : List (Vec3 K), planetPositions.length = planets.length →
      (labelLoop view projection planets planetPositions).map TextDraw.text =
        planets.map Planet.name := by
  induction planets with
  | nil => intro qs _; cases qs <;> rfl
  | cons p ps ih =>
    intro qs hlen
    cases qs with
    | nil => simp at hlen
    | cons q qs =>
      simp only [labelLoop, List.map_cons, bodyLabel]
      rw [ih qs (by simpa using hlen)]

theorem labelLoop_getElem? (view projection : Mat4 K) (planets : List (Planet K))
    (planetPositions : List (Vec3 K)) (i : Nat) (planet : Planet K) (planetPos : Vec3 K)
    (hp : planets[i]? = some planet) (hq : planetPositions[i]? = some planetPos) :
    (labelLoop view projection planets planetPositions)[i]? =
      some (bodyLabel view projection planet planetPos) := by
  rw [labelLoop_eq_zipWith, List.getElem?_zipWith, hp, hq]

theorem labelLoop_length (view projection : Mat4 K) (planets : List (Planet K))
    (planetPositions : List (Vec3 K)) (hlen : planetPositions.length = planets.length) :
    (labelLoop view projection planets planetPositions).length = planets.length := by
  rw [labelLoop_eq_zipWith, List.length_zipWith, hlen, min_self]

theorem bodyLabel_of_eq_zero (view projection : Mat4 K) (planet : Planet K) (planetPos : Vec3 K)
    (hw : (Mat4.mulVec (Mat4.mul projection view)
      (Vec4.ofVec3 (calculateNamePosition planet planetPos) 1)).w = 0) :
    bodyLabel view projection planet planetPos =
      { text := planet.name, position := none, scale := 0.5, color := ⟨1.0, 1.0, 1.0⟩ } := by
  simp only [bodyLabel, world3DToScreen2D_of_eq_zero _ _ _ _ hw, Option.map_none']

/-- The text draws of the label block when names are shown: one per planet, in
order, then the Moon's; none is left out. -/
theorem labelDraws_spec (s : Scene K) (view projection : Mat4 K)
    (hshow : s.showPlanetNames = true) (hlen : s.planetPositions.length = s.planets.length) :
    (labelDraws s view projection).map TextDraw.text =
        s.planets.map Planet.name ++ [s.moon.name] ∧
      (labelDraws s view projection).length = s.planets.length + 1 ∧
      (∀ (i : Nat) (planet : Planet K) (planetPos : Vec3 K),
        s.planets[i]? = some planet → s.planetPositions[i]? = some planetPos →
          (labelDraws s view projection)[i]? =
            some (bodyLabel view projection planet planetPos)) ∧
      (labelDraws s view projection)[s.planets.length]? =
        some (bodyLabel view projection s.moon s.moonPosition) := by
  simp only [labelDraws, hshow, if_true]
  refine ⟨?_, ?_, ?_, ?_⟩
  · rw [List.map_append, labelLoop_text view projection s.planets s.planetPositions hlen]
    rfl
  · rw [List.length_append, labelLoop_length view projection _ _ hlen]
    rfl
  · intro i planet planetPos hp hq
    have hi : i < (labelLoop view projection s.planets s.planetPositions).length := by
      rw [labelLoop_length view projection _ _ hlen]
      exact (List.getElem?_eq_some.mp hp).1
    rw [List.getElem?_append_left hi]
    exact labelLoop_getElem? view projection _ _ i planet planetPos hp hq
  · have hl := labelLoop_length view projection s.planets s.planetPositions hlen
    rw [List.getElem?_append_right (by omega), hl, Nat.sub_self]
    rfl

end ProjectionProofs

/-! ## Order of the steps inside a frame -/

section FrameOrderProofs

variable {K : Type} [LinearOrderedField K]

/-- What the planet loop leaves in `planets[i + k]`: the planet with its angles
advanced and, except for index 0, with the position computed from the advanced
angle pushed on its trail. -/
theorem planetLoop_getElem? (L : Libm K) (ps : List (Planet K)) :
    ∀ (i : Nat) (moon : Planet K) (mp : Vec3 K) (k : Nat) (p : Planet K), ps[k]? = some p →
      (planetLoop L i ps moon mp).1[k]? =
        some (if i + k > 0 then
          addTrailPoint (advance p) (Vec4.toVec3 (orbitModel L (advance p)).c3)
          else advance p) := by
  induction ps with
  | nil => intro i moon mp k p hp; simp at hp
  | cons q rest ih =>
    intro i moon mp k p hp
    cases k with
    | zero =>
      have hq : q = p := by simpa using hp
      subst hq
      simp only [planetLoop, List.getElem?_cons_zero, Nat.add_zero]
    | succ k =>
      have hp2 : rest[k]? = some p := by simpa using hp
      simp only [planetLoop, List.getElem?_cons_succ]
      rw [ih (i + 1) _ _ k p hp2]
      have e : i + 1 + k = i + (k + 1) := by omega
      rw [e]

theorem frameTick_planets_getElem? (L : Libm K) (s : Scene K) (k : Nat) (p : Planet K)
    (hp : s.planets[k]? = some p) :
    (frameTick L s).planets[k]? =
      some (if k > 0 then
        addTrailPoint (advance p) (Vec4.toVec3 (orbitModel L (advance p)).c3)
        else advance p) := by
  have h := planetLoop_getElem? L s.planets 0 s.moon s.moonPosition k p hp
  rw [Nat.zero_add] at h
  exact h

theorem frameTick_planets_length (L : Libm K) (s : Scene K) :
    (frameTick L s).planets.length = s.planets.length := by
  have h := congrArg List.length
    (planetLoop_map L (fun _ : Planet K => ()) (fun _ _ => rfl) s.planets 0 s.moon s.moonPosition)
  simpa using h

theorem frameTick_planetPositions_length (L : Libm K) (s : Scene K) :
    (frameTick L s).planetPositions.length = (frameTick L s).planets.length := by
  rw [frameTick_planetPositions, List.length_map, frameTick_planets_length]

theorem getLast?_addTrailPoint (p : Planet K) (x : Vec3 K) :
    (addTrailPoint p x).trailPoints.getLast? = some x := by
  rw [addTrailPoint_trailPoints, List.getLast?_append]
  rfl

/-- What one frame records for planet `i > 0`: the position computed from the
advanced angle, as `planetPositions[i]` and as the newest trail point. -/
theorem frameTick_anchor (L : Libm K) (hs : L.inversesqrt 1 = 1) (s : Scene K) (i : Nat)
    (p : Planet K) (hi : 0 < i) (hp : s.planets[i]? = some p) :
    (frameTick L s).planetPositions[i]? =
        some (rotateAboutUp L (p.currentOrbitAngle + p.orbitSpeed * 0.01) ⟨p.distance, 0, 0⟩) ∧
      (frameTick L s).planets[i]? =
        some (addTrailPoint (advance p)
          (rotateAboutUp L (p.currentOrbitAngle + p.orbitSpeed * 0.01) ⟨p.distance, 0, 0⟩)) := by
  constructor
  · rw [frameTick_planetPositions, List.getElem?_map, hp, Option.map_some',
      orbitModel_anchor L hs]
    rfl
  · rw [frameTick_planets_getElem? L s i p hp, if_pos hi, orbitModel_anchor L hs]
    rfl

/-- What one frame records in `planetPositions[i]` for any planet, the Sun
included: the position computed from the advanced angle. -/
theorem frameTick_position (L : Libm K) (hs : L.inversesqrt 1 = 1) (s : Scene K) (i : Nat)
    (p : Planet K) (hp : s.planets[i]? = some p) :
    (frameTick L s).planetPositions[i]? =
      some (rotateAboutUp L (p.currentOrbitAngle + p.orbitSpeed * 0.01) ⟨p.distance, 0, 0⟩) := by
  rw [frameTick_planetPositions, List.getElem?_map, hp, Option.map_some',
    orbitModel_anchor L hs]
  rfl

/-- C14 (as the code has it): in a frame, every planet of the list (the Sun
included) first has its angles advanced; its transform is built after that, so
the anchor recorded in `planetPositions[i]` is `(distance, 0, 0)` turned by the
orbit angle after the advance, `currentOrbitAngle + orbitSpeed * 0.01`. For
every planet `i > 0` that anchor is pushed on the trail, and a planet that
starts with an empty trail has it as its first trail point; the Sun's trail is
left as it is. The Moon's anchor is recorded before the Moon's own advance: it
is built from the Moon as it is when the frame starts and from planet 3 after
that planet's advance, and it is the Moon's newest trail point. -/
theorem anchor_recorded_after_advance (L : Libm K) (hs : L.inversesqrt 1 = 1) (s : Scene K)
    (i : Nat) (p : Planet K) (hp : s.planets[i]? = some p) :
    (frameTick L s).planetPositions[i]? =
        some (rotateAboutUp L (p.currentOrbitAngle + p.orbitSpeed * 0.01) ⟨p.distance, 0, 0⟩) ∧
      (frameTick L s).planets[i]? =
        some (if i > 0 then
          addTrailPoint (advance p)
            (rotateAboutUp L (p.currentOrbitAngle + p.orbitSpeed * 0.01) ⟨p.distance, 0, 0⟩)
          else advance p) ∧
      ((frameTick L s).planets[i]?).map Planet.currentOrbitAngle =
        some (p.currentOrbitAngle + p.orbitSpeed * 0.01) ∧
      (0 < i →
        ((frameTick L s).planets[i]?).map (fun q => q.trailPoints.getLast?) =
          some (some (rotateAboutUp L (p.currentOrbitAngle + p.orbitSpeed * 0.01)
            ⟨p.distance, 0, 0⟩))) ∧
      (0 < i → p.trailPoints = [] →
        ((frameTick L s).planets[i]?).map Planet.trailPoints =
          some [rotateAboutUp L (p.currentOrbitAngle + p.orbitSpeed * 0.01)
            ⟨p.distance, 0, 0⟩]) ∧
      (i = 0 → ((frameTick L s).planets[i]?).map Planet.trailPoints = some p.trailPoints) ∧
      (∀ earth : Planet K, s.planets[3]? = some earth →
        (frameTick L s).moonPosition = Vec4.toVec3 (moonOrbitModel L (advance earth) s.moon).c3 ∧
          (frameTick L s).moon.trailPoints.getLast? = some (frameTick L s).moonPosition ∧
          (frameTick L s).moon.currentOrbitAngle =
            s.moon.currentOrbitAngle + s.moon.orbitSpeed * 0.01) := by
  have h1 := frameTick_position L hs s i p hp
  have h0 : (frameTick L s).planets[i]? =
      some (if i > 0 then
        addTrailPoint (advance p)
          (rotateAboutUp L (p.currentOrbitAngle + p.orbitSpeed * 0.01) ⟨p.distance, 0, 0⟩)
        else advance p) := by
    rw [frameTick_planets_getElem? L s i p hp, orbitModel_anchor L hs]
    rfl
  refine ⟨h1, h0, ?_, ?_, ?_, ?_, ?_⟩
  · rw [h0, Option.map_some']
    split_ifs
    · rfl
    · rfl
  · intro hi
    rw [h0, if_pos hi, Option.map_some', getLast?_addTrailPoint]
  · intro hi hempty
    rw [h0, if_pos hi, Option.map_some', addTrailPoint_trailPoints]
    have : (advance p).trailPoints = [] := hempty
    rw [this]
    rfl
  · intro hi
    rw [h0, if_neg (by omega), Option.map_some']
    rfl
  · intro earth he
    match hps : s.planets, he with
    | p0 :: p1 :: p2 :: p3 :: rest, h3 =>
      have hpe : p3 = earth := by simpa using h3
      subst hpe
      have hm := frameTick_moon L s p0 p1 p2 p3 rest hps
      have hm1 := congrArg Prod.fst hm
      have hm2 := congrArg Prod.snd hm
      simp only [moonBlock] at hm1 hm2
      refine ⟨?_, ?_, ?_⟩
      · rw [hm2]; rfl
      · rw [hm1, hm2]
        exact getLast?_addTrailPoint _ _
      · rw [hm1]; rfl

/-- Witness for C14: Mercury (planet 1) in the first frame of the program. -/
theorem anchor_recorded_after_advance_witness :
    seriesLibm.inversesqrt 1 = 1 ∧
      (initScene (fun _ => 0) 0 : Scene ℚ).planets[1]? =
        some (mkBody "Mercury" 0.6 4.5 4.7 0.017 0.03 0 : Planet ℚ) ∧
      (frameTick seriesLibm (initScene (fun _ => 0) 0)).planetPositions[1]? =
        some (rotateAboutUp seriesLibm (0.0 + 4.7 * 0.5 * 0.01) ⟨4.5, 0, 0⟩) :=
  ⟨rfl, rfl,
    (anchor_recorded_after_advance seriesLibm rfl (initScene (fun _ => 0) 0) 1
      (mkBody "Mercury" 0.6 4.5 4.7 0.017 0.03 0 : Planet ℚ) rfl).1⟩

/-- C14, counterexample: in the first frame of the program over the reals,
Mercury starts at orbit angle `0` with an empty trail, yet its first trail
point is not `(distance, 0, 0) = (4.5, 0, 0)`, the point that its start angle
gives: the anchor is taken at angle `4.7 * 0.5 * 0.01 = 0.0235`. -/
theorem first_trail_point_not_at_start_angle :
    ∃ q : Planet ℝ,
      (frameTick ⟨Real.cos, Real.sin, fun x => 1 / Real.sqrt x, Real.pi⟩
          (initScene (fun _ => 0) 0)).planets[1]? = some q ∧
        q.trailPoints =
          [rotateAboutUp ⟨Real.cos, Real.sin, fun x => 1 / Real.sqrt x, Real.pi⟩ 0.0235
            ⟨4.5, 0, 0⟩] ∧
        q.trailPoints ≠ [⟨4.5, 0, 0⟩] ∧
        q.trailPoints ≠
          [rotateAboutUp ⟨Real.cos, Real.sin, fun x => 1 / Real.sqrt x, Real.pi⟩ 0
            ⟨4.5, 0, 0⟩] := by
  have hL : IsRealLibm ⟨Real.cos, Real.sin, fun x => 1 / Real.sqrt x, Real.pi⟩ :=
    ⟨rfl, rfl, fun _ => rfl, rfl⟩
  obtain ⟨_, h2⟩ := frameTick_anchor _ hL.inversesqrt_one (initScene (fun _ => 0) 0) 1
    (mkBody "Mercury" 0.6 4.5 4.7 0.017 0.03 0 : Planet ℝ) (by decide) rfl
  have hpos : 0 < Real.sin (47 / 2000) :=
    Real.sin_pos_of_pos_of_lt_pi (by norm_num) (by linarith [Real.pi_gt_three])
  have htrail : (addTrailPoint (advance (mkBody "Mercury" 0.6 4.5 4.7 0.017 0.03 0 : Planet ℝ))
      (rotateAboutUp ⟨Real.cos, Real.sin, fun x => 1 / Real.sqrt x, Real.pi⟩
        ((mkBody "Mercury" 0.6 4.5 4.7 0.017 0.03 0 : Planet ℝ).currentOrbitAngle +
          (mkBody "Mercury" 0.6 4.5 4.7 0.017 0.03 0 : Planet ℝ).orbitSpeed * 0.01)
        ⟨(mkBody "Mercury" 0.6 4.5 4.7 0.017 0.03 0 : Planet ℝ).distance, 0, 0⟩)).trailPoints =
      [rotateAboutUp ⟨Real.cos, Real.sin, fun x => 1 / Real.sqrt x, Real.pi⟩ 0.0235
        ⟨4.5, 0, 0⟩] := by
    rw [addTrailPoint_trailPoints]
    simp only [advance, mkBody, MAX_TRAIL_POINTS, List.length_nil, ge_iff_le, List.nil_append]
    norm_num
  refine ⟨_, h2, htrail, ?_, ?_⟩
  · rw [htrail]
    intro heq
    have hz := congrArg Vec3.z (List.head_eq_of_cons_eq heq)
    simp only [rotateAboutUp] at hz
    norm_num at hz
    linarith
  · rw [htrail]
    intro heq
    have hz := congrArg Vec3.z (List.head_eq_of_cons_eq heq)
    simp only [rotateAboutUp] at hz
    norm_num at hz
    linarith

end FrameOrderProofs

/-! ## Labels inside a frame -/

section LabelProofs

variable {K : Type} [LinearOrderedField K]

theorem firstFrameScene_sun :
    firstFrameScene.planets[0]? = some (advance (mkBody "Sun" 3.0 0.0 0.0 0.1 0.0 0 : Planet ℚ)) := by
  have h := frameTick_planets_getElem? seriesLibm (initScene (fun _ => 0) 0) 0
    (mkBody "Sun" 3.0 0.0 0.0 0.1 0.0 0 : Planet ℚ) rfl
  simpa using h

theorem firstFrameScene_sun_position :
    firstFrameScene.planetPositions[0]? = some ⟨0, 0, 0⟩ := by
  unfold firstFrameScene
  rw [frameTick_planetPositions, List.getElem?_map]
  have h : (initScene (fun _ => 0) 0 : Scene ℚ).planets[0]? =
      some (mkBody "Sun" 3.0 0.0 0.0 0.1 0.0 0 : Planet ℚ) := rfl
  rw [h, Option.map_some', orbitModel_anchor seriesLibm rfl]
  simp only [rotateAboutUp, advance, mkBody]
  norm_num

theorem firstFrameScene_sun_w :
    (Mat4.mulVec (Mat4.mul examplePerspective exampleView)
      (Vec4.ofVec3 (calculateNamePosition (advance (mkBody "Sun" 3.0 0.0 0.0 0.1 0.0 0 : Planet ℚ))
        ⟨0, 0, 0⟩) 1)).w = 0 := by
  simp only [Mat4.mul, Mat4.mulVec, examplePerspective, exampleView, translation, Vec4.add,
    Vec4.smul, Vec4.ofVec3, calculateNamePosition, advance, mkBody]
  norm_num

theorem firstFrameScene_lengths :
    firstFrameScene.planetPositions.length = firstFrameScene.planets.length ∧
      firstFrameScene.planets.length = 9 := by
  unfold firstFrameScene
  refine ⟨frameTick_planetPositions_length _ _, ?_⟩
  rw [frameTick_planets_length]
  rfl

/-- C13 (as the code has it): the label block has no test on `w`. When names are
shown, one text draw is issued for every planet, in order, and one for the
Moon; a body whose label anchor has clip-space `w = 0` still gets its draw,
and `world3DToScreen2D` has divided by that `w`: the coordinates handed to the
text renderer are not finite numbers. -/
theorem label_drawn_whatever_w (s : Scene K) (view projection : Mat4 K)
    (hshow : s.showPlanetNames = true) (hlen : s.planetPositions.length = s.planets.length) :
    (labelDraws s view projection).map TextDraw.text =
        s.planets.map Planet.name ++ [s.moon.name] ∧
      (∀ (i : Nat) (planet : Planet K) (planetPos : Vec3 K),
        s.planets[i]? = some planet → s.planetPositions[i]? = some planetPos →
        (Mat4.mulVec (Mat4.mul projection view)
          (Vec4.ofVec3 (calculateNamePosition planet planetPos) 1)).w = 0 →
          world3DToScreen2D (calculateNamePosition planet planetPos) view projection viewport =
              none ∧
            (labelDraws s view projection)[i]? =
              some { text := planet.name, position := none, scale := 0.5,
                     color := ⟨1.0, 1.0, 1.0⟩ }) ∧
      ((Mat4.mulVec (Mat4.mul projection view)
          (Vec4.ofVec3 (calculateNamePosition s.moon s.moonPosition) 1)).w = 0 →
        world3DToScreen2D (calculateNamePosition s.moon s.moonPosition) view projection
            viewport = none ∧
          (labelDraws s view projection)[s.planets.length]? =
            some { text := s.moon.name, position := none, scale := 0.5,
                   color := ⟨1.0, 1.0, 1.0⟩ }) := by
  obtain ⟨h1, _, h3, h4⟩ := labelDraws_spec s view projection hshow hlen
  refine ⟨h1, ?_, ?_⟩
  · intro i planet planetPos hp hq hw
    refine ⟨world3DToScreen2D_of_eq_zero _ _ _ _ hw, ?_⟩
    rw [h3 i planet planetPos hp hq, bodyLabel_of_eq_zero view projection planet planetPos hw]
  · intro hw
    refine ⟨world3DToScreen2D_of_eq_zero _ _ _ _ hw, ?_⟩
    rw [h4, bodyLabel_of_eq_zero view projection s.moon s.moonPosition hw]

/-- Witness for C13: the first frame of the program seen by a camera in whose
plane the Sun's label anchor `(0, 0, -3)` lies. -/
theorem label_drawn_whatever_w_witness :
    firstFrameScene.showPlanetNames = true ∧
      firstFrameScene.planetPositions.length = firstFrameScene.planets.length ∧
      (labelDraws firstFrameScene exampleView examplePerspective)[0]? =
        some { text := "Sun", position := none, scale := 0.5, color := ⟨1.0, 1.0, 1.0⟩ } :=
  ⟨rfl, firstFrameScene_lengths.1,
    ((label_drawn_whatever_w firstFrameScene exampleView examplePerspective rfl
      firstFrameScene_lengths.1).2.1 0 _ _ firstFrameScene_sun firstFrameScene_sun_position
      firstFrameScene_sun_w).2⟩

/-- C13, counterexample: in the first frame of the program, for a camera in whose
plane the Sun's label anchor lies, the clip-space `w` of that anchor is `0`,
yet the frame issues all ten label draws, the Sun's first, with coordinates
that come from the division by that `w`. -/
theorem label_not_skipped_at_w_zero :
    firstFrameScene.planets[0]? = some (advance (mkBody "Sun" 3.0 0.0 0.0 0.1 0.0 0 : Planet ℚ)) ∧
      firstFrameScene.planetPositions[0]? = some ⟨0, 0, 0⟩ ∧
      (Mat4.mulVec (Mat4.mul examplePerspective exampleView)
        (Vec4.ofVec3 (calculateNamePosition (advance (mkBody "Sun" 3.0 0.0 0.0 0.1 0.0 0 : Planet ℚ))
          ⟨0, 0, 0⟩) 1)).w = 0 ∧
      (labelDraws firstFrameScene exampleView examplePerspective)[0]? =
        some { text := "Sun", position := none, scale := 0.5, color := ⟨1.0, 1.0, 1.0⟩ } ∧
      (labelDraws firstFrameScene exampleView examplePerspective).length = 10 := by
  obtain ⟨_, h2, h3, _⟩ := labelDraws_spec firstFrameScene exampleView examplePerspective rfl
    firstFrameScene_lengths.1
  refine ⟨firstFrameScene_sun, firstFrameScene_sun_position, firstFrameScene_sun_w, ?_, ?_⟩
  · rw [h3 0 _ _ firstFrameScene_sun firstFrameScene_sun_position,
      bodyLabel_of_eq_zero _ _ _ _ firstFrameScene_sun_w]
    rfl
  · rw [h2, firstFrameScene_lengths.2]

end LabelProofs

/-! ## Camera controller -/

section CameraProofs

variable {K : Type} [LinearOrderedField K]

theorem keyCallback_reset (s : Scene K) (scancode mods : Int) :
    (keyCallback s GLFW_KEY_R scancode GLFW_PRESS mods).cameraPos = ⟨0, 100, 230⟩ ∧
      (keyCallback s GLFW_KEY_R scancode GLFW_PRESS mods).cameraTarget = ⟨0, 0, 0⟩ ∧
      (keyCallback s GLFW_KEY_R scancode GLFW_PRESS mods).cameraUp = ⟨0, 1, 0⟩ ∧
      (keyCallback s GLFW_KEY_R scancode GLFW_PRESS mods).cameraZoom = 15 ∧
      (keyCallback s GLFW_KEY_R scancode GLFW_PRESS mods).firstMouse = true := by
  have hR : GLFW_KEY_R = GLFW_KEY_R ∧ GLFW_PRESS = GLFW_PRESS := ⟨rfl, rfl⟩
  unfold keyCallback
  refine ⟨?_, ?_, ?_, ?_, ?_⟩
  · simp only [apply_ite Scene.cameraPos, updatePlanetSpeeds, ite_self, if_pos hR,
      DEFAULT_CAMERA_POS]
    norm_num
  · simp only [apply_ite Scene.cameraTarget, updatePlanetSpeeds, ite_self, if_pos hR,
      DEFAULT_CAMERA_TARGET]
    norm_num
  · simp only [apply_ite Scene.cameraUp, updatePlanetSpeeds, ite_self, if_pos hR,
      DEFAULT_CAMERA_UP]
    norm_num
  · simp only [apply_ite Scene.cameraZoom, updatePlanetSpeeds, ite_self, if_pos hR,
      DEFAULT_CAMERA_ZOOM]
    norm_num
  · simp only [apply_ite Scene.firstMouse, updatePlanetSpeeds, ite_self, and_self, if_true]

theorem mouseOffsets_of_firstMouse (s : Scene K) (xpos ypos : K) (h : s.firstMouse = true) :
    mouseOffsets s xpos ypos = (0, 0) := by
  simp only [mouseOffsets, h, if_true, sub_self]

theorem mouseCallback_rebase (L : Libm K) (s : Scene K) (xpos ypos : K) :
    (mouseCallback L s xpos ypos).lastX = xpos ∧ (mouseCallback L s xpos ypos).lastY = ypos ∧
      (mouseCallback L s xpos ypos).firstMouse = false := by
  unfold mouseCallback
  refine ⟨?_, ?_, ?_⟩
  · simp only [apply_ite Scene.lastX, ite_self]
  · simp only [apply_ite Scene.lastY, ite_self]
  · simp only [apply_ite Scene.firstMouse, ite_self]
    cases s.firstMouse <;> rfl

theorem mouseButtonCallback_spec (s : Scene K) (button action mods : Int) :
    mouseButtonCallback s button action mods =
      { s with
        leftMousePressed :=
          if button = GLFW_MOUSE_BUTTON_LEFT ∧ action = GLFW_PRESS then true
          else if button = GLFW_MOUSE_BUTTON_LEFT ∧ action = GLFW_RELEASE then false
          else s.leftMousePressed,
        rightMousePressed :=
          if button = GLFW_MOUSE_BUTTON_RIGHT ∧ action = GLFW_PRESS then true
          else if button = GLFW_MOUSE_BUTTON_RIGHT ∧ action = GLFW_RELEASE then false
          else s.rightMousePressed } := by
  unfold mouseButtonCallback
  simp only [GLFW_MOUSE_BUTTON_LEFT, GLFW_MOUSE_BUTTON_RIGHT, GLFW_PRESS, GLFW_RELEASE]
  by_cases hb1 : button = 0
  · subst hb1
    by_cases ha1 : action = 1
    · subst ha1; simp
    · by_cases ha2 : action = 0
      · subst ha2; simp
      · simp [ha1, ha2]
  · by_cases hb2 : button = 1
    · subst hb2
      by_cases ha1 : action = 1
      · subst ha1; simp
      · by_cases ha2 : action = 0
        · subst ha2; simp
        · simp [ha1, ha2]
    · simp [hb1, hb2]

theorem mouseCallback_idle (L : Libm K) (s : Scene K) (xpos ypos : K)
    (hl : s.leftMousePressed = false) (hr : s.rightMousePressed = false) :
    mouseCallback L s xpos ypos =
      { s with lastX := xpos, lastY := ypos, firstMouse := false } := by
  cases hf : s.firstMouse
  · simp only [mouseCallback, hf, hl, hr, if_false, Bool.false_eq_true]
  · simp only [mouseCallback, hf, hl, hr, if_true, if_false, Bool.false_eq_true]

/-- C20: a button event writes nothing but the drag flag of its own button: the
primary button sets `leftMousePressed` (Rotating) on press and clears it on
release, the secondary button does the same with `rightMousePressed`
(Panning), any other button leaves the state as it is. While neither flag is
set (Idle), a pointer-move to `(xpos, ypos)` only stores the pointer sample
(`lastX`, `lastY`, and the first-sample flag cleared): camera position, target,
up-vector and zoom stay as they are. -/
theorem drag_flags_and_idle_move (L : Libm K) (s : Scene K) (button action mods : Int)
    (xpos ypos : K) :
    mouseButtonCallback s button action mods =
        { s with
          leftMousePressed :=
            if button = GLFW_MOUSE_BUTTON_LEFT ∧ action = GLFW_PRESS then true
            else if button = GLFW_MOUSE_BUTTON_LEFT ∧ action = GLFW_RELEASE then false
            else s.leftMousePressed,
          rightMousePressed :=
            if button = GLFW_MOUSE_BUTTON_RIGHT ∧ action = GLFW_PRESS then true
            else if button = GLFW_MOUSE_BUTTON_RIGHT ∧ action = GLFW_RELEASE then false
            else s.rightMousePressed } ∧
      mouseButtonCallback s GLFW_MOUSE_BUTTON_LEFT GLFW_PRESS mods =
        { s with leftMousePressed := true } ∧
      mouseButtonCallback s GLFW_MOUSE_BUTTON_LEFT GLFW_RELEASE mods =
        { s with leftMousePressed := false } ∧
      mouseButtonCallback s GLFW_MOUSE_BUTTON_RIGHT GLFW_PRESS mods =
        { s with rightMousePressed := true } ∧
      mouseButtonCallback s GLFW_MOUSE_BUTTON_RIGHT GLFW_RELEASE mods =
        { s with rightMousePressed := false } ∧
      (button ≠ GLFW_MOUSE_BUTTON_LEFT → button ≠ GLFW_MOUSE_BUTTON_RIGHT →
        mouseButtonCallback s button action mods = s) ∧
      (s.leftMousePressed = false → s.rightMousePressed = false →
        mouseCallback L s xpos ypos =
            { s with lastX := xpos, lastY := ypos, firstMouse := false } ∧
          (mouseCallback L s xpos ypos).cameraPos = s.cameraPos ∧
          (mouseCallback L s xpos ypos).cameraTarget = s.cameraTarget ∧
          (mouseCallback L s xpos ypos).cameraUp = s.cameraUp ∧
          (mouseCallback L s xpos ypos).cameraZoom = s.cameraZoom) := by
  refine ⟨mouseButtonCallback_spec s button action mods, ?_, ?_, ?_, ?_, ?_, ?_⟩
  · rw [mouseButtonCallback_spec]
    simp [GLFW_MOUSE_BUTTON_LEFT, GLFW_MOUSE_BUTTON_RIGHT, GLFW_PRESS, GLFW_RELEASE]
  · rw [mouseButtonCallback_spec]
    simp [GLFW_MOUSE_BUTTON_LEFT, GLFW_MOUSE_BUTTON_RIGHT, GLFW_PRESS, GLFW_RELEASE]
  · rw [mouseButtonCallback_spec]
    simp [GLFW_MOUSE_BUTTON_LEFT, GLFW_MOUSE_BUTTON_RIGHT, GLFW_PRESS, GLFW_RELEASE]
  · rw [mouseButtonCallback_spec]
    simp [GLFW_MOUSE_BUTTON_LEFT, GLFW_MOUSE_BUTTON_RIGHT, GLFW_PRESS, GLFW_RELEASE]
  · intro h1 h2
    rw [mouseButtonCallback_spec]
    simp [h1, h2]
  · intro hl hr
    rw [mouseCallback_idle L s xpos ypos hl hr]
    exact ⟨rfl, rfl, rfl, rfl, rfl⟩

/-- Witness for C20: the middle button (code 2) pressed in the start-up scene,
which is Idle, and a pointer-move to `(650, 350)` there. -/
theorem drag_flags_and_idle_move_witness :
    (2 : Int) ≠ GLFW_MOUSE_BUTTON_LEFT ∧ (2 : Int) ≠ GLFW_MOUSE_BUTTON_RIGHT ∧
      (initScene (fun _ => 0) 0 : Scene ℚ).leftMousePressed = false ∧
      (initScene (fun _ => 0) 0 : Scene ℚ).rightMousePressed = false ∧
      mouseButtonCallback (initScene (fun _ => 0) 0 : Scene ℚ) 2 GLFW_PRESS 0 =
        initScene (fun _ => 0) 0 ∧
      (mouseCallback seriesLibm (initScene (fun _ => 0) 0) 650 350).cameraPos =
        ⟨0.0, 100.0, 230.0⟩ :=
  ⟨by decide, by decide, rfl, rfl,
    (drag_flags_and_idle_move seriesLibm (initScene (fun _ => 0) 0) 2 GLFW_PRESS 0 650 350).2.2.2.2.2.1
      (by decide) (by decide),
    ((drag_flags_and_idle_move seriesLibm (initScene (fun _ => 0) 0) 2 GLFW_PRESS 0 650
      350).2.2.2.2.2.2 rfl rfl).2.1⟩

end CameraProofs

/-! ## Multipliers and trail lengths along a run -/

section RunProofs

variable {K : Type} [LinearOrderedField K]

theorem keyCallback_multiplier_floor (s : Scene K) (key scancode action mods : Int)
    (h : 0.05 ≤ s.rotationSpeed ∧ 0.025 ≤ s.orbitSpeed) :
    0.05 ≤ (keyCallback s key scancode action mods).rotationSpeed ∧
      0.025 ≤ (keyCallback s key scancode action mods).orbitSpeed := by
  have hm := keyCallback_multipliers s key scancode action mods
  have h1 := congrArg Prod.fst hm
  have h2 := congrArg Prod.snd hm
  simp only at h1 h2
  rw [h1, h2]
  obtain ⟨hr, ho⟩ := h
  have e1 : (0.05 : K) = 1 / 20 := by norm_num
  have e2 : (0.025 : K) = 1 / 40 := by norm_num
  have e3 : (0.1 : K) = 1 / 10 := by norm_num
  have e4 : (1.2 : K) = 6 / 5 := by norm_num
  rw [e1] at hr
  rw [e2] at ho
  split_ifs
  · simp only [e1, e2, e3]; constructor <;> linarith
  · simp only [e1, e2, e3]
    exact ⟨le_max_of_le_right (by norm_num), le_max_of_le_right (by norm_num)⟩
  · simp only [e1, e2, e4]; constructor <;> linarith
  · simp only [e1, e2]
    exact ⟨le_max_right _ _, le_max_of_le_right (by norm_num)⟩
  · simp only [e1, e2]; exact ⟨hr, ho⟩
  · simp only [e1, e2]; exact ⟨hr, ho⟩

theorem step_multipliers_of_not_key (L : Libm K) (s : Scene K) (e : Input K)
    (h : ∀ key scancode action mods, e ≠ .key key scancode action mods) :
    (step L s e).rotationSpeed = s.rotationSpeed ∧ (step L s e).orbitSpeed = s.orbitSpeed := by
  cases e with
  | cursorPos xpos ypos =>
    simp only [step, mouseCallback]
    constructor
    · simp only [apply_ite Scene.rotationSpeed, ite_self]
    · simp only [apply_ite Scene.orbitSpeed, ite_self]
  | mouseButton button action mods =>
    simp only [step, mouseButtonCallback]
    constructor
    · simp only [apply_ite Scene.rotationSpeed, ite_self]
    · simp only [apply_ite Scene.orbitSpeed, ite_self]
  | scroll xoffset yoffset =>
    simp only [step, scrollCallback]
    constructor
    · simp only [apply_ite Scene.rotationSpeed, ite_self]
    · simp only [apply_ite Scene.orbitSpeed, ite_self]
  | key key scancode action mods => exact absurd rfl (h key scancode action mods)
  | frame => exact ⟨rfl, rfl⟩

theorem step_multiplier_floor (L : Libm K) (s : Scene K) (e : Input K)
    (h : 0.05 ≤ s.rotationSpeed ∧ 0.025 ≤ s.orbitSpeed) :
    0.05 ≤ (step L s e).rotationSpeed ∧ 0.025 ≤ (step L s e).orbitSpeed := by
  cases e with
  | key key scancode action mods => exact keyCallback_multiplier_floor s key scancode action mods h
  | cursorPos xpos ypos =>
    obtain ⟨h1, h2⟩ := step_multipliers_of_not_key L s (.cursorPos xpos ypos)
      (fun _ _ _ _ hh => Input.noConfusion hh)
    rw [h1, h2]; exact h
  | mouseButton button action mods =>
    obtain ⟨h1, h2⟩ := step_multipliers_of_not_key L s (.mouseButton button action mods)
      (fun _ _ _ _ hh => Input.noConfusion hh)
    rw [h1, h2]; exact h
  | scroll xoffset yoffset =>
    obtain ⟨h1, h2⟩ := step_multipliers_of_not_key L s (.scroll xoffset yoffset)
      (fun _ _ _ _ hh => Input.noConfusion hh)
    rw [h1, h2]; exact h
  | frame =>
    obtain ⟨h1, h2⟩ := step_multipliers_of_not_key L s .frame
      (fun _ _ _ _ hh => Input.noConfusion hh)
    rw [h1, h2]; exact h

theorem run_multiplier_floor (L : Libm K) (loadTexture : String → Nat) (font : Int)
    (inputs : List (Input K)) :
    0.05 ≤ (run L (initScene loadTexture font) inputs).rotationSpeed ∧
      0.025 ≤ (run L (initScene loadTexture font) inputs).orbitSpeed := by
  induction inputs using List.reverseRecOn with
  | nil => simp only [run, List.foldl_nil, initScene]; constructor <;> norm_num
  | append_singleton inputs e ih =>
    rw [run_append_singleton]
    exact step_multiplier_floor L _ e ih

/-- C19: the multipliers start at `1.0` (rotation) and `0.5` (orbit), and in every
state reached from the start-up scene by any sequence of inputs (increase,
decrease, speed-up and slow-down events, and any other event or frame)
`rotationSpeed ≥ 0.05` and `orbitSpeed ≥ 0.025`; so both are strictly
positive. -/
theorem multipliers_stay_positive (L : Libm K) (loadTexture : String → Nat) (font : Int)
    (inputs : List (Input K)) :
    (initScene loadTexture font : Scene K).rotationSpeed = 1.0 ∧
      (initScene loadTexture font : Scene K).orbitSpeed = 0.5 ∧
      0.05 ≤ (run L (initScene loadTexture font) inputs).rotationSpeed ∧
      0.025 ≤ (run L (initScene loadTexture font) inputs).orbitSpeed ∧
      0 < (run L (initScene loadTexture font) inputs).rotationSpeed ∧
      0 < (run L (initScene loadTexture font) inputs).orbitSpeed := by
  obtain ⟨h1, h2⟩ := run_multiplier_floor L loadTexture font inputs
  refine ⟨rfl, rfl, h1, h2, ?_, ?_⟩
  · exact lt_of_lt_of_le (by norm_num) h1
  · exact lt_of_lt_of_le (by norm_num) h2

theorem addTrailPoint_length (p : Planet K) (x : Vec3 K) :
    (addTrailPoint p x).trailPoints.length =
      if p.trailPoints.length ≥ 200 then p.trailPoints.length else p.trailPoints.length + 1 := by
  rw [addTrailPoint_trailPoints]
  simp only [MAX_TRAIL_POINTS]
  split_ifs with h
  · simp only [List.length_append, List.length_tail, List.length_singleton]; omega
  · simp only [List.length_append, List.length_singleton]

theorem addTrailPoint_length_of_min (p : Planet K) (x : Vec3 K) (k : Nat)
    (h : p.trailPoints.length = min k 200) :
    (addTrailPoint p x).trailPoints.length = min (k + 1) 200 := by
  rw [addTrailPoint_length, h]
  split_ifs <;> omega

/-- Entered at an index `i > 0`, the planet loop pushes one point on every trail. -/
theorem planetLoop_trails_pos (L : Libm K) (k : Nat) (ps : List (Planet K)) :
    ∀ (i : Nat) (moon : Planet K) (mp : Vec3 K), 0 < i →
      (∀ p ∈ ps, p.trailPoints.length = min k 200) →
      ∀ q ∈ (planetLoop L i ps moon mp).1, q.trailPoints.length = min (k + 1) 200 := by
  induction ps with
  | nil => intro i moon mp _ _ q hq; simp [planetLoop] at hq
  | cons p rest ih =>
    intro i moon mp hi hps q hq
    simp only [planetLoop, List.mem_cons, if_pos hi] at hq
    rcases hq with hq | hq
    · rw [hq]
      exact addTrailPoint_length_of_min _ _ k (hps p (List.mem_cons_self _ _))
    · exact ih (i + 1) _ _ (by omega) (fun p' hp' => hps p' (List.mem_cons_of_mem _ hp')) q hq

/-- The trail lengths of a scene: the first planet (the Sun) has none, the eight
others and the Moon have `m` points each. -/
theorem frameTick_trails (L : Libm K) (s : Scene K) (k : Nat) (sun : Planet K)
    (rest : List (Planet K)) (hs : s.planets = sun :: rest) (hlen : rest.length = 8)
    (hsun : sun.trailPoints = [])
    (hrest : ∀ p ∈ rest, p.trailPoints.length = min k 200)
    (hmoon : s.moon.trailPoints.length = min k 200) :
    ∃ (sun' : Planet K) (rest' : List (Planet K)),
      (frameTick L s).planets = sun' :: rest' ∧ rest'.length = 8 ∧ sun'.trailPoints = [] ∧
        (∀ p ∈ rest', p.trailPoints.length = min (k + 1) 200) ∧
        (frameTick L s).moon.trailPoints.length = min (k + 1) 200 := by
  match rest, hlen with
  | [p1, p2, p3, p4, p5, p6, p7, p8], _ =>
    have hm := congrArg Prod.fst (frameTick_moon L s sun p1 p2 p3 [p4, p5, p6, p7, p8] hs)
    simp only [moonBlock] at hm
    refine ⟨advance sun, (planetLoop L 1 [p1, p2, p3, p4, p5, p6, p7, p8]
      (planetLoop L 0 [sun] s.moon s.moonPosition).2.2.1
      (planetLoop L 0 [sun] s.moon s.moonPosition).2.2.2).1, ?_, ?_, hsun, ?_, ?_⟩
    · simp only [frameTick, hs, planetLoop]
      simp
    · have h := congrArg List.length (planetLoop_map L (fun _ : Planet K => ())
        (fun _ _ => rfl) [p1, p2, p3, p4, p5, p6, p7, p8] 1
        (planetLoop L 0 [sun] s.moon s.moonPosition).2.2.1
        (planetLoop L 0 [sun] s.moon s.moonPosition).2.2.2)
      simpa using h
    · exact planetLoop_trails_pos L k _ 1 _ _ (by norm_num) hrest
    · rw [hm]
      exact addTrailPoint_length_of_min _ _ k hmoon

theorem keyCallback_trails (s : Scene K) (key scancode action mods : Int) :
    (keyCallback s key scancode action mods).planets.map Planet.trailPoints =
        s.planets.map Planet.trailPoints ∧
      (keyCallback s key scancode action mods).moon.trailPoints = s.moon.trailPoints := by
  unfold keyCallback
  simp only [GLFW_PRESS, GLFW_REPEAT, GLFW_KEY_UP, GLFW_KEY_DOWN, GLFW_KEY_LEFT, GLFW_KEY_RIGHT,
    GLFW_KEY_ESCAPE, GLFW_KEY_LEFT_CONTROL, GLFW_KEY_RIGHT_CONTROL, GLFW_KEY_F, GLFW_KEY_R]
  by_cases hA : action = 1 ∨ action = 2
  · by_cases h1 : key = 265
    · subst h1
      simp [hA, updatePlanetSpeeds, apply_ite Scene.planets, apply_ite Scene.moon,
        Function.comp_def]
    · by_cases h2 : key = 264
      · subst h2
        simp [hA, updatePlanetSpeeds, apply_ite Scene.planets, apply_ite Scene.moon,
          Function.comp_def]
      · by_cases h3 : key = 262
        · subst h3
          simp [hA, updatePlanetSpeeds, apply_ite Scene.planets, apply_ite Scene.moon,
            Function.comp_def]
        · by_cases h4 : key = 263
          · subst h4
            simp [hA, updatePlanetSpeeds, apply_ite Scene.planets, apply_ite Scene.moon,
              Function.comp_def]
          · simp only [hA, h1, h2, h3, h4, apply_ite Scene.planets, apply_ite Scene.moon,
              false_and, if_false, ite_self, and_self]
  · have hA1 : ¬ action = 1 := fun h => hA (Or.inl h)
    have hA2 : ¬ action = 2 := fun h => hA (Or.inr h)
    simp only [hA1, hA2, or_self, and_false, apply_ite Scene.planets, apply_ite Scene.moon,
      false_and, if_false, ite_self, and_self]

theorem step_trails_of_not_frame (L : Libm K) (s : Scene K) (e : Input K)
    (h : e.isFrame = false) :
    (step L s e).planets.map Planet.trailPoints = s.planets.map Planet.trailPoints ∧
      (step L s e).moon.trailPoints = s.moon.trailPoints := by
  cases e with
  | cursorPos xpos ypos =>
    simp only [step, mouseCallback]
    constructor
    · simp only [apply_ite Scene.planets, ite_self]
    · simp only [apply_ite Scene.moon, ite_self]
  | mouseButton button action mods =>
    simp only [step, mouseButtonCallback]
    constructor
    · simp only [apply_ite Scene.planets, ite_self]
    · simp only [apply_ite Scene.moon, ite_self]
  | scroll xoffset yoffset =>
    simp only [step, scrollCallback]
    constructor
    · simp only [apply_ite Scene.planets, ite_self]
    · simp only [apply_ite Scene.moon, ite_self]
  | key key scancode action mods => exact keyCallback_trails s key scancode action mods
  | frame => simp [Input.isFrame] at h

theorem step_trail_lengths (L : Libm K) (s : Scene K) (e : Input K) (k : Nat)
    (h : s.planets.map (fun p => p.trailPoints.length) = 0 :: List.replicate 8 (min k 200) ∧
      s.moon.trailPoints.length = min k 200) :
    (step L s e).planets.map (fun p => p.trailPoints.length) =
        0 :: List.replicate 8 (min (k + (if e.isFrame then 1 else 0)) 200) ∧
      (step L s e).moon.trailPoints.length = min (k + (if e.isFrame then 1 else 0)) 200 := by
  obtain ⟨hp, hm⟩ := h
  cases hf : e.isFrame
  · obtain ⟨h1, h2⟩ := step_trails_of_not_frame L s e hf
    have h3 := congrArg (List.map List.length) h1
    simp only [List.map_map, Function.comp_def] at h3
    simp only [Bool.false_eq_true, if_false, Nat.add_zero]
    rw [h3, h2]
    exact ⟨hp, hm⟩
  · have he : e = .frame := by
      cases e <;> simp [Input.isFrame] at hf
      rfl
    subst he
    simp only [if_true]
    match hs : s.planets, hp with
    | sun :: rest, hp =>
      simp only [List.map_cons, List.cons.injEq] at hp
      obtain ⟨hsun, hrest⟩ := hp
      have hlen : rest.length = 8 := by
        have := congrArg List.length hrest
        simpa using this
      have hall : ∀ p ∈ rest, p.trailPoints.length = min k 200 := by
        intro p hpm
        have hmem : p.trailPoints.length ∈ rest.map (fun p => p.trailPoints.length) :=
          List.mem_map_of_mem _ hpm
        rw [hrest] at hmem
        exact List.eq_of_mem_replicate hmem
      obtain ⟨sun', rest', e1, e2, e3, e4, e5⟩ := frameTick_trails L s k sun rest hs hlen
        (List.length_eq_zero.mp hsun) hall hm
      simp only [step]
      rw [e1]
      refine ⟨?_, e5⟩
      simp only [List.map_cons, e3, List.length_nil, List.cons.injEq, true_and]
      rw [List.eq_replicate_iff]
      refine ⟨by simp [e2], ?_⟩
      intro b hb
      obtain ⟨p, hpm, rfl⟩ := List.mem_map.mp hb
      exact e4 p hpm

theorem run_trail_lengths (L : Libm K) (loadTexture : String → Nat) (font : Int)
    (inputs : List (Input K)) :
    (run L (initScene loadTexture font) inputs).planets.map (fun p => p.trailPoints.length) =
        0 :: List.replicate 8 (min (frameCount inputs) 200) ∧
      (run L (initScene loadTexture font) inputs).moon.trailPoints.length =
        min (frameCount inputs) 200 := by
  induction inputs using List.reverseRecOn with
  | nil => exact ⟨rfl, rfl⟩
  | append_singleton inputs e ih =>
    rw [run_append_singleton]
    have h := step_trail_lengths L _ e (frameCount inputs) ih
    have hc : frameCount (inputs ++ [e]) = frameCount inputs + (if e.isFrame then 1 else 0) := by
      simp only [frameCount, List.countP_append, List.countP_cons, List.countP_nil, Nat.zero_add]
    rw [hc]
    exact h

/-- C15: after a sequence of inputs that holds `k` frames (in particular after
`k` frames in a row from the start-up scene), the trail of the Sun (planet 0)
is empty and the trails of the eight other planets and of the Moon have
`min k 200` points each: a frame pushes one point per body. -/
theorem trail_lengths_after_frames (L : Libm K) (loadTexture : String → Nat) (font : Int)
    (inputs : List (Input K)) (k : Nat) :
    ((run L (initScene loadTexture font) inputs).planets.map (fun p => p.trailPoints.length) =
        0 :: List.replicate 8 (min (frameCount inputs) 200) ∧
      (run L (initScene loadTexture font) inputs).moon.trailPoints.length =
        min (frameCount inputs) 200) ∧
    ((run L (initScene loadTexture font) (List.replicate k .frame)).planets.map
          (fun p => p.trailPoints.length) =
        [0, min k 200, min k 200, min k 200, min k 200, min k 200, min k 200, min k 200,
          min k 200] ∧
      (run L (initScene loadTexture font) (List.replicate k .frame)).moon.trailPoints.length =
        min k 200) := by
  refine ⟨run_trail_lengths L loadTexture font inputs, ?_⟩
  have h := run_trail_lengths L loadTexture font (List.replicate k (Input.frame : Input K))
  have hc : frameCount (List.replicate k (Input.frame : Input K)) = k := by
    simp [frameCount, List.countP_replicate, Input.isFrame]
  rw [hc] at h
  exact h

end RunProofs

/-! ## Model matrices -/

section ModelProofs

variable {K : Type} [LinearOrderedField K]

theorem zAxis_normalize (L : Libm K) (hs : L.inversesqrt 1 = 1) :
    Vec3.normalize L (⟨0.0, 0.0, 1.0⟩ : Vec3 K) = ⟨0, 0, 1⟩ := by
  have e : Vec3.dot (⟨0.0, 0.0, 1.0⟩ : Vec3 K) ⟨0.0, 0.0, 1.0⟩ = 1 := by
    simp only [Vec3.dot]; norm_num
  simp only [Vec3.normalize, e, hs, Vec3.smul]
  norm_num

theorem Mat4.identity_mul (m : Mat4 K) : Mat4.mul Mat4.identity m = m := by
  simp only [Mat4.mul, Mat4.mulVec, Mat4.identity, Vec4.add, Vec4.smul]
  cases m with
  | mk c0 c1 c2 c3 =>
    cases c0; cases c1; cases c2; cases c3
    simp

theorem rotate_up_eq_mul (L : Libm K) (hs : L.inversesqrt 1 = 1) (m : Mat4 K) (angle : K) :
    rotate L m angle ⟨0.0, 1.0, 0.0⟩ = Mat4.mul m (rotationY L angle) := by
  obtain ⟨⟨a0, a1, a2, a3⟩, ⟨b0, b1, b2, b3⟩, ⟨c0, c1, c2, c3⟩, ⟨d0, d1, d2, d3⟩⟩ := m
  simp only [rotate, upAxis_normalize L hs, Mat4.mul, Mat4.mulVec, rotationY, Vec4.add,
    Vec4.smul, Vec3.smul]
  congr 1 <;> congr 1 <;> ring

theorem rotate_z_eq_mul (L : Libm K) (hs : L.inversesqrt 1 = 1) (m : Mat4 K) (angle : K) :
    rotate L m angle ⟨0.0, 0.0, 1.0⟩ = Mat4.mul m (rotationZ L angle) := by
  obtain ⟨⟨a0, a1, a2, a3⟩, ⟨b0, b1, b2, b3⟩, ⟨c0, c1, c2, c3⟩, ⟨d0, d1, d2, d3⟩⟩ := m
  simp only [rotate, zAxis_normalize L hs, Mat4.mul, Mat4.mulVec, rotationZ, Vec4.add,
    Vec4.smul, Vec3.smul]
  congr 1 <;> congr 1 <;> ring

theorem translate_eq_mul (m : Mat4 K) (v : Vec3 K) :
    translate m v = Mat4.mul m (translation v) := by
  obtain ⟨⟨a0, a1, a2, a3⟩, ⟨b0, b1, b2, b3⟩, ⟨c0, c1, c2, c3⟩, ⟨d0, d1, d2, d3⟩⟩ := m
  simp only [translate, Mat4.mul, Mat4.mulVec, translation, Vec4.add, Vec4.smul]
  congr 1 <;> congr 1 <;> ring

theorem scale_eq_mul (m : Mat4 K) (r : K) :
    scale m ⟨r, r, r⟩ = Mat4.mul m (scaling r) := by
  obtain ⟨⟨a0, a1, a2, a3⟩, ⟨b0, b1, b2, b3⟩, ⟨c0, c1, c2, c3⟩, ⟨d0, d1, d2, d3⟩⟩ := m
  simp only [scale, Mat4.mul, Mat4.mulVec, scaling, Vec4.add, Vec4.smul]
  congr 1 <;> congr 1 <;> ring

theorem orbitModel_eq_mul (L : Libm K) (hs : L.inversesqrt 1 = 1) (p : Planet K) :
    orbitModel L p =
      Mat4.mul (rotationY L p.currentOrbitAngle) (translation ⟨p.distance, 0, 0⟩) := by
  have e0 : (0.0 : K) = 0 := by norm_num
  simp only [orbitModel, rotate_up_eq_mul L hs, translate_eq_mul, Mat4.identity_mul]
  rw [e0]

theorem moonOrbitModel_eq_mul (L : Libm K) (hs : L.inversesqrt 1 = 1) (parent moon : Planet K) :
    moonOrbitModel L parent moon =
      Mat4.mul (Mat4.mul (Mat4.mul (rotationY L parent.currentOrbitAngle)
        (translation ⟨parent.distance, 0, 0⟩)) (rotationY L moon.currentOrbitAngle))
        (translation ⟨moon.distance, 0, 0⟩) := by
  have e0 : (0.0 : K) = 0 := by norm_num
  simp only [moonOrbitModel, rotate_up_eq_mul L hs, translate_eq_mul, Mat4.identity_mul]
  rw [e0]

theorem planetModel_eq_mul (L : Libm K) (hs : L.inversesqrt 1 = 1) (p : Planet K) :
    planetModel L p =
      Mat4.mul (Mat4.mul (Mat4.mul (Mat4.mul (rotationY L p.currentOrbitAngle)
        (translation ⟨p.distance, 0, 0⟩)) (rotationZ L (radians L p.tilt)))
        (rotationY L p.currentRotationAngle)) (scaling p.radius) := by
  simp only [planetModel, rotate_up_eq_mul L hs, rotate_z_eq_mul L hs, scale_eq_mul,
    orbitModel_eq_mul L hs]

theorem moonModel_eq_mul (L : Libm K) (hs : L.inversesqrt 1 = 1) (parent moon : Planet K) :
    moonModel L parent moon =
      Mat4.mul (Mat4.mul (Mat4.mul (Mat4.mul (Mat4.mul (Mat4.mul
        (rotationY L parent.currentOrbitAngle) (translation ⟨parent.distance, 0, 0⟩))
        (rotationY L moon.currentOrbitAngle)) (translation ⟨moon.distance, 0, 0⟩))
        (rotationZ L (radians L moon.tilt))) (rotationY L moon.currentRotationAngle))
        (scaling moon.radius) := by
  simp only [moonModel, rotate_up_eq_mul L hs, rotate_z_eq_mul L hs, scale_eq_mul,
    moonOrbitModel_eq_mul L hs]

theorem planetModel_c3 (L : Libm K) (p : Planet K) :
    (planetModel L p).c3 = (orbitModel L p).c3 := rfl

theorem moonModel_c3 (L : Libm K) (parent moon : Planet K) :
    (moonModel L parent moon).c3 = (moonOrbitModel L parent moon).c3 := rfl

theorem planetModel_anchor (L : Libm K) (hs : L.inversesqrt 1 = 1) (p : Planet K) :
    Vec4.toVec3 (planetModel L p).c3 =
      ⟨p.distance * L.cos p.currentOrbitAngle, 0, -(p.distance * L.sin p.currentOrbitAngle)⟩ := by
  rw [planetModel_c3, orbitModel_anchor L hs]
  simp only [rotateAboutUp, Vec3.mk.injEq]
  refine ⟨?_, trivial, ?_⟩ <;> ring

theorem frameModels_anchors (L : Libm K) (s : Scene K) :
    (frameModels L s).map (fun m => Vec4.toVec3 m.c3) = (frameTick L s).planetPositions := by
  rw [frameTick_planetPositions, frameModels, List.map_map]
  rfl

theorem frameMoonModel_anchor (L : Libm K) (s : Scene K) (earth : Planet K)
    (h : s.planets[3]? = some earth) :
    frameMoonModel L s = some (moonModel L (advance earth) s.moon) ∧
      (frameMoonModel L s).map (fun m => Vec4.toVec3 m.c3) = some (frameTick L s).moonPosition := by
  have h1 : frameMoonModel L s = some (moonModel L (advance earth) s.moon) := by
    simp only [frameMoonModel, h, Option.map_some']
  refine ⟨h1, ?_⟩
  rw [h1, Option.map_some', moonModel_c3]
  match hps : s.planets, h with
  | p0 :: p1 :: p2 :: p3 :: rest, h3 =>
    have hpe : p3 = earth := by simpa using h3
    subst hpe
    have hm2 := congrArg Prod.snd (frameTick_moon L s p0 p1 p2 p3 rest hps)
    simp only [moonBlock] at hm2
    rw [hm2]
    rfl

/-- C16 (as the code has it): for every planet of the list the model matrix
built in a frame is
`R_y(orbitAngle) * T(distance, 0, 0) * R_z(radians(tilt)) * R_y(rotationAngle) * S(radius)`
and its translation column is the recorded anchor
`(distance * cos(orbitAngle), 0, -distance * sin(orbitAngle))`, whatever the
tilt, rotation angle and radius. The Moon's matrix has the parent's
`R_y(parentAngle) * T(parentDistance, 0, 0)` in front of the same five factors;
its translation column is the Moon's recorded anchor `moonPosition`. So tilt,
spin and scale never move a body's anchor. -/
theorem model_matrix_factors (L : Libm K) (hs : L.inversesqrt 1 = 1) (s : Scene K)
    (p parent moon : Planet K) :
    (planetModel L p =
        Mat4.mul (Mat4.mul (Mat4.mul (Mat4.mul (rotationY L p.currentOrbitAngle)
          (translation ⟨p.distance, 0, 0⟩)) (rotationZ L (radians L p.tilt)))
          (rotationY L p.currentRotationAngle)) (scaling p.radius) ∧
      Vec4.toVec3 (planetModel L p).c3 =
        ⟨p.distance * L.cos p.currentOrbitAngle, 0,
          -(p.distance * L.sin p.currentOrbitAngle)⟩ ∧
      Vec4.toVec3 (planetModel L p).c3 = Vec4.toVec3 (orbitModel L p).c3 ∧
      (frameModels L s).map (fun m => Vec4.toVec3 m.c3) = (frameTick L s).planetPositions) ∧
    (moonModel L parent moon =
        Mat4.mul (Mat4.mul (Mat4.mul (Mat4.mul (Mat4.mul (Mat4.mul
          (rotationY L parent.currentOrbitAngle) (translation ⟨parent.distance, 0, 0⟩))
          (rotationY L moon.currentOrbitAngle)) (translation ⟨moon.distance, 0, 0⟩))
          (rotationZ L (radians L moon.tilt))) (rotationY L moon.currentRotationAngle))
          (scaling moon.radius) ∧
      Vec4.toVec3 (moonModel L parent moon).c3 =
        Vec4.toVec3 (moonOrbitModel L parent moon).c3 ∧
      (∀ earth : Planet K, s.planets[3]? = some earth →
        frameMoonModel L s = some (moonModel L (advance earth) s.moon) ∧
          (frameMoonModel L s).map (fun m => Vec4.toVec3 m.c3) =
            some (frameTick L s).moonPosition)) :=
  ⟨⟨planetModel_eq_mul L hs p, planetModel_anchor L hs p, rfl, frameModels_anchors L s⟩,
    moonModel_eq_mul L hs parent moon, rfl, fun earth h => frameMoonModel_anchor L s earth h⟩

/-- Witness for C16: the Earth at orbit angle `0`, whose anchor is `(9, 0, 0)`. -/
theorem model_matrix_factors_witness :
    seriesLibm.inversesqrt 1 = 1 ∧
      Vec4.toVec3 (planetModel seriesLibm (bodyWithTrail [])).c3 = ⟨9, 0, 0⟩ := by
  refine ⟨rfl, ?_⟩
  rw [(model_matrix_factors seriesLibm rfl (initScene (fun _ => 0) 0) (bodyWithTrail [])
    (bodyWithTrail []) (bodyWithTrail [])).1.2.1]
  simp only [bodyWithTrail, mkBody, seriesLibm]
  norm_num

/-- C16, counterexample: the Moon is a body whose model matrix the first frame of
the program builds, and the translation column of that matrix is not
`(distance * cos(orbitAngle), 0, -distance * sin(orbitAngle))` for the Moon's
own distance `2.5` and orbit angle `0`; the matrix is not the five-factor
product of the claim. -/
theorem moon_model_not_five_factors :
    ∃ M : Mat4 ℝ,
      frameMoonModel ⟨Real.cos, Real.sin, fun x => 1 / Real.sqrt x, Real.pi⟩
          (initScene (fun _ => 0) 0) = some M ∧
        Vec4.toVec3 M.c3 ≠
          ⟨(initScene (fun _ => 0) 0 : Scene ℝ).moon.distance *
              Real.cos (initScene (fun _ => 0) 0 : Scene ℝ).moon.currentOrbitAngle, 0,
            -((initScene (fun _ => 0) 0 : Scene ℝ).moon.distance *
              Real.sin (initScene (fun _ => 0) 0 : Scene ℝ).moon.currentOrbitAngle)⟩ ∧
        M ≠
          Mat4.mul (Mat4.mul (Mat4.mul (Mat4.mul
            (rotationY ⟨Real.cos, Real.sin, fun x => 1 / Real.sqrt x, Real.pi⟩
              (initScene (fun _ => 0) 0 : Scene ℝ).moon.currentOrbitAngle)
            (translation ⟨(initScene (fun _ => 0) 0 : Scene ℝ).moon.distance, 0, 0⟩))
            (rotationZ ⟨Real.cos, Real.sin, fun x => 1 / Real.sqrt x, Real.pi⟩
              (radians ⟨Real.cos, Real.sin, fun x => 1 / Real.sqrt x, Real.pi⟩
                (initScene (fun _ => 0) 0 : Scene ℝ).moon.tilt)))
            (rotationY ⟨Real.cos, Real.sin, fun x => 1 / Real.sqrt x, Real.pi⟩
              (initScene (fun _ => 0) 0 : Scene ℝ).moon.currentRotationAngle))
            (scaling (initScene (fun _ => 0) 0 : Scene ℝ).moon.radius) := by
  have hL : IsRealLibm ⟨Real.cos, Real.sin, fun x => 1 / Real.sqrt x, Real.pi⟩ :=
    ⟨rfl, rfl, fun _ => rfl, rfl⟩
  have hs := hL.inversesqrt_one
  have hpos : 0 < Real.sin (3 / 200) :=
    Real.sin_pos_of_pos_of_lt_pi (by norm_num) (by linarith [Real.pi_gt_three])
  obtain ⟨h1, _⟩ := frameMoonModel_anchor ⟨Real.cos, Real.sin, fun x => 1 / Real.sqrt x, Real.pi⟩
    (initScene (fun _ => 0) 0) (mkBody "Earth" 1.3 9.0 3.0 1.0 23.4 0 : Planet ℝ) rfl
  have hz : (Vec4.toVec3 (moonModel ⟨Real.cos, Real.sin, fun x => 1 / Real.sqrt x, Real.pi⟩
      (advance (mkBody "Earth" 1.3 9.0 3.0 1.0 23.4 0 : Planet ℝ))
      (initScene (fun _ => 0) 0 : Scene ℝ).moon).c3).z = -(Real.sin (3 / 200) * 11.5) := by
    rw [moonModel_c3, moonOrbitModel_anchor _ hs (fun a b => Real.cos_add a b)
      (fun a b => Real.sin_add a b)]
    simp only [Vec3.add, rotateAboutUp, advance, initScene, mkBody]
    norm_num
    ring
  refine ⟨_, h1, ?_, ?_⟩
  · intro heq
    have h2 := congrArg Vec3.z heq
    rw [hz] at h2
    simp only [initScene, mkBody] at h2
    norm_num at h2
    linarith
  · intro heq
    have h2 := congrArg (fun m : Mat4 ℝ => (Vec4.toVec3 m.c3).z) heq
    simp only at h2
    rw [hz, ← planetModel_eq_mul _ hs, planetModel_anchor _ hs] at h2
    simp only [initScene, mkBody] at h2
    norm_num at h2
    linarith

end ModelProofs

/-! ## Triangles of the sphere -/

section TriangleProofs

variable {K : Type} [LinearOrderedField K]

theorem range_succ_flatMap {β : Type} (n : Nat) (f : Nat → List β) :
    (List.range (n + 1)).flatMap f = f 0 ++ (List.range n).flatMap (fun d => f (d + 1)) := by
  rw [List.range_succ_eq_map, List.flatMap_cons, List.flatMap_map]

/-- The inner index loop, as long as no index reaches `2 ^ 32`: it appends the
triangles of the cells `j, j + 1, ..., sectors - 1` of row `i`. -/
theorem indexSectorLoop_exact (sectors stackCount i : Nat) (hS : sectors < 2 ^ 32)
    (hT1 : 1 ≤ stackCount) (hT : stackCount < 2 ^ 32) :
    ∀ (fuel j k1 k2 : Nat) (indices : List Nat), j ≤ sectors → sectors + 1 ≤ fuel + j →
      k1 ≤ k2 → k2 + (sectors - j) < 2 ^ 32 →
      indexSectorLoop sectors stackCount i fuel j k1 k2 indices =
        some (indices ++
          (List.range (sectors - j)).flatMap (fun d => cellAt stackCount i (k1 + d) (k2 + d))) := by
  intro fuel
  induction fuel with
  | zero => intro j k1 k2 indices hj hf; omega
  | succ fuel ih =>
    intro j k1 k2 indices hj hf hk hb
    by_cases hlt : j < sectors
    · simp only [indexSectorLoop, if_pos hlt]
      rw [wrap32_pred hT1 hT, wrap32_of_lt (show j + 1 < 2 ^ 32 by omega),
        wrap32_of_lt (show k1 + 1 < 2 ^ 32 by omega),
        wrap32_of_lt (show k2 + 1 < 2 ^ 32 by omega)]
      rw [ih (j + 1) (k1 + 1) (k2 + 1) _ (by omega) (by omega) (by omega) (by omega)]
      have e : sectors - j = (sectors - (j + 1)) + 1 := by omega
      rw [e, range_succ_flatMap]
      have e2 : ∀ d, cellAt stackCount i (k1 + (d + 1)) (k2 + (d + 1)) =
          cellAt stackCount i (k1 + 1 + d) (k2 + 1 + d) := by
        intro d
        have a1 : k1 + (d + 1) = k1 + 1 + d := by omega
        have a2 : k2 + (d + 1) = k2 + 1 + d := by omega
        rw [a1, a2]
      simp only [e2, Nat.add_zero]
      have hhead : (if i ≠ stackCount - 1 then
            (if i ≠ 0 then indices ++ [k1, k2, k1 + 1] else indices) ++ [k1 + 1, k2, k2 + 1]
          else (if i ≠ 0 then indices ++ [k1, k2, k1 + 1] else indices)) =
          indices ++ cellAt stackCount i k1 k2 := by
        unfold cellAt
        split_ifs <;> simp
      rw [hhead, List.append_assoc]
    · simp only [indexSectorLoop, if_neg hlt]
      have e : sectors - j = 0 := by omega
      rw [e]
      simp

/-- The outer index loop, as long as the vertex count `(S + 1) * (T + 1)` is at
most `2 ^ 32`: it appends the triangles of the rows `i, i + 1, ..., T - 1`. -/
theorem indexStackLoop_exact (sectors stackCount : Nat) (hT1 : 1 ≤ stackCount)
    (hb : (sectors + 1) * (stackCount + 1) ≤ 2 ^ 32) :
    ∀ (fuel i : Nat) (indices : List Nat), i ≤ stackCount →
      stackCount + 1 + (sectors + 1) ≤ fuel + i →
      indexStackLoop sectors stackCount fuel i indices =
        some (indices ++ (List.range (stackCount - i)).flatMap (fun d =>
          (List.range sectors).flatMap (fun j => cellTriangles sectors stackCount (i + d) j))) := by
  have hS2 : (sectors + 1) * 2 ≤ (sectors + 1) * (stackCount + 1) :=
    Nat.mul_le_mul_left _ (by omega)
  have hT2 : 1 * (stackCount + 1) ≤ (sectors + 1) * (stackCount + 1) :=
    Nat.mul_le_mul_right _ (by omega)
  have hS : sectors < 2 ^ 32 := by omega
  have hT : stackCount < 2 ^ 32 := by omega
  intro fuel
  induction fuel with
  | zero => intro i indices hi hf; omega
  | succ fuel ih =>
    intro i indices hi hf
    by_cases hlt : i < stackCount
    · have h1 : (i + 2) * (sectors + 1) ≤ (stackCount + 1) * (sectors + 1) :=
        Nat.mul_le_mul_right _ (by omega)
      have h2 : (i + 2) * (sectors + 1) = i * (sectors + 1) + 2 * (sectors + 1) := by ring
      have h3 : (stackCount + 1) * (sectors + 1) = (sectors + 1) * (stackCount + 1) := by ring
      have hA : i * (sectors + 1) + 2 * sectors + 2 ≤ 2 ^ 32 := by omega
      simp only [indexStackLoop, if_pos hlt]
      rw [wrap32_of_lt (show sectors + 1 < 2 ^ 32 by omega),
        wrap32_of_lt (show i * (sectors + 1) < 2 ^ 32 by omega),
        wrap32_of_lt (show i * (sectors + 1) + sectors < 2 ^ 32 by omega),
        wrap32_of_lt (show i * (sectors + 1) + sectors + 1 < 2 ^ 32 by omega),
        wrap32_of_lt (show i + 1 < 2 ^ 32 by omega)]
      rw [indexSectorLoop_exact sectors stackCount i hS hT1 hT fuel 0 _ _ indices (by omega)
        (by omega) (by omega) (by omega)]
      simp only
      rw [ih (i + 1) _ (by omega) (by omega)]
      have e : stackCount - i = (stackCount - (i + 1)) + 1 := by omega
      rw [e, range_succ_flatMap, Nat.sub_zero, List.append_assoc]
      have e2 : ∀ d, i + (d + 1) = i + 1 + d := by intro d; omega
      have e3 : ∀ d, cellAt stackCount i (i * (sectors + 1) + d)
          (i * (sectors + 1) + sectors + 1 + d) = cellTriangles sectors stackCount (i + 0) d := by
        intro d
        have a : i * (sectors + 1) + sectors + 1 + d = i * (sectors + 1) + d + sectors + 1 := by
          omega
        rw [a, Nat.add_zero]
        rfl
      have f1 : (fun d => cellAt stackCount i (i * (sectors + 1) + d)
          (i * (sectors + 1) + sectors + 1 + d)) =
          (fun j => cellTriangles sectors stackCount (i + 0) j) := funext e3
      have f2 : (fun d => (List.range sectors).flatMap
          (fun j => cellTriangles sectors stackCount (i + (d + 1)) j)) =
          (fun d => (List.range sectors).flatMap
            (fun j => cellTriangles sectors stackCount (i + 1 + d) j)) :=
        funext (fun d => by rw [e2 d])
      rw [f1, f2]
    · simp only [indexStackLoop, if_neg hlt]
      have e : stackCount - i = 0 := by omega
      rw [e]
      simp

theorem sectorLoop_indices (L : Libm K) (radius lengthInv xy z sectorStep : K)
    (sectors stackCount i : Nat) :
    ∀ (fuel j : Nat) (m r : SphereMesh K),
      sectorLoop L radius lengthInv xy z sectorStep sectors stackCount i fuel j m = some r →
        r.indices = m.indices := by
  intro fuel
  induction fuel with
  | zero => intro j m r h; simp [sectorLoop] at h
  | succ fuel ih =>
    intro j m r h
    simp only [sectorLoop] at h
    split_ifs at h with hle
    · have h2 := ih _ _ _ h
      exact h2
    · simp only [Option.some.injEq] at h
      rw [← h]

theorem stackLoop_indices (L : Libm K) (radius lengthInv sectorStep stackStep : K)
    (sectors stackCount : Nat) :
    ∀ (fuel i : Nat) (m r : SphereMesh K),
      stackLoop L radius lengthInv sectorStep stackStep sectors stackCount fuel i m = some r →
        r.indices = m.indices := by
  intro fuel
  induction fuel with
  | zero => intro i m r h; simp [stackLoop] at h
  | succ fuel ih =>
    intro i m r h
    simp only [stackLoop] at h
    split_ifs at h with hle
    · split at h
      · exact absurd h (by simp)
      · rename_i m1 hm1
        rw [ih _ _ _ h]
        exact sectorLoop_indices L radius lengthInv _ _ sectorStep sectors stackCount i fuel 0 m
          m1 hm1
    · simp only [Option.some.injEq] at h
      rw [← h]

/-- Every index that the inner index loop pushes is an `unsigned int` value. -/
theorem indexSectorLoop_lt (sectors stackCount i : Nat) :
    ∀ (fuel j k1 k2 : Nat) (indices r : List Nat), k1 < 2 ^ 32 → k2 < 2 ^ 32 →
      (∀ x ∈ indices, x < 2 ^ 32) →
      indexSectorLoop sectors stackCount i fuel j k1 k2 indices = some r →
        ∀ x ∈ r, x < 2 ^ 32 := by
  intro fuel
  induction fuel with
  | zero => intro j k1 k2 indices r _ _ _ h; simp [indexSectorLoop] at h
  | succ fuel ih =>
    intro j k1 k2 indices r hk1 hk2 hall h
    simp only [indexSectorLoop] at h
    split_ifs at h with hlt c2 c1 c1
    · refine ih _ _ _ _ r (wrap32_lt _) (wrap32_lt _) ?_ h
      intro x hx
      simp only [List.mem_append, List.mem_cons, List.mem_singleton, List.not_mem_nil,
        or_false] at hx
      rcases hx with (hx | hx | hx | hx) | hx | hx | hx
      · exact hall x hx
      · rw [hx]; exact hk1
      · rw [hx]; exact hk2
      · rw [hx]; exact wrap32_lt _
      · rw [hx]; exact wrap32_lt _
      · rw [hx]; exact hk2
      · rw [hx]; exact wrap32_lt _
    · refine ih _ _ _ _ r (wrap32_lt _) (wrap32_lt _) ?_ h
      intro x hx
      simp only [List.mem_append, List.mem_cons, List.mem_singleton, List.not_mem_nil,
        or_false] at hx
      rcases hx with hx | hx | hx | hx
      · exact hall x hx
      · rw [hx]; exact wrap32_lt _
      · rw [hx]; exact hk2
      · rw [hx]; exact wrap32_lt _
    · refine ih _ _ _ _ r (wrap32_lt _) (wrap32_lt _) ?_ h
      intro x hx
      simp only [List.mem_append, List.mem_cons, List.mem_singleton, List.not_mem_nil,
        or_false] at hx
      rcases hx with hx | hx | hx | hx
      · exact hall x hx
      · rw [hx]; exact hk1
      · rw [hx]; exact hk2
      · rw [hx]; exact wrap32_lt _
    · exact ih _ _ _ _ r (wrap32_lt _) (wrap32_lt _) hall h
    · simp only [Option.some.injEq] at h
      rw [← h]
      exact hall

/-- Every index that the outer index loop pushes is an `unsigned int` value. -/
theorem indexStackLoop_lt (sectors stackCount : Nat) :
    ∀ (fuel i : Nat) (indices r : List Nat), (∀ x ∈ indices, x < 2 ^ 32) →
      indexStackLoop sectors stackCount fuel i indices = some r → ∀ x ∈ r, x < 2 ^ 32 := by
  intro fuel
  induction fuel with
  | zero => intro i indices r _ h; simp [indexStackLoop] at h
  | succ fuel ih =>
    intro i indices r hall h
    simp only [indexStackLoop] at h
    split_ifs at h with hlt
    · split at h
      · exact absurd h (by simp)
      · rename_i r1 hr1
        exact ih _ _ r (indexSectorLoop_lt sectors stackCount i fuel 0 _ _ indices r1
          (wrap32_lt _) (wrap32_lt _) hall hr1) h
    · simp only [Option.some.injEq] at h
      rw [← h]
      exact hall

theorem generateSphere_indices_lt (L : Libm K) (fuel : Nat) (old m : SphereMesh K) (radius : K)
    (sectors stackCount : Nat)
    (h : generateSphere L fuel old radius sectors stackCount = some m) :
    ∀ x ∈ m.indices, x < 2 ^ 32 := by
  unfold generateSphere at h
  dsimp only at h
  split at h
  · exact absurd h (by simp)
  · rename_i r1 hr1
    split at h
    · exact absurd h (by simp)
    · rename_i idx hidx
      simp only [Option.some.injEq] at h
      rw [← h]
      have he := stackLoop_indices L radius _ _ _ sectors stackCount fuel 0 _ r1 hr1
      rw [he] at hidx
      exact indexStackLoop_lt sectors stackCount fuel 0 [] idx (by simp) hidx

theorem generateSphere_indices_exact (L : Libm K) (old : SphereMesh K) (radius : K)
    (sectors stackCount fuel : Nat) (hS1 : 1 ≤ sectors) (hT1 : 1 ≤ stackCount)
    (hb : (sectors + 1) * (stackCount + 1) ≤ 2 ^ 32)
    (hf : sectors + stackCount + 4 ≤ fuel) :
    ∃ m, generateSphere L fuel old radius sectors stackCount = some m ∧
      m.indices = expectedIndices sectors stackCount := by
  have hS2 : (sectors + 1) * 2 ≤ (sectors + 1) * (stackCount + 1) :=
    Nat.mul_le_mul_left _ (by omega)
  have hT2 : 2 * (stackCount + 1) ≤ (sectors + 1) * (stackCount + 1) :=
    Nat.mul_le_mul_right _ (by omega)
  unfold generateSphere
  obtain ⟨r1, hr1, _, _, _, a4⟩ := stackLoop_spec L radius (1.0 / radius)
    (2 * L.pi / (sectors : K)) (L.pi / (stackCount : K)) sectors stackCount
    (by omega) (by omega) fuel 0
    { old with vertices := [], normals := [], texCoords := [], indices := [] }
    (by omega) (by omega)
  have hidx := indexStackLoop_exact sectors stackCount hT1 hb fuel 0 r1.indices (by omega)
    (by omega)
  simp only [hr1, hidx]
  refine ⟨_, rfl, ?_⟩
  simp only [a4, List.nil_append, Nat.sub_zero, Nat.zero_add]
  rfl

/-- C17 (as the code has it): for `S ≥ 1` sectors and `T ≥ 2` stacks with at most
`2 ^ 32` vertices, `(S + 1) * (T + 1) ≤ 2 ^ 32`, `generateSphere` returns (any
fuel of at least `S + T + 4` is enough) and its index list is, cell by cell in
row-major order over `i < T`, `j < S`, with `k1 = i * (S + 1) + j` and
`k2 = k1 + S + 1`: the triangle `(k1, k2, k1 + 1)` if and only if `i ≠ 0`, then
the triangle `(k1 + 1, k2, k2 + 1)` if and only if `i ≠ T - 1`. So the first
stack has only `(k1 + 1, k2, k2 + 1)`, the last stack only `(k1, k2, k1 + 1)`,
every stack between has both. -/
theorem generateSphere_triangles (L : Libm K) (old : SphereMesh K) (radius : K)
    (sectors stackCount fuel : Nat) (hS1 : 1 ≤ sectors) (hT2 : 2 ≤ stackCount)
    (hb : (sectors + 1) * (stackCount + 1) ≤ 4294967296)
    (hf : sectors + stackCount + 4 ≤ fuel) :
    (∃ m, generateSphere L fuel old radius sectors stackCount = some m ∧
        m.indices =
          (List.range stackCount).flatMap (fun i =>
            (List.range sectors).flatMap (fun j =>
              (if i ≠ 0 then
                  [i * (sectors + 1) + j, i * (sectors + 1) + j + sectors + 1,
                    i * (sectors + 1) + j + 1]
                else []) ++
                (if i ≠ stackCount - 1 then
                  [i * (sectors + 1) + j + 1, i * (sectors + 1) + j + sectors + 1,
                    i * (sectors + 1) + j + sectors + 1 + 1]
                else [])))) ∧
      (∀ j, cellTriangles sectors stackCount 0 j =
        [0 * (sectors + 1) + j + 1, 0 * (sectors + 1) + j + sectors + 1,
          0 * (sectors + 1) + j + sectors + 1 + 1]) ∧
      (∀ j, cellTriangles sectors stackCount (stackCount - 1) j =
        [(stackCount - 1) * (sectors + 1) + j, (stackCount - 1) * (sectors + 1) + j + sectors + 1,
          (stackCount - 1) * (sectors + 1) + j + 1]) ∧
      (∀ i j, 0 < i → i < stackCount - 1 → cellTriangles sectors stackCount i j =
        [i * (sectors + 1) + j, i * (sectors + 1) + j + sectors + 1, i * (sectors + 1) + j + 1,
          i * (sectors + 1) + j + 1, i * (sectors + 1) + j + sectors + 1,
          i * (sectors + 1) + j + sectors + 1 + 1]) := by
  have hpow : (2 : Nat) ^ 32 = 4294967296 := by norm_num
  refine ⟨?_, ?_, ?_, ?_⟩
  · exact generateSphere_indices_exact L old radius sectors stackCount fuel hS1 (by omega)
      (by rw [hpow]; exact hb) hf
  · intro j
    have h1 : (0 : Nat) ≠ stackCount - 1 := by omega
    simp only [cellTriangles, cellAt, ne_eq, not_true_eq_false, if_false, h1, not_false_eq_true,
      if_true, List.nil_append]
  · intro j
    have h1 : stackCount - 1 ≠ 0 := by omega
    simp only [cellTriangles, cellAt, ne_eq, h1, not_false_eq_true, if_true, not_true_eq_false,
      if_false, List.append_nil]
  · intro i j h0 h1
    have c0 : i ≠ 0 := by omega
    have c1 : i ≠ stackCount - 1 := by omega
    simp only [cellTriangles, cellAt, ne_eq, c0, c1, not_false_eq_true, if_true,
      List.cons_append, List.nil_append]

/-- Witness for C17: the call of `main`, 36 sectors and 18 stacks (703 vertices). -/
theorem generateSphere_triangles_witness :
    (1 ≤ 36 ∧ 2 ≤ 18 ∧ (36 + 1) * (18 + 1) ≤ 4294967296 ∧ 36 + 18 + 4 ≤ 58) ∧
      ∃ m, generateSphere seriesLibm 58 ⟨[1], [2], [3], [7, 8, 9]⟩ 1 36 18 = some m ∧
        m.indices = expectedIndices 36 18 :=
  ⟨by decide,
    (generateSphere_triangles seriesLibm ⟨[1], [2], [3], [7, 8, 9]⟩ 1 36 18 58
      (by decide) (by decide) (by decide) (by decide)).1⟩

/-- C17, counterexample: with `S = 1431655765` sectors and `T = 2` stacks the
cell `(1, S - 1)` has `k2 = k1 + S + 1 = 2 ^ 32`, which is no `unsigned int`
value: the triangle `(k1, k2, k1 + 1)` that the claim lists there is not in
the index vector (the stored `k2` has wrapped round), although the call returns. -/
theorem generateSphere_index_wraps :
    (∃ m : SphereMesh ℚ,
        generateSphere seriesLibm 1431655771 ⟨[], [], [], []⟩ 1 1431655765 2 = some m) ∧
      ¬ ∃ (fuel : Nat) (m : SphereMesh ℚ),
        generateSphere seriesLibm fuel ⟨[], [], [], []⟩ 1 1431655765 2 = some m ∧
          m.indices = expectedIndices 1431655765 2 := by
  refine ⟨?_, ?_⟩
  · obtain ⟨m, hm, _⟩ := generateSphere_lengths seriesLibm ⟨[], [], [], []⟩ 1 1431655765 2
      1431655771 (by norm_num) (by norm_num) (by norm_num) (by norm_num)
    exact ⟨m, hm⟩
  rintro ⟨fuel, m, h, hidx⟩
  have hlt := generateSphere_indices_lt seriesLibm fuel _ m 1 1431655765 2 h
  have hmem : 4294967296 ∈ expectedIndices 1431655765 2 := by
    unfold expectedIndices
    refine List.mem_flatMap.mpr ⟨1, by simp, List.mem_flatMap.mpr ⟨1431655764, by simp, ?_⟩⟩
    simp [cellTriangles, cellAt]
  rw [← hidx] at hmem
  have := hlt _ hmem
  norm_num at this

end TriangleProofs

/-! ## Index range of the sphere mesh -/

section IndexRangeProofs

variable {K : Type} [LinearOrderedField K]

/-- When the call returns, its index vector is what the outer index loop has
built, entered at `i = 0` with the cleared vector. -/
theorem generateSphere_indexStackLoop (L : Libm K) (fuel : Nat) (old m : SphereMesh K)
    (radius : K) (sectors stackCount : Nat)
    (h : generateSphere L fuel old radius sectors stackCount = some m) :
    indexStackLoop sectors stackCount fuel 0 [] = some m.indices := by
  unfold generateSphere at h
  dsimp only at h
  split at h
  · exact absurd h (by simp)
  · rename_i r1 hr1
    split at h
    · exact absurd h (by simp)
    · rename_i idx hidx
      simp only [Option.some.injEq] at h
      rw [← h]
      have he := stackLoop_indices L radius _ _ _ sectors stackCount fuel 0 _ r1 hr1
      rw [he] at hidx
      exact hidx

/-- While no counter wraps, every index that the inner index loop pushes is
below `N`, when the last index of the row, `k2 + (sectors - j)`, is. -/
theorem indexSectorLoop_lt_count (sectors stackCount i N : Nat) (hN : N ≤ 2 ^ 32) :
    ∀ (fuel j k1 k2 : Nat) (indices r : List Nat), j ≤ k1 → k1 ≤ k2 →
      k2 + (sectors - j) < N → (∀ x ∈ indices, x < N) →
      indexSectorLoop sectors stackCount i fuel j k1 k2 indices = some r →
        ∀ x ∈ r, x < N := by
  intro fuel
  induction fuel with
  | zero => intro j k1 k2 indices r _ _ _ _ h; simp [indexSectorLoop] at h
  | succ fuel ih =>
    intro j k1 k2 indices r hj hk hlast hall h
    simp only [indexSectorLoop] at h
    by_cases hlt : j < sectors
    · have e1 : wrap32 (j + 1) = j + 1 := wrap32_of_lt (by omega)
      have e2 : wrap32 (k1 + 1) = k1 + 1 := wrap32_of_lt (by omega)
      have e3 : wrap32 (k2 + 1) = k2 + 1 := wrap32_of_lt (by omega)
      rw [if_pos hlt, e1, e2, e3] at h
      refine ih _ _ _ _ r (by omega) (by omega) (by omega) ?_ h
      intro x hx
      split_ifs at hx with c1 c2 c2
      · simp only [List.mem_append, List.mem_cons, List.mem_singleton, List.not_mem_nil,
          or_false] at hx
        rcases hx with (hx | hx | hx | hx) | hx | hx | hx
        · exact hall x hx
        all_goals omega
      · simp only [List.mem_append, List.mem_cons, List.mem_singleton, List.not_mem_nil,
          or_false] at hx
        rcases hx with hx | hx | hx | hx
        · exact hall x hx
        all_goals omega
      · simp only [List.mem_append, List.mem_cons, List.mem_singleton, List.not_mem_nil,
          or_false] at hx
        rcases hx with hx | hx | hx | hx
        · exact hall x hx
        all_goals omega
      · exact hall x hx
    · rw [if_neg hlt] at h
      simp only [Option.some.injEq] at h
      rw [← h]
      exact hall

/-- While the vertex count `(sectors + 1) * (stackCount + 1)` is an
`unsigned int` value or `2 ^ 32`, every index that the outer index loop pushes
is below it. -/
theorem indexStackLoop_lt_count (sectors stackCount : Nat)
    (hb : (sectors + 1) * (stackCount + 1) ≤ 2 ^ 32) :
    ∀ (fuel i : Nat) (indices r : List Nat),
      (∀ x ∈ indices, x < (sectors + 1) * (stackCount + 1)) →
      indexStackLoop sectors stackCount fuel i indices = some r →
        ∀ x ∈ r, x < (sectors + 1) * (stackCount + 1) := by
  intro fuel
  induction fuel with
  | zero => intro i indices r _ h; simp [indexStackLoop] at h
  | succ fuel ih =>
    intro i indices r hall h
    simp only [indexStackLoop] at h
    split_ifs at h with hlt
    · have h1 : (i + 2) * (sectors + 1) ≤ (stackCount + 1) * (sectors + 1) :=
        Nat.mul_le_mul_right _ (by omega)
      have h2 : (i + 2) * (sectors + 1) = i * (sectors + 1) + 2 * sectors + 2 := by ring
      have h3 : (stackCount + 1) * (sectors + 1) = (sectors + 1) * (stackCount + 1) :=
        Nat.mul_comm _ _
      have e0 : wrap32 (sectors + 1) = sectors + 1 := wrap32_of_lt (by omega)
      have e1 : wrap32 (i * (sectors + 1)) = i * (sectors + 1) := wrap32_of_lt (by omega)
      have e2 : wrap32 (i * (sectors + 1) + sectors) = i * (sectors + 1) + sectors :=
        wrap32_of_lt (by omega)
      have e3 : wrap32 (i * (sectors + 1) + sectors + 1) = i * (sectors + 1) + sectors + 1 :=
        wrap32_of_lt (by omega)
      rw [e0, e1, e2, e3] at h
      split at h
      · exact absurd h (by simp)
      · rename_i r1 hr1
        exact ih _ _ r (indexSectorLoop_lt_count sectors stackCount i _ hb fuel 0 _ _ indices r1
          (by omega) (by omega) (by omega) hall hr1) h
    · simp only [Option.some.injEq] at h
      rw [← h]
      exact hall

/-- Whenever `generateSphere` returns, every index of its index vector is below
the vertex count `(sectors + 1) * (stackCount + 1)`. -/
theorem generateSphere_indices_lt_count (L : Libm K) (fuel : Nat) (old m : SphereMesh K)
    (radius : K) (sectors stackCount : Nat)
    (h : generateSphere L fuel old radius sectors stackCount = some m) :
    ∀ x ∈ m.indices, x < (sectors + 1) * (stackCount + 1) := by
  by_cases hb : (sectors + 1) * (stackCount + 1) ≤ 2 ^ 32
  · exact indexStackLoop_lt_count sectors stackCount hb fuel 0 [] m.indices (by simp)
      (generateSphere_indexStackLoop L fuel old m radius sectors stackCount h)
  · intro x hx
    have := generateSphere_indices_lt L fuel old m radius sectors stackCount h x hx
    omega

/-- C21: for `T ≥ 1` stacks and any number of sectors (so for every `S ≥ 1`),
every index in the index vector that `generateSphere` returns is strictly below
the vertex count `(S + 1) * (T + 1)`: each triangle refers to generated
vertices only. The call does return, with `(S + 1) * (T + 1)` vertices (three
floats each), for all `S` and `T` other than the largest `unsigned int` value
(any fuel of at least `S + T + 4` is enough). -/
theorem generateSphere_indices_in_range (L : Libm K) (old : SphereMesh K) (radius : K)
    (sectors stackCount fuel : Nat) (hT1 : 1 ≤ stackCount) :
    (∀ m, generateSphere L fuel old radius sectors stackCount = some m →
        ∀ x ∈ m.indices, x < (sectors + 1) * (stackCount + 1)) ∧
      (sectors ≤ 4294967294 → stackCount ≤ 4294967294 → sectors + stackCount + 4 ≤ fuel →
        ∃ m, generateSphere L fuel old radius sectors stackCount = some m ∧
          m.vertices.length = 3 * ((sectors + 1) * (stackCount + 1)) ∧
          ∀ x ∈ m.indices, x < (sectors + 1) * (stackCount + 1)) := by
  refine ⟨fun m h => generateSphere_indices_lt_count L fuel old m radius sectors stackCount h,
    ?_⟩
  intro hS hT hf
  obtain ⟨m, hm, hv, _⟩ :=
    generateSphere_lengths L old radius sectors stackCount fuel hS hT1 hT hf
  refine ⟨m, hm, ?_, generateSphere_indices_lt_count L fuel old m radius sectors stackCount hm⟩
  rw [hv, Nat.mul_comm (stackCount + 1)]

/-- Witness for C21: the call of `main`, 36 sectors and 18 stacks: every index is
below `703 = 37 * 19`. -/
theorem generateSphere_indices_in_range_witness :
    1 ≤ 18 ∧
      ∃ m, generateSphere seriesLibm 58 ⟨[1], [2], [3], [7, 8, 9]⟩ 1 36 18 = some m ∧
        m.vertices.length = 3 * ((36 + 1) * (18 + 1)) ∧
        ∀ x ∈ m.indices, x < (36 + 1) * (18 + 1) :=
  ⟨by decide,
    (generateSphere_indices_in_range seriesLibm ⟨[1], [2], [3], [7, 8, 9]⟩ 1 36 18 58
      (by decide)).2 (by decide) (by decide) (by decide)⟩

end IndexRangeProofs

/-! ## A decrease that increases -/

section SpeedKeyProofs

variable {K : Type} [LinearOrderedField K]

/-- The multipliers after a run of presses of the Left key: the slow-down rule
iterated. -/
theorem run_left_multipliers (L : Libm K) (scancode mods : Int) :
    ∀ (n : Nat) (s : Scene K),
      ((run L s (List.replicate n (Input.key GLFW_KEY_LEFT scancode GLFW_PRESS mods))).rotationSpeed,
        (run L s (List.replicate n (Input.key GLFW_KEY_LEFT scancode GLFW_PRESS mods))).orbitSpeed) =
      (fun p : K × K => (max (0.8 * p.1) 0.05, max (0.8 * p.2) 0.025))^[n]
        (s.rotationSpeed, s.orbitSpeed) := by
  intro n
  induction n with
  | zero => intro s; rfl
  | succ n ih =>
    intro s
    have h := keyCallback_multipliers s GLFW_KEY_LEFT scancode GLFW_PRESS mods
    rw [if_pos (Or.inl rfl), if_neg (by decide), if_neg (by decide), if_neg (by decide),
      if_pos rfl] at h
    rw [List.replicate_succ, Function.iterate_succ, Function.comp_apply]
    have h2 := ih (keyCallback s GLFW_KEY_LEFT scancode GLFW_PRESS mods)
    rw [h] at h2
    exact h2

theorem slowedScene_multipliers (L : Libm K) (loadTexture : String → Nat) (font : Int) :
    (slowedScene L loadTexture font).rotationSpeed = 0.05 ∧
      (slowedScene L loadTexture font).orbitSpeed = 0.025 := by
  have h := run_left_multipliers L 0 0 14 (initScene loadTexture font)
  have e : (fun p : K × K => (max (0.8 * p.1) 0.05, max (0.8 * p.2) 0.025))^[14]
      ((initScene loadTexture font : Scene K).rotationSpeed,
        (initScene loadTexture font : Scene K).orbitSpeed) = (0.05, 0.025) := by
    simp only [Function.iterate_succ, Function.iterate_zero, Function.comp_apply, id_eq,
      initScene]
    norm_num [max_def]
  rw [e] at h
  exact ⟨congrArg Prod.fst h, congrArg Prod.snd h⟩

/-- C22: fourteen slow-down events (Left key) and nothing else take the start-up
multipliers `(1.0, 0.5)` to `(0.05, 0.025)`, the floors of the slow-down
branch; there a single "decrease" event (Down key) gives `(0.1, 0.05)`: it
strictly increases both multipliers. -/
theorem decrease_can_increase (L : Libm K) (loadTexture : String → Nat) (font : Int)
    (scancode mods : Int) :
    slowedScene L loadTexture font =
        run L (initScene loadTexture font)
          (List.replicate 14 (Input.key GLFW_KEY_LEFT 0 GLFW_PRESS 0)) ∧
      (initScene loadTexture font : Scene K).rotationSpeed = 1.0 ∧
      (initScene loadTexture font : Scene K).orbitSpeed = 0.5 ∧
      (slowedScene L loadTexture font).rotationSpeed = 0.05 ∧
      (slowedScene L loadTexture font).orbitSpeed = 0.025 ∧
      (keyCallback (slowedScene L loadTexture font) GLFW_KEY_DOWN scancode GLFW_PRESS
        mods).rotationSpeed = 0.1 ∧
      (keyCallback (slowedScene L loadTexture font) GLFW_KEY_DOWN scancode GLFW_PRESS
        mods).orbitSpeed = 0.05 ∧
      (slowedScene L loadTexture font).rotationSpeed <
        (keyCallback (slowedScene L loadTexture font) GLFW_KEY_DOWN scancode GLFW_PRESS
          mods).rotationSpeed ∧
      (slowedScene L loadTexture font).orbitSpeed <
        (keyCallback (slowedScene L loadTexture font) GLFW_KEY_DOWN scancode GLFW_PRESS
          mods).orbitSpeed := by
  obtain ⟨h1, h2⟩ := slowedScene_multipliers L loadTexture font
  have h := keyCallback_multipliers (slowedScene L loadTexture font) GLFW_KEY_DOWN scancode
    GLFW_PRESS mods
  rw [if_pos (Or.inl rfl), if_neg (by decide), if_pos rfl, h1, h2] at h
  have h3 := congrArg Prod.fst h
  have h4 := congrArg Prod.snd h
  simp only at h3 h4
  have e3 : max ((0.05 : K) - 0.1) 0.1 = 0.1 := max_eq_right (by norm_num)
  have e4 : max ((0.025 : K) - 0.05) 0.05 = 0.05 := max_eq_right (by norm_num)
  rw [e3] at h3
  rw [e4] at h4
  refine ⟨rfl, rfl, rfl, h1, h2, h3, h4, ?_, ?_⟩
  · rw [h1, h3]; norm_num
  · rw [h2, h4]; norm_num

end SpeedKeyProofs

/-! ## Rotating drag -/

section RotateProofs

variable {K : Type} [LinearOrderedField K]

theorem mouseCallback_rotate (L : Libm K) (s : Scene K) (xpos ypos : K)
    (hl : s.leftMousePressed = true) (hr : s.rightMousePressed = false) :
    mouseCallback L s xpos ypos =
      { s with
        lastX := xpos, lastY := ypos, firstMouse := false,
        cameraPos := Vec3.add s.cameraTarget
          (rotatedOffset L s.cameraPos s.cameraTarget s.cameraUp
            (mouseOffsets s xpos ypos).1 (mouseOffsets s xpos ypos).2) } := by
  cases hf : s.firstMouse
  · simp only [mouseCallback, mouseOffsets, rotatedOffset, hf, hl, hr, if_true, if_false,
      Bool.false_eq_true]
  · simp only [mouseCallback, mouseOffsets, rotatedOffset, hf, hl, hr, if_true, if_false,
      Bool.false_eq_true]

/-- The function `glm::rotate(m, angle, v)` multiplies `m` on the right by the
rotation that it builds from the identity. -/
theorem rotate_eq_mul (L : Libm K) (m : Mat4 K) (angle : K) (v : Vec3 K) :
    rotate L m angle v = Mat4.mul m (rotate L Mat4.identity angle v) := by
  obtain ⟨⟨a0, a1, a2, a3⟩, ⟨b0, b1, b2, b3⟩, ⟨c0, c1, c2, c3⟩, ⟨d0, d1, d2, d3⟩⟩ := m
  simp only [rotate, Mat4.mul, Mat4.mulVec, Mat4.identity, Vec4.add, Vec4.smul, Vec3.smul]
  congr 1 <;> congr 1 <;> ring

/-- A rotation about a unit axis keeps the length of the `xyz` part of a
vector, when `cos ^ 2 + sin ^ 2 = 1` at its angle. -/
theorem rotate_identity_dot (L : Libm K) (angle : K) (v : Vec3 K) (q : Vec4 K)
    (hc : L.cos angle ^ 2 + L.sin angle ^ 2 = 1)
    (ha : Vec3.dot (Vec3.normalize L v) (Vec3.normalize L v) = 1) :
    Vec3.dot (Vec4.toVec3 (Mat4.mulVec (rotate L Mat4.identity angle v) q))
        (Vec4.toVec3 (Mat4.mulVec (rotate L Mat4.identity angle v) q)) =
      Vec3.dot (Vec4.toVec3 q) (Vec4.toVec3 q) := by
  simp only [rotate]
  generalize Vec3.normalize L v = a at ha ⊢
  obtain ⟨a1, a2, a3⟩ := a
  obtain ⟨q1, q2, q3, q4⟩ := q
  simp only [Mat4.mulVec, Mat4.identity, Vec4.add, Vec4.smul, Vec4.toVec3, Vec3.dot,
    Vec3.smul] at ha ⊢
  linear_combination
    (q1 * q1 + q2 * q2 + q3 * q3 - (a1 * q1 + a2 * q2 + a3 * q3) ^ 2) * hc +
      ((1 - L.cos angle) ^ 2 * (a1 * q1 + a2 * q2 + a3 * q3) ^ 2 +
        L.sin angle ^ 2 * (q1 * q1 + q2 * q2 + q3 * q3)) * ha

theorem Vec3.dot_self_pos (v : Vec3 K) (hv : v ≠ ⟨0, 0, 0⟩) : 0 < Vec3.dot v v := by
  by_contra h
  obtain ⟨x, y, z⟩ := v
  simp only [Vec3.dot, not_lt] at h
  have hx := mul_self_nonneg x
  have hy := mul_self_nonneg y
  have hz := mul_self_nonneg z
  have ex : x = 0 := mul_self_eq_zero.mp (by linarith)
  have ey : y = 0 := mul_self_eq_zero.mp (by linarith)
  have ez : z = 0 := mul_self_eq_zero.mp (by linarith)
  exact hv (by rw [ex, ey, ez])

/-- Over the reals `glm::normalize` of a vector other than zero is a unit
vector. -/
theorem normalize_dot_self (L : Libm ℝ) (hL : IsRealLibm L) (v : Vec3 ℝ)
    (hv : v ≠ ⟨0, 0, 0⟩) : Vec3.dot (Vec3.normalize L v) (Vec3.normalize L v) = 1 := by
  have hpos := Vec3.dot_self_pos v hv
  have hs : Real.sqrt (Vec3.dot v v) * Real.sqrt (Vec3.dot v v) = Vec3.dot v v :=
    Real.mul_self_sqrt hpos.le
  have hne : Real.sqrt (Vec3.dot v v) ≠ 0 := (Real.sqrt_pos.mpr hpos).ne'
  simp only [Vec3.normalize, hL.2.2.1]
  generalize Real.sqrt (Vec3.dot v v) = r at hs hne
  obtain ⟨x, y, z⟩ := v
  simp only [Vec3.dot, Vec3.smul] at hs ⊢
  field_simp
  linear_combination -hs

/-- Over the reals, when `up` and `d` are not parallel, neither is zero and
`cross(up, normalize(d))` is not zero. -/
theorem cross_normalize_ne_zero (L : Libm ℝ) (hL : IsRealLibm L) (up d : Vec3 ℝ)
    (hpar : Vec3.cross up d ≠ ⟨0, 0, 0⟩) :
    up ≠ ⟨0, 0, 0⟩ ∧ d ≠ ⟨0, 0, 0⟩ ∧ Vec3.cross up (Vec3.normalize L d) ≠ ⟨0, 0, 0⟩ := by
  have hup : up ≠ ⟨0, 0, 0⟩ := by
    intro h
    apply hpar
    rw [h]
    simp [Vec3.cross]
  have hd : d ≠ ⟨0, 0, 0⟩ := by
    intro h
    apply hpar
    rw [h]
    simp [Vec3.cross]
  refine ⟨hup, hd, ?_⟩
  have hpos := Vec3.dot_self_pos d hd
  have hne : (1 : ℝ) / Real.sqrt (Vec3.dot d d) ≠ 0 :=
    one_div_ne_zero (Real.sqrt_pos.mpr hpos).ne'
  intro h
  apply hpar
  simp only [Vec3.normalize, hL.2.2.1] at h
  generalize (1 : ℝ) / Real.sqrt (Vec3.dot d d) = k at hne h
  obtain ⟨u1, u2, u3⟩ := up
  obtain ⟨d1, d2, d3⟩ := d
  simp only [Vec3.cross, Vec3.smul, Vec3.mk.injEq] at h ⊢
  obtain ⟨h1, h2, h3⟩ := h
  refine ⟨?_, ?_, ?_⟩
  · have : (u2 * d3 - d2 * u3) * k = 0 := by linear_combination h1
    exact (mul_eq_zero.mp this).resolve_right hne
  · have : (u3 * d1 - d3 * u1) * k = 0 := by linear_combination h2
    exact (mul_eq_zero.mp this).resolve_right hne
  · have : (u1 * d2 - d1 * u2) * k = 0 := by linear_combination h3
    exact (mul_eq_zero.mp this).resolve_right hne

/-- Over the reals the rotating branch keeps the squared length of
`position - target`, when that offset and `up` are not parallel. -/
theorem rotatedOffset_dot (L : Libm ℝ) (hL : IsRealLibm L) (position target up : Vec3 ℝ)
    (dx dy : ℝ) (hpar : Vec3.cross up (Vec3.sub position target) ≠ ⟨0, 0, 0⟩) :
    Vec3.dot (rotatedOffset L position target up dx dy)
        (rotatedOffset L position target up dx dy) =
      Vec3.dot (Vec3.sub position target) (Vec3.sub position target) := by
  obtain ⟨hup, _, hright⟩ := cross_normalize_ne_zero L hL up _ hpar
  have hc : ∀ x : ℝ, L.cos x ^ 2 + L.sin x ^ 2 = 1 := by
    intro x
    rw [hL.1, hL.2.1]
    exact Real.cos_sq_add_sin_sq x
  have hright1 : Vec3.normalize L (Vec3.normalize L
      (Vec3.cross up (Vec3.normalize L (Vec3.sub position target)))) =
      Vec3.normalize L (Vec3.cross up (Vec3.normalize L (Vec3.sub position target))) := by
    have h1 := normalize_dot_self L hL _ hright
    have e : ∀ w : Vec3 ℝ, Vec3.dot w w = 1 → Vec3.normalize L w = w := by
      intro w hw
      obtain ⟨x, y, z⟩ := w
      simp only [Vec3.normalize, hw, hL.2.2.1, Real.sqrt_one, Vec3.smul]
      norm_num
    exact e _ h1
  simp only [rotatedOffset]
  rw [rotate_eq_mul, Mat4.mulVec_mul, rotate_identity_dot L _ up _ (hc _)
    (normalize_dot_self L hL up hup), rotate_identity_dot L _ _ _ (hc _)
    (by rw [hright1]; exact normalize_dot_self L hL _ hright)]
  rfl

theorem rotatingScene_eq (L : Libm K) :
    rotatingScene L =
      { (initScene (fun _ => 0) 0 : Scene K) with
        lastX := 640, lastY := 360, firstMouse := false, leftMousePressed := true } := by
  unfold rotatingScene
  rw [mouseCallback_idle L _ 640 360 rfl rfl]
  simp [mouseButtonCallback, GLFW_MOUSE_BUTTON_LEFT, GLFW_MOUSE_BUTTON_RIGHT, GLFW_PRESS]

theorem rotatingScene_offsets (L : Libm K) :
    mouseOffsets (rotatingScene L) 650 350 = (10, -10) := by
  rw [rotatingScene_eq]
  simp only [mouseOffsets, Bool.false_eq_true, if_false, Prod.mk.injEq]
  constructor <;> norm_num

theorem rotatingScene_not_parallel (L : Libm K) :
    Vec3.cross (rotatingScene L).cameraUp
      (Vec3.sub (rotatingScene L).cameraPos (rotatingScene L).cameraTarget) ≠ ⟨0, 0, 0⟩ := by
  rw [rotatingScene_eq]
  simp only [initScene, Vec3.cross, Vec3.sub, ne_eq, Vec3.mk.injEq, not_and]
  norm_num

theorem normalize_xAxis (L : Libm ℝ) (hL : IsRealLibm L) (a : ℝ) (ha : 0 < a) :
    Vec3.normalize L ⟨a, 0, 0⟩ = ⟨1, 0, 0⟩ := by
  have e : Vec3.dot (⟨a, 0, 0⟩ : Vec3 ℝ) ⟨a, 0, 0⟩ = a * a := by
    simp only [Vec3.dot]; ring
  simp only [Vec3.normalize, e, hL.2.2.1, Real.sqrt_mul_self ha.le, Vec3.smul, Vec3.mk.injEq]
  refine ⟨?_, ?_, ?_⟩
  · field_simp
  · ring
  · ring

/-- Over the reals the right vector of the default camera, at `(0, 100, 230)`
looking at the origin with up-vector `(0, 1, 0)`, is `(1, 0, 0)`. -/
theorem defaultCamera_right (L : Libm ℝ) (hL : IsRealLibm L) :
    Vec3.normalize L (Vec3.cross (⟨0, 1, 0⟩ : Vec3 ℝ)
      (Vec3.normalize L (⟨0, 100, 230⟩ : Vec3 ℝ))) = ⟨1, 0, 0⟩ := by
  have hk : (0 : ℝ) < 1 / Real.sqrt (0 * 0 + 100 * 100 + 230 * 230) := by
    apply one_div_pos.mpr
    apply Real.sqrt_pos.mpr
    norm_num
  have hdir : Vec3.normalize L (⟨0, 100, 230⟩ : Vec3 ℝ) =
      ⟨0, 100 * (1 / Real.sqrt (0 * 0 + 100 * 100 + 230 * 230)),
        230 * (1 / Real.sqrt (0 * 0 + 100 * 100 + 230 * 230))⟩ := by
    simp only [Vec3.normalize, Vec3.dot, hL.2.2.1, Vec3.smul, zero_mul]
  have hcross : ∀ k : ℝ, Vec3.cross (⟨0, 1, 0⟩ : Vec3 ℝ) ⟨0, 100 * k, 230 * k⟩ =
      ⟨230 * k, 0, 0⟩ := by
    intro k
    simp only [Vec3.cross, Vec3.mk.injEq]
    refine ⟨?_, ?_, ?_⟩ <;> ring
  rw [hdir, hcross, normalize_xAxis L hL _ (by linarith)]

theorem normalize_yAxis (L : Libm ℝ) (hL : IsRealLibm L) :
    Vec3.normalize L (⟨0, 1, 0⟩ : Vec3 ℝ) = ⟨0, 1, 0⟩ := by
  have e : Vec3.dot (⟨0, 1, 0⟩ : Vec3 ℝ) ⟨0, 1, 0⟩ = 1 := by
    simp only [Vec3.dot]; norm_num
  simp only [Vec3.normalize, e, hL.inversesqrt_one, Vec3.smul]
  norm_num

/-- In the rotating example the pointer-move by `(10, -10)` turns the camera: its
`x` coordinate, `0` before, is negative afterwards. -/
theorem rotatingScene_moves (L : Libm ℝ) (hL : IsRealLibm L) :
    (rotatingScene L).cameraPos.x = 0 ∧
      (mouseCallback L (rotatingScene L) 650 350).cameraPos.x < 0 := by
  have hl : (rotatingScene L).leftMousePressed = true := by rw [rotatingScene_eq]
  have hr : (rotatingScene L).rightMousePressed = false := by rw [rotatingScene_eq]; rfl
  have hs5 : 0 < Real.sin (1 / 20) :=
    Real.sin_pos_of_pos_of_lt_pi (by norm_num) (by linarith [Real.pi_gt_three])
  have hc5 : 0 < Real.cos (1 / 20) :=
    Real.cos_pos_of_mem_Ioo ⟨by linarith [Real.pi_gt_three], by linarith [Real.pi_gt_three]⟩
  constructor
  · rw [rotatingScene_eq]
    simp only [initScene]
    norm_num
  · rw [mouseCallback_rotate L _ 650 350 hl hr, rotatingScene_offsets]
    simp only [rotatingScene_eq]
    simp only [initScene, rotatedOffset, Vec3.sub, mouseSpeed]
    norm_num
    rw [defaultCamera_right L hL]
    simp only [rotate, normalize_yAxis L hL, normalize_xAxis L hL 1 one_pos, Mat4.mulVec, Mat4.identity,
      Vec4.ofVec3, Vec4.add, Vec4.smul, Vec4.toVec3, Vec3.add, Vec3.smul, hL.1, hL.2.1,
      Real.sin_neg, Real.cos_neg]
    ring_nf
    nlinarith [mul_pos hs5 hs5, mul_pos hs5 hc5]

/-- C23: over the reals, a pointer-move to any `(xpos, ypos)` while only the
primary button is held, with `position - target` and `up` not parallel (so
neither is zero), leaves the camera target, the up-vector and the zoom as they
are and keeps the distance `|position - target|`: the camera moves on a sphere
around the target. The new position is the target plus the turned offset. -/
theorem rotate_keeps_distance (L : Libm ℝ) (hL : IsRealLibm L) (s : Scene ℝ) (xpos ypos : ℝ)
    (hl : s.leftMousePressed = true) (hr : s.rightMousePressed = false)
    (hpar : Vec3.cross s.cameraUp (Vec3.sub s.cameraPos s.cameraTarget) ≠ ⟨0, 0, 0⟩) :
    (mouseCallback L s xpos ypos).cameraTarget = s.cameraTarget ∧
      (mouseCallback L s xpos ypos).cameraUp = s.cameraUp ∧
      (mouseCallback L s xpos ypos).cameraZoom = s.cameraZoom ∧
      (mouseCallback L s xpos ypos).cameraPos =
        Vec3.add s.cameraTarget
          (rotatedOffset L s.cameraPos s.cameraTarget s.cameraUp
            (mouseOffsets s xpos ypos).1 (mouseOffsets s xpos ypos).2) ∧
      Vec3.dot
          (Vec3.sub (mouseCallback L s xpos ypos).cameraPos
            (mouseCallback L s xpos ypos).cameraTarget)
          (Vec3.sub (mouseCallback L s xpos ypos).cameraPos
            (mouseCallback L s xpos ypos).cameraTarget) =
        Vec3.dot (Vec3.sub s.cameraPos s.cameraTarget) (Vec3.sub s.cameraPos s.cameraTarget) ∧
      Real.sqrt (Vec3.dot
          (Vec3.sub (mouseCallback L s xpos ypos).cameraPos
            (mouseCallback L s xpos ypos).cameraTarget)
          (Vec3.sub (mouseCallback L s xpos ypos).cameraPos
            (mouseCallback L s xpos ypos).cameraTarget)) =
        Real.sqrt
          (Vec3.dot (Vec3.sub s.cameraPos s.cameraTarget)
            (Vec3.sub s.cameraPos s.cameraTarget)) := by
  have hsub : ∀ t r : Vec3 ℝ, Vec3.sub (Vec3.add t r) t = r := by
    intro t r
    obtain ⟨t1, t2, t3⟩ := t
    obtain ⟨r1, r2, r3⟩ := r
    simp only [Vec3.sub, Vec3.add, add_sub_cancel_left]
  have hdot :
      Vec3.dot
          (Vec3.sub (mouseCallback L s xpos ypos).cameraPos
            (mouseCallback L s xpos ypos).cameraTarget)
          (Vec3.sub (mouseCallback L s xpos ypos).cameraPos
            (mouseCallback L s xpos ypos).cameraTarget) =
        Vec3.dot (Vec3.sub s.cameraPos s.cameraTarget)
          (Vec3.sub s.cameraPos s.cameraTarget) := by
    rw [mouseCallback_rotate L s xpos ypos hl hr]
    simp only [hsub]
    exact rotatedOffset_dot L hL _ _ _ _ _ hpar
  refine ⟨?_, ?_, ?_, ?_, hdot, ?_⟩
  · rw [mouseCallback_rotate L s xpos ypos hl hr]
  · rw [mouseCallback_rotate L s xpos ypos hl hr]
  · rw [mouseCallback_rotate L s xpos ypos hl hr]
  · rw [mouseCallback_rotate L s xpos ypos hl hr]
  · rw [hdot]

/-- Witness for C23: the start-up scene after a first pointer sample at
`(640, 360)` and a press of the primary button (camera at `(0, 100, 230)`,
target the origin, up `(0, 1, 0)`), pointer moved to `(650, 350)`: the delta is
`(10, -10)`, the camera is turned (its `x` goes from `0` to a negative value)
and keeps its distance from the target. -/
theorem rotate_keeps_distance_witness :
    IsRealLibm ⟨Real.cos, Real.sin, fun x => 1 / Real.sqrt x, Real.pi⟩ ∧
      (rotatingScene
        (⟨Real.cos, Real.sin, fun x => 1 / Real.sqrt x, Real.pi⟩ : Libm ℝ)).leftMousePressed = true ∧
      (rotatingScene
        (⟨Real.cos, Real.sin, fun x => 1 / Real.sqrt x, Real.pi⟩ : Libm ℝ)).rightMousePressed = false ∧
      Vec3.cross
          (rotatingScene
            (⟨Real.cos, Real.sin, fun x => 1 / Real.sqrt x, Real.pi⟩ : Libm ℝ)).cameraUp
          (Vec3.sub
            (rotatingScene
              (⟨Real.cos, Real.sin, fun x => 1 / Real.sqrt x, Real.pi⟩ : Libm ℝ)).cameraPos
            (rotatingScene
              (⟨Real.cos, Real.sin, fun x => 1 / Real.sqrt x, Real.pi⟩ : Libm ℝ)).cameraTarget) ≠
        ⟨0, 0, 0⟩ ∧
      mouseOffsets
          (rotatingScene
            (⟨Real.cos, Real.sin, fun x => 1 / Real.sqrt x, Real.pi⟩ : Libm ℝ))
          650 350 = (10, -10) ∧
      (rotatingScene
        (⟨Real.cos, Real.sin, fun x => 1 / Real.sqrt x, Real.pi⟩ : Libm ℝ)).cameraPos.x = 0 ∧
      (mouseCallback ⟨Real.cos, Real.sin, fun x => 1 / Real.sqrt x, Real.pi⟩
        (rotatingScene
          (⟨Real.cos, Real.sin, fun x => 1 / Real.sqrt x, Real.pi⟩ : Libm ℝ))
        650 350).cameraPos.x < 0 ∧
      Vec3.dot
          (Vec3.sub
            (mouseCallback ⟨Real.cos, Real.sin, fun x => 1 / Real.sqrt x, Real.pi⟩
              (rotatingScene
                (⟨Real.cos, Real.sin, fun x => 1 / Real.sqrt x, Real.pi⟩ : Libm ℝ))
              650 350).cameraPos
            (mouseCallback ⟨Real.cos, Real.sin, fun x => 1 / Real.sqrt x, Real.pi⟩
              (rotatingScene
                (⟨Real.cos, Real.sin, fun x => 1 / Real.sqrt x, Real.pi⟩ : Libm ℝ))
              650 350).cameraTarget)
          (Vec3.sub
            (mouseCallback ⟨Real.cos, Real.sin, fun x => 1 / Real.sqrt x, Real.pi⟩
              (rotatingScene
                (⟨Real.cos, Real.sin, fun x => 1 / Real.sqrt x, Real.pi⟩ : Libm ℝ))
              650 350).cameraPos
            (mouseCallback ⟨Real.cos, Real.sin, fun x => 1 / Real.sqrt x, Real.pi⟩
              (rotatingScene
                (⟨Real.cos, Real.sin, fun x => 1 / Real.sqrt x, Real.pi⟩ : Libm ℝ))
              650 350).cameraTarget) =
        Vec3.dot
          (Vec3.sub
            (rotatingScene
              (⟨Real.cos, Real.sin, fun x => 1 / Real.sqrt x, Real.pi⟩ : Libm ℝ)).cameraPos
            (rotatingScene
              (⟨Real.cos, Real.sin, fun x => 1 / Real.sqrt x, Real.pi⟩ : Libm ℝ)).cameraTarget)
          (Vec3.sub
            (rotatingScene
              (⟨Real.cos, Real.sin, fun x => 1 / Real.sqrt x, Real.pi⟩ : Libm ℝ)).cameraPos
            (rotatingScene
              (⟨Real.cos, Real.sin, fun x => 1 / Real.sqrt x, Real.pi⟩ : Libm ℝ)).cameraTarget) :=
  ⟨⟨rfl, rfl, fun _ => rfl, rfl⟩, by rw [rotatingScene_eq], by rw [rotatingScene_eq]; rfl,
    rotatingScene_not_parallel _, rotatingScene_offsets _,
    (rotatingScene_moves _ ⟨rfl, rfl, fun _ => rfl, rfl⟩).1,
    (rotatingScene_moves _ ⟨rfl, rfl, fun _ => rfl, rfl⟩).2,
    (rotate_keeps_distance ⟨Real.cos, Real.sin, fun x => 1 / Real.sqrt x, Real.pi⟩
      ⟨rfl, rfl, fun _ => rfl, rfl⟩
      (rotatingScene
        (⟨Real.cos, Real.sin, fun x => 1 / Real.sqrt x, Real.pi⟩ : Libm ℝ))
      650 350 (by rw [rotatingScene_eq]) (by rw [rotatingScene_eq]; rfl)
      (rotatingScene_not_parallel _)).2.2.2.2.1⟩

end RotateProofs

/-! ## Reset and the next pointer sample -/

section ResetDragProofs

variable {K : Type} [LinearOrderedField K]

theorem mouseCallbackFloat_eq_drag (toFloat : K → K) (L : Libm K) (s : Scene K) (xpos ypos : K) :
    mouseCallbackFloat toFloat L s xpos ypos =
      dragCamera L { s with lastX := toFloat xpos, lastY := toFloat ypos, firstMouse := false }
        (toFloat (xpos - if s.firstMouse then toFloat xpos else s.lastX))
        (toFloat (ypos - if s.firstMouse then toFloat ypos else s.lastY)) := by
  cases hf : s.firstMouse
  · simp only [mouseCallbackFloat, dragCamera, hf, if_false, Bool.false_eq_true]
  · simp only [mouseCallbackFloat, dragCamera, hf, if_true]

theorem mouseCallback_eq_drag (L : Libm K) (s : Scene K) (xpos ypos : K) :
    mouseCallback L s xpos ypos =
      dragCamera L { s with lastX := xpos, lastY := ypos, firstMouse := false }
        (mouseOffsets s xpos ypos).1 (mouseOffsets s xpos ypos).2 := by
  cases hf : s.firstMouse
  · simp only [mouseCallback, mouseOffsets, dragCamera, hf, if_false, Bool.false_eq_true]
  · simp only [mouseCallback, mouseOffsets, dragCamera, hf, if_true]

theorem mouseCallbackFloat_id (L : Libm K) (s : Scene K) (xpos ypos : K) :
    mouseCallbackFloat id L s xpos ypos = mouseCallback L s xpos ypos := by
  simp only [mouseCallbackFloat, mouseCallback, id_eq]

theorem dragCamera_last (L : Libm K) (s : Scene K) (xoffset yoffset : K) :
    (dragCamera L s xoffset yoffset).lastX = s.lastX ∧
      (dragCamera L s xoffset yoffset).lastY = s.lastY := by
  unfold dragCamera
  simp only [apply_ite Scene.lastX, apply_ite Scene.lastY, ite_self, and_self]

theorem rotate_zero (L : Libm K) (h1 : L.cos 0 = 1) (h2 : L.sin 0 = 0) (m : Mat4 K)
    (v : Vec3 K) : rotate L m 0 v = m := by
  obtain ⟨⟨a0, a1, a2, a3⟩, ⟨b0, b1, b2, b3⟩, ⟨c0, c1, c2, c3⟩, ⟨d0, d1, d2, d3⟩⟩ := m
  simp only [rotate, h1, h2, Vec4.add, Vec4.smul, Vec3.smul]
  congr 1 <;> congr 1 <;> ring

/-- With the delta `(0, 0)` neither drag block moves the camera, when
`cos 0 = 1` and `sin 0 = 0`. -/
theorem dragCamera_zero (L : Libm K) (h1 : L.cos 0 = 1) (h2 : L.sin 0 = 0) (s : Scene K) :
    dragCamera L s 0 0 = s := by
  have e0 : -(0 : K) * mouseSpeed * 0.01 = 0 := by ring
  have eadd : ∀ t p : Vec3 K,
      Vec3.add t (Vec4.toVec3 (Mat4.mulVec Mat4.identity (Vec4.ofVec3 (Vec3.sub p t) 1.0))) =
        p := by
    intro t p
    obtain ⟨t1, t2, t3⟩ := t
    obtain ⟨p1, p2, p3⟩ := p
    simp only [Vec3.add, Vec3.sub, Vec4.toVec3, Vec4.ofVec3, Mat4.mulVec, Mat4.identity,
      Vec4.add, Vec4.smul, Vec3.mk.injEq]
    refine ⟨?_, ?_, ?_⟩ <;> ring
  have epan : ∀ (p r u : Vec3 K) (z : K),
      Vec3.add p (Vec3.sdiv (Vec3.smul (Vec3.smul
        (Vec3.add (Vec3.smul (Vec3.smul (Vec3.neg r) 0) mouseSpeed)
          (Vec3.smul (Vec3.smul u 0) mouseSpeed)) 0.25) z) 45.0) = p := by
    intro p r u z
    obtain ⟨p1, p2, p3⟩ := p
    simp only [Vec3.add, Vec3.sdiv, Vec3.smul, Vec3.neg, Vec3.mk.injEq]
    refine ⟨?_, ?_, ?_⟩ <;> simp
  obtain ⟨rs, os, cp, ct, cu, cz, fm, lx, ly, lp, rp, sn, cf, pl, mo, pp, mp, wc⟩ := s
  cases lp <;> cases rp <;>
    simp only [dragCamera, e0, rotate_zero L h1 h2, eadd, epan, if_true, if_false,
      Bool.false_eq_true]

end ResetDragProofs

section FloatProofs

variable {K : Type} [LinearOrderedField K] [FloorRing K]

theorem toFloat32_zero : toFloat32 (0 : K) = 0 := by
  simp [toFloat32]

/-- The value of `toFloat32 x` from the binade `2 ^ e ≤ |x| < 2 ^ (e + 1)` of
`x` and the integer part `f` of `x / 2 ^ (e - 23)`. -/
theorem toFloat32_eq (x : K) (e f : Int) (hx : x ≠ 0) (he : -126 ≤ e)
    (h1 : (2 : K) ^ e ≤ |x|) (h2 : |x| < (2 : K) ^ (e + 1))
    (hf1 : (f : K) ≤ x / 2 ^ (e - 23)) (hf2 : x / 2 ^ (e - 23) < f + 1) :
    toFloat32 x =
      ((if x / 2 ^ (e - 23) - f < 1 / 2 then f
        else if 1 / 2 < x / 2 ^ (e - 23) - f then f + 1
        else if f % 2 = 0 then f else f + 1 : Int) : K) * 2 ^ (e - 23) := by
  have hpos : 0 < |x| := abs_pos.mpr hx
  have hlog : Int.log 2 |x| = e := by
    have a1 : e ≤ Int.log 2 |x| := by
      have := (Int.zpow_le_iff_le_log (by norm_num : 1 < 2) hpos).mp
        (by simpa using h1 : ((2 : ℕ) : K) ^ e ≤ |x|)
      exact this
    have a2 : Int.log 2 |x| < e + 1 := by
      have := (Int.lt_zpow_iff_log_lt (by norm_num : 1 < 2) hpos).mp
        (by simpa using h2 : |x| < ((2 : ℕ) : K) ^ (e + 1))
      exact this
    omega
  have hfl : ⌊x / 2 ^ (e - 23)⌋ = f := Int.floor_eq_iff.mpr ⟨hf1, hf2⟩
  simp only [toFloat32, if_neg hx, hlog, max_eq_left he, hfl]

theorem toFloat32_650 : toFloat32 (650 : K) = 650 := by
  rw [toFloat32_eq 650 9 10649600 (by norm_num) (by norm_num) (by norm_num) (by norm_num)
    (by norm_num) (by norm_num)]
  norm_num

theorem toFloat32_350 : toFloat32 (350 : K) = 350 := by
  rw [toFloat32_eq 350 8 11468800 (by norm_num) (by norm_num) (by norm_num) (by norm_num)
    (by norm_num) (by norm_num)]
  norm_num

theorem toFloat32_360 : toFloat32 (360 : K) = 360 := by
  rw [toFloat32_eq 360 8 11796480 (by norm_num) (by norm_num) (by norm_num) (by norm_num)
    (by norm_num) (by norm_num)]
  norm_num

/-- The `double` value `640 + 2 ^ (-20)` is not a `float`: it is rounded to
`640`. -/
theorem toFloat32_subpixel : toFloat32 (640 + 1 / 1048576 : K) = 640 := by
  rw [toFloat32_eq (640 + 1 / 1048576) 9 10485760 (by norm_num) (by norm_num)
    (by rw [abs_of_pos (by norm_num)]; norm_num)
    (by rw [abs_of_pos (by norm_num)]; norm_num) (by norm_num) (by norm_num)]
  norm_num

theorem toFloat32_small : toFloat32 (1 / 1048576 : K) = 1 / 1048576 := by
  rw [toFloat32_eq (1 / 1048576) (-20) 8388608 (by norm_num) (by norm_num)
    (by rw [abs_of_pos (by norm_num)]; norm_num)
    (by rw [abs_of_pos (by norm_num)]; norm_num) (by norm_num) (by norm_num)]
  norm_num

end FloatProofs


section ResetProofs

variable {K : Type} [LinearOrderedField K]

/-- C12 (as the code has it): after the reset key (R pressed), from any state,
the camera is at `(0, 100, 230)`, looks at `(0, 0, 0)` with up-vector
`(0, 1, 0)` and zoom `15`, and the first-sample flag is set. The next
pointer-move, to any `(xpos, ypos)` and whatever pointer position was stored,
stores the coordinates converted to `float` and runs the two drag blocks with
the delta `(toFloat (xpos - toFloat xpos), toFloat (ypos - toFloat ypos))`,
the rounding error of the conversion. When `xpos` and `ypos` are `float`
values (and in exact arithmetic, where the conversion is the identity and the
callback is `mouseCallback`) the delta is `(0, 0)` and the stored position is
`(xpos, ypos)`; with the delta `(0, 0)` the drag blocks leave the scene as it
is, when `cos 0 = 1` and `sin 0 = 0`. -/
theorem reset_restores_camera (toFloat : K → K) (L : Libm K) (s : Scene K)
    (scancode mods : Int) (xpos ypos : K) :
    (keyCallback s GLFW_KEY_R scancode GLFW_PRESS mods).cameraPos = ⟨0, 100, 230⟩ ∧
      (keyCallback s GLFW_KEY_R scancode GLFW_PRESS mods).cameraTarget = ⟨0, 0, 0⟩ ∧
      (keyCallback s GLFW_KEY_R scancode GLFW_PRESS mods).cameraUp = ⟨0, 1, 0⟩ ∧
      (keyCallback s GLFW_KEY_R scancode GLFW_PRESS mods).cameraZoom = 15 ∧
      (keyCallback s GLFW_KEY_R scancode GLFW_PRESS mods).firstMouse = true ∧
      mouseCallbackFloat toFloat L (keyCallback s GLFW_KEY_R scancode GLFW_PRESS mods) xpos ypos =
        dragCamera L
          { keyCallback s GLFW_KEY_R scancode GLFW_PRESS mods with
            lastX := toFloat xpos, lastY := toFloat ypos, firstMouse := false }
          (toFloat (xpos - toFloat xpos)) (toFloat (ypos - toFloat ypos)) ∧
      (mouseCallbackFloat toFloat L (keyCallback s GLFW_KEY_R scancode GLFW_PRESS mods)
        xpos ypos).lastX = toFloat xpos ∧
      (mouseCallbackFloat toFloat L (keyCallback s GLFW_KEY_R scancode GLFW_PRESS mods)
        xpos ypos).lastY = toFloat ypos ∧
      (toFloat 0 = 0 → toFloat xpos = xpos → toFloat ypos = ypos →
        mouseCallbackFloat toFloat L (keyCallback s GLFW_KEY_R scancode GLFW_PRESS mods)
            xpos ypos =
          dragCamera L
            { keyCallback s GLFW_KEY_R scancode GLFW_PRESS mods with
              lastX := xpos, lastY := ypos, firstMouse := false } 0 0 ∧
        (mouseCallbackFloat toFloat L (keyCallback s GLFW_KEY_R scancode GLFW_PRESS mods)
          xpos ypos).lastX = xpos ∧
        (mouseCallbackFloat toFloat L (keyCallback s GLFW_KEY_R scancode GLFW_PRESS mods)
          xpos ypos).lastY = ypos) ∧
      mouseCallbackFloat id L (keyCallback s GLFW_KEY_R scancode GLFW_PRESS mods) xpos ypos =
        mouseCallback L (keyCallback s GLFW_KEY_R scancode GLFW_PRESS mods) xpos ypos ∧
      mouseCallback L (keyCallback s GLFW_KEY_R scancode GLFW_PRESS mods) xpos ypos =
        dragCamera L
          { keyCallback s GLFW_KEY_R scancode GLFW_PRESS mods with
            lastX := xpos, lastY := ypos, firstMouse := false } 0 0 ∧
      (L.cos 0 = 1 → L.sin 0 = 0 →
        dragCamera L
            { keyCallback s GLFW_KEY_R scancode GLFW_PRESS mods with
              lastX := xpos, lastY := ypos, firstMouse := false } 0 0 =
          { keyCallback s GLFW_KEY_R scancode GLFW_PRESS mods with
            lastX := xpos, lastY := ypos, firstMouse := false }) := by
  obtain ⟨h1, h2, h3, h4, h5⟩ := keyCallback_reset s scancode mods
  have hF := mouseCallbackFloat_eq_drag toFloat L
    (keyCallback s GLFW_KEY_R scancode GLFW_PRESS mods) xpos ypos
  rw [h5] at hF
  simp only [if_true] at hF
  have hE := mouseCallback_eq_drag L (keyCallback s GLFW_KEY_R scancode GLFW_PRESS mods)
    xpos ypos
  rw [mouseOffsets_of_firstMouse _ xpos ypos h5] at hE
  refine ⟨h1, h2, h3, h4, h5, hF, ?_, ?_, ?_, mouseCallbackFloat_id L _ xpos ypos, hE, ?_⟩
  · rw [hF, (dragCamera_last L _ _ _).1]
  · rw [hF, (dragCamera_last L _ _ _).2]
  · intro h0 hx hy
    rw [hF, hx, hy, sub_self, sub_self, h0]
    exact ⟨rfl, (dragCamera_last L _ _ _).1, (dragCamera_last L _ _ _).2⟩
  · intro hc hs
    exact dragCamera_zero L hc hs _

/-- Witness for C12: the reset key in the start-up scene, then a pointer-move to
`(650, 350)`, two `float` values. -/
theorem reset_restores_camera_witness :
    toFloat32 (0 : ℚ) = 0 ∧ toFloat32 (650 : ℚ) = 650 ∧ toFloat32 (350 : ℚ) = 350 ∧
      (mouseCallbackFloat toFloat32 seriesLibm
        (keyCallback (initScene (fun _ => 0) 0) GLFW_KEY_R 0 GLFW_PRESS 0) 650 350).lastX = 650 ∧
      (mouseCallbackFloat toFloat32 seriesLibm
        (keyCallback (initScene (fun _ => 0) 0) GLFW_KEY_R 0 GLFW_PRESS 0) 650 350).lastY = 350 :=
  ⟨toFloat32_zero, toFloat32_650, toFloat32_350,
    ((reset_restores_camera toFloat32 seriesLibm (initScene (fun _ => 0) 0) 0 0 650
      350).2.2.2.2.2.2.2.2.1 toFloat32_zero toFloat32_650 toFloat32_350).2⟩

theorem resetPanningScene_eq (L : Libm K) :
    resetPanningScene L =
      { (initScene (fun _ => 0) 0 : Scene K) with
        lastX := 640, lastY := 360, firstMouse := true, rightMousePressed := true } := by
  unfold resetPanningScene
  rw [mouseCallback_idle L _ 640 360 rfl rfl]
  simp [mouseButtonCallback, keyCallback, initScene, GLFW_MOUSE_BUTTON_LEFT,
    GLFW_MOUSE_BUTTON_RIGHT, GLFW_PRESS, GLFW_REPEAT, GLFW_KEY_R, GLFW_KEY_ESCAPE, GLFW_KEY_UP,
    GLFW_KEY_DOWN, GLFW_KEY_LEFT, GLFW_KEY_RIGHT, GLFW_KEY_LEFT_CONTROL, GLFW_KEY_RIGHT_CONTROL,
    GLFW_KEY_F, DEFAULT_CAMERA_POS, DEFAULT_CAMERA_TARGET, DEFAULT_CAMERA_UP,
    DEFAULT_CAMERA_ZOOM]

/-- C12, counterexample: the start-up scene over the reals, panning, right after
a reset; the pointer moves to `(640 + 2 ^ (-20), 360)`, whose `x` is a `double`
but not a `float`. The stored `lastX` is `640`, not the event's coordinate;
the delta is `(2 ^ (-20), 0)`, not `(0, 0)`; and the camera, at
`(0, 100, 230)` after the reset, is moved by the pan. -/
theorem reset_delta_is_rounding_error :
    toFloat32 (640 + 1 / 1048576 : ℝ) = 640 ∧
      mouseCallbackFloat toFloat32 ⟨Real.cos, Real.sin, fun x => 1 / Real.sqrt x, Real.pi⟩
          (resetPanningScene ⟨Real.cos, Real.sin, fun x => 1 / Real.sqrt x, Real.pi⟩)
          (640 + 1 / 1048576) 360 =
        dragCamera ⟨Real.cos, Real.sin, fun x => 1 / Real.sqrt x, Real.pi⟩
          { resetPanningScene ⟨Real.cos, Real.sin, fun x => 1 / Real.sqrt x, Real.pi⟩ with
            lastX := 640, lastY := 360, firstMouse := false }
          (1 / 1048576) 0 ∧
      (mouseCallbackFloat toFloat32 ⟨Real.cos, Real.sin, fun x => 1 / Real.sqrt x, Real.pi⟩
          (resetPanningScene ⟨Real.cos, Real.sin, fun x => 1 / Real.sqrt x, Real.pi⟩)
          (640 + 1 / 1048576) 360).lastX = 640 ∧
      (resetPanningScene
        (⟨Real.cos, Real.sin, fun x => 1 / Real.sqrt x, Real.pi⟩ : Libm ℝ)).cameraPos =
          ⟨0, 100, 230⟩ ∧
      (mouseCallbackFloat toFloat32 ⟨Real.cos, Real.sin, fun x => 1 / Real.sqrt x, Real.pi⟩
          (resetPanningScene ⟨Real.cos, Real.sin, fun x => 1 / Real.sqrt x, Real.pi⟩)
          (640 + 1 / 1048576) 360).cameraPos = ⟨-(1 / 25165824), 100, 230⟩ ∧
      (mouseCallbackFloat toFloat32 ⟨Real.cos, Real.sin, fun x => 1 / Real.sqrt x, Real.pi⟩
          (resetPanningScene ⟨Real.cos, Real.sin, fun x => 1 / Real.sqrt x, Real.pi⟩)
          (640 + 1 / 1048576) 360).lastX ≠ 640 + 1 / 1048576 ∧
      (mouseCallbackFloat toFloat32 ⟨Real.cos, Real.sin, fun x => 1 / Real.sqrt x, Real.pi⟩
          (resetPanningScene ⟨Real.cos, Real.sin, fun x => 1 / Real.sqrt x, Real.pi⟩)
          (640 + 1 / 1048576) 360).cameraPos ≠
        (resetPanningScene
          (⟨Real.cos, Real.sin, fun x => 1 / Real.sqrt x, Real.pi⟩ : Libm ℝ)).cameraPos := by
  have hL : IsRealLibm ⟨Real.cos, Real.sin, fun x => 1 / Real.sqrt x, Real.pi⟩ :=
    ⟨rfl, rfl, fun _ => rfl, rfl⟩
  generalize (⟨Real.cos, Real.sin, fun x => 1 / Real.sqrt x, Real.pi⟩ : Libm ℝ) = L at hL ⊢
  have hfm : (resetPanningScene L).firstMouse = true := by rw [resetPanningScene_eq]
  have hF := mouseCallbackFloat_eq_drag toFloat32 L (resetPanningScene L) (640 + 1 / 1048576) 360
  have e1 : (640 + 1 / 1048576 - 640 : ℝ) = 1 / 1048576 := by norm_num
  rw [hfm] at hF
  simp only [if_true, toFloat32_subpixel, toFloat32_360, sub_self, toFloat32_zero, e1,
    toFloat32_small] at hF
  have hlast : (mouseCallbackFloat toFloat32 L (resetPanningScene L)
      (640 + 1 / 1048576) 360).lastX = 640 := by
    rw [hF, (dragCamera_last L _ _ _).1]
  have hbefore : (resetPanningScene L).cameraPos = ⟨0, 100, 230⟩ := by
    rw [resetPanningScene_eq]
    simp only [initScene, Vec3.mk.injEq]
    norm_num
  have hafter : (mouseCallbackFloat toFloat32 L (resetPanningScene L)
      (640 + 1 / 1048576) 360).cameraPos = ⟨-(1 / 25165824), 100, 230⟩ := by
    rw [hF]
    simp only [resetPanningScene_eq]
    simp only [initScene, dragCamera, Vec3.sub, mouseSpeed, if_true, if_false,
      Bool.false_eq_true]
    norm_num
    rw [defaultCamera_right L hL]
    generalize Vec3.normalize L (⟨0, 100, 230⟩ : Vec3 ℝ) = dir
    obtain ⟨d1, d2, d3⟩ := dir
    simp only [Vec3.add, Vec3.sdiv, Vec3.smul, Vec3.neg, Vec3.cross, Vec3.mk.injEq]
    refine ⟨?_, ?_, ?_⟩ <;> norm_num
  refine ⟨toFloat32_subpixel, hF, hlast, hbefore, hafter, ?_, ?_⟩
  · rw [hlast]
    norm_num
  · rw [hafter, hbefore]
    intro h
    have h2 := congrArg Vec3.x h
    norm_num at h2

end ResetProofs

end SolarSystem
